import Mathlib

/-!
# Dojo: the progression and economy engine

A shallow embedding of `internal/domain` (the `User` and `Task` aggregates) and of the
orchestration use cases of `internal/core` (`TaskService`, `UserService`).

Modelling conventions.

* Go `int` and `int64` are `Int`; the development reasons about values for which the
  64-bit arithmetic of the program does not wrap.
* `time.Time` is an `Int` (an instant counted in nanoseconds), `time.Duration` is an `Int`
  number of nanoseconds.  Every method that reads the clock takes the instant `now` as an
  argument; a use case reads the clock once.
* A method with a pointer receiver that mutates the receiver returns the receiver after
  the call, next to what the Go method returns (`Option DomainError` for `error`,
  `none` being `nil`).
* The repositories are the ports of `internal/ports`: a store that reads and writes whole
  aggregates by key.  A read of an absent key is the not-found error of the adapter; a
  write can fail with an error of the infrastructure, decided by an `Infra` value.
-/

namespace Dojo

/-! ## `internal/domain/errors.go` -/

/-- The sentinel errors of the domain package, and `infrastructure` for an error that a
repository or the AI port returns and the core passes through unchanged. -/
inductive DomainError where
  | ErrUserNotFound
  | ErrUserAlreadyExists
  | ErrInsufficientGold
  | ErrInsufficientEnergy
  | ErrNoSenseiRequests
  | ErrLicenseInactive
  | ErrTaskNotFound
  | ErrTaskNotActive
  | ErrTaskNotInProgress
  | ErrTaskExpired
  | ErrTaskAlreadyStarted
  | ErrInvalidTelegramData
  | ErrUnauthorized
  | ErrRaidNotFound
  | ErrCannotRaidSelf
  | ErrPlayerNotInactive
  | ErrAIServiceUnavailable
  | ErrAIAnalysisFailed
  | infrastructure
  deriving DecidableEq

open DomainError

/-! ## Time -/

/-- An instant, in nanoseconds counted from the zero value of `time.Time`. -/
abbrev Time := Int

/-- A duration, in nanoseconds. -/
abbrev Duration := Int

/-- The duration `time.Hour`. -/
def hour : Duration := 3600000000000

/-- Seven calendar days, the offset of `AddDate(0, 0, 7)`. -/
def sevenDays : Duration := 7 * 24 * hour

/-- Go integer division `a / b`, which truncates toward zero. -/
def goDiv (a b : Int) : Int := Int.tdiv a b

/-- The conversion `int(float64(x) * 1.5)`: the product is exact in binary floating point
while `3 * x` stays below `2 ^ 53` in absolute value, and the conversion to `int`
truncates toward zero. -/
def mulOneAndHalf (x : Int) : Int := Int.tdiv (3 * x) 2

/-- The conversion `int(float64(x) * 0.2)`: for `x` below `2 ^ 50` in absolute value the
rounded product has the integer part of the exact quotient of `x` by 5, and the conversion
to `int` truncates toward zero. -/
def mulOneFifth (x : Int) : Int := Int.tdiv x 5

/-! ## `internal/domain/user.go` -/

/-- The user aggregate (`type User struct`). -/
structure User where
  ID : Int
  TelegramID : Int
  Username : String
  FirstName : String
  PhotoURL : String
  Level : Int
  XP : Int
  XPToNextLvl : Int
  Gold : Int
  Energy : Int
  MaxEnergy : Int
  Strength : Int
  Agility : Int
  Intelligence : Int
  Insight : Int
  LicenseActive : Bool
  LastLicenseCheck : Time
  LicenseExpiresAt : Time
  SenseiRequests : Int
  SenseiResetsAt : Time
  CreatedAt : Time
  UpdatedAt : Time
  LastActiveAt : Time
  deriving DecidableEq

/-- The zero value of `User`, which a composite literal completes. -/
def User.zero : User :=
  { ID := 0, TelegramID := 0, Username := "", FirstName := "", PhotoURL := "", Level := 0,
    XP := 0, XPToNextLvl := 0, Gold := 0, Energy := 0, MaxEnergy := 0, Strength := 0,
    Agility := 0, Intelligence := 0, Insight := 0, LicenseActive := false,
    LastLicenseCheck := 0, LicenseExpiresAt := 0, SenseiRequests := 0, SenseiResetsAt := 0,
    CreatedAt := 0, UpdatedAt := 0, LastActiveAt := 0 }

/-- `func (u *User) CalculateXPToNextLevel() int`. -/
def User.CalculateXPToNextLevel (u : User) : Int :=
  goDiv (100 * u.Level * u.Level) 2

/-- `func (u *User) LevelUp()`. -/
def User.LevelUp (u : User) : User :=
  let u1 := { u with Level := u.Level + 1 }
  let u2 := { u1 with XP := u1.XP - u1.XPToNextLvl }
  let u3 := { u2 with XPToNextLvl := u2.CalculateXPToNextLevel }
  let u4 := { u3 with MaxEnergy := u3.MaxEnergy + 10 }
  let u5 := { u4 with Energy := u4.MaxEnergy }
  { u5 with Gold := u5.Gold + u5.Level * 10 }

/-- `func (u *User) AddXP(xp int) bool`: the user after the call and the returned flag. -/
def User.AddXP (u : User) (xp : Int) : User × Bool :=
  let u1 := { u with XP := u.XP + xp }
  let u2 := { u1 with XPToNextLvl := u1.CalculateXPToNextLevel }
  if u2.XP ≥ u2.XPToNextLvl then (u2.LevelUp, true) else (u2, false)

/-- `func (u *User) AddGold(amount int)`. -/
def User.AddGold (u : User) (amount : Int) : User :=
  let u1 := { u with Gold := u.Gold + amount }
  if u1.Gold < 0 then { u1 with Gold := 0 } else u1

/-- `func (u *User) SpendGold(amount int) error`. -/
def User.SpendGold (u : User) (amount : Int) : User × Option DomainError :=
  if u.Gold < amount then (u, some ErrInsufficientGold)
  else ({ u with Gold := u.Gold - amount }, none)

/-- `func (u *User) HasEnoughEnergy(required int) bool`. -/
def User.HasEnoughEnergy (u : User) (required : Int) : Bool :=
  decide (u.Energy ≥ required)

/-- `func (u *User) SpendEnergy(amount int) error`. -/
def User.SpendEnergy (u : User) (amount : Int) : User × Option DomainError :=
  if !u.HasEnoughEnergy amount then (u, some ErrInsufficientEnergy)
  else ({ u with Energy := u.Energy - amount }, none)

/-- `func (u *User) RestoreEnergy(amount int)`. -/
def User.RestoreEnergy (u : User) (amount : Int) : User :=
  let u1 := { u with Energy := u.Energy + amount }
  if u1.Energy > u1.MaxEnergy then { u1 with Energy := u1.MaxEnergy } else u1

/-- `func (u *User) IsLicenseValid() bool`, at the instant `now`. -/
def User.IsLicenseValid (u : User) (now : Time) : Bool :=
  u.LicenseActive && decide (now < u.LicenseExpiresAt)

/-- `func (u *User) RenewLicense()`, at the instant `now`. -/
def User.RenewLicense (u : User) (now : Time) : User :=
  { u with LicenseActive := true, LastLicenseCheck := now,
           LicenseExpiresAt := now + sevenDays }

/-- `func (u *User) RevokeLicense()`. -/
def User.RevokeLicense (u : User) : User :=
  { u with LicenseActive := false }

/-- `func (u *User) CanUseSensei() bool`, at the instant `now`: the user after the lazy
weekly reset and the returned flag. -/
def User.CanUseSensei (u : User) (now : Time) : User × Bool :=
  let u1 :=
    if u.SenseiRequests ≤ 0 then
      if now > u.SenseiResetsAt then
        { u with SenseiRequests := 5, SenseiResetsAt := now + sevenDays }
      else u
    else u
  (u1, decide (u1.SenseiRequests > 0))

/-- `func (u *User) UseSenseiRequest() error`, at the instant `now`. -/
def User.UseSenseiRequest (u : User) (now : Time) : User × Option DomainError :=
  let r := u.CanUseSensei now
  if !r.2 then (r.1, some ErrNoSenseiRequests)
  else ({ r.1 with SenseiRequests := r.1.SenseiRequests - 1 }, none)

/-- `func (u *User) BuySenseiRequest(cost int) error`. -/
def User.BuySenseiRequest (u : User) (cost : Int) : User × Option DomainError :=
  match u.SpendGold cost with
  | (u1, some err) => (u1, some err)
  | (u1, none) => ({ u1 with SenseiRequests := u1.SenseiRequests + 1 }, none)

/-- `func (u *User) IncreaseAttribute(taskType string, amount int)`. -/
def User.IncreaseAttribute (u : User) (taskType : String) (amount : Int) : User :=
  if taskType = "strength" then { u with Strength := u.Strength + amount }
  else if taskType = "agility" then { u with Agility := u.Agility + amount }
  else if taskType = "intelligence" then { u with Intelligence := u.Intelligence + amount }
  else if taskType = "insight" then { u with Insight := u.Insight + amount }
  else u

/-- `func (u *User) GetRank() string`. -/
def User.GetRank (u : User) : String :=
  if u.Level ≥ 50 then "S"
  else if u.Level ≥ 40 then "A"
  else if u.Level ≥ 30 then "B"
  else if u.Level ≥ 20 then "C"
  else if u.Level ≥ 10 then "D"
  else "E"

/-- `func (u *User) IsInactive() bool`, at the instant `now`. -/
def User.IsInactive (u : User) (now : Time) : Bool :=
  decide (now - u.LastActiveAt > 3 * 24 * hour)

/-- `func (u *User) UpdateActivity()`, at the instant `now`. -/
def User.UpdateActivity (u : User) (now : Time) : User :=
  { u with LastActiveAt := now }

/-! ## `internal/domain/task.go` -/

/-- `type TaskStatus string`. -/
abbrev TaskStatus := String

/-- `type TaskFrequency string`. -/
abbrev TaskFrequency := String

/-- `type TaskType string`. -/
abbrev TaskType := String

abbrev TaskStatusActive : TaskStatus := "active"
abbrev TaskStatusInProgress : TaskStatus := "in_progress"
abbrev TaskStatusCompleted : TaskStatus := "completed"
abbrev TaskStatusFailed : TaskStatus := "failed"
abbrev TaskStatusExpired : TaskStatus := "expired"

abbrev FrequencyDaily : TaskFrequency := "daily"
abbrev FrequencyCustom : TaskFrequency := "custom"
abbrev FrequencyUrgent : TaskFrequency := "urgent"

abbrev TypeStrength : TaskType := "strength"
abbrev TypeAgility : TaskType := "agility"
abbrev TypeIntelligence : TaskType := "intelligence"
abbrev TypeInsight : TaskType := "insight"

/-- The task aggregate (`type Task struct`); a `*time.Time` field is an `Option Time`. -/
structure Task where
  ID : Int
  UserID : Int
  Title : String
  Description : String
  TaskType : TaskType
  Frequency : TaskFrequency
  Status : TaskStatus
  XPReward : Int
  GoldReward : Int
  StatBoost : Int
  EnergyCost : Int
  GoldCost : Int
  IsUrgent : Bool
  UrgentUntil : Option Time
  Penalty : Int
  StartedAt : Option Time
  CompletedAt : Option Time
  CreatedAt : Time
  UpdatedAt : Time
  AIAnalyzed : Bool
  AIDifficulty : Int
  deriving DecidableEq

/-- `type TaskRewards struct`. -/
structure TaskRewards where
  XP : Int
  Gold : Int
  StatBoost : Int
  StatType : String
  deriving DecidableEq

/-- `func (t *Task) CanStart() error`, at the instant `now`. -/
def Task.CanStart (t : Task) (now : Time) : Option DomainError :=
  if t.Status ≠ TaskStatusActive then some ErrTaskNotActive
  else
    match t.IsUrgent, t.UrgentUntil with
    | true, some deadline => if now > deadline then some ErrTaskExpired else none
    | _, _ => none

/-- `func (t *Task) Start() error`, at the instant `now`. -/
def Task.Start (t : Task) (now : Time) : Task × Option DomainError :=
  match t.CanStart now with
  | some err => (t, some err)
  | none => ({ t with Status := TaskStatusInProgress, StartedAt := some now }, none)

/-- `func (t *Task) CanComplete() error`. -/
def Task.CanComplete (t : Task) : Option DomainError :=
  if t.Status ≠ TaskStatusInProgress then some ErrTaskNotInProgress else none

/-- `func (t *Task) Complete() error`, at the instant `now`. -/
def Task.Complete (t : Task) (now : Time) : Task × Option DomainError :=
  match t.CanComplete with
  | some err => (t, some err)
  | none => ({ t with Status := TaskStatusCompleted, CompletedAt := some now }, none)

/-- `func (t *Task) Fail()`, at the instant `now`. -/
def Task.Fail (t : Task) (now : Time) : Task :=
  { t with Status := TaskStatusFailed, CompletedAt := some now }

/-- `func (t *Task) Expire()`. -/
def Task.Expire (t : Task) : Task :=
  { t with Status := TaskStatusExpired }

/-- `func (t *Task) IsExpired() bool`, at the instant `now`. -/
def Task.IsExpired (t : Task) (now : Time) : Bool :=
  match t.IsUrgent, t.UrgentUntil with
  | true, some deadline => decide (now > deadline)
  | _, _ => false

/-- `func (t *Task) GetRewards() TaskRewards`. -/
def Task.GetRewards (t : Task) : TaskRewards :=
  { XP := t.XPReward, Gold := t.GoldReward, StatBoost := t.StatBoost, StatType := t.TaskType }

/-- `func (t *Task) CalculateRewards()`. -/
def Task.CalculateRewards (t : Task) : Task :=
  let difficulty := if t.AIDifficulty = 0 then 1 else t.AIDifficulty
  let t1 := { t with XPReward := 10 * difficulty, GoldReward := 5 * difficulty, StatBoost := 1 }
  if t1.IsUrgent then
    { t1 with XPReward := mulOneAndHalf t1.XPReward, GoldReward := mulOneAndHalf t1.GoldReward }
  else t1

/-- `func (t *Task) SetUrgent(duration time.Duration, penalty int)`, at the instant `now`. -/
def Task.SetUrgent (t : Task) (now : Time) (duration : Duration) (penalty : Int) : Task :=
  let t1 := { t with IsUrgent := true, Frequency := FrequencyUrgent,
                     UrgentUntil := some (now + duration), Penalty := penalty }
  t1.CalculateRewards

/-- `func (t *Task) GetTimeRemaining() time.Duration`, at the instant `now`. -/
def Task.GetTimeRemaining (t : Task) (now : Time) : Duration :=
  match t.IsUrgent, t.UrgentUntil with
  | true, some deadline => if deadline - now < 0 then 0 else deadline - now
  | _, _ => 0

/-- The zero value of `Task`, which a composite literal completes. -/
def Task.zero : Task :=
  { ID := 0, UserID := 0, Title := "", Description := "", TaskType := "", Frequency := "",
    Status := "", XPReward := 0, GoldReward := 0, StatBoost := 0, EnergyCost := 0,
    GoldCost := 0, IsUrgent := false, UrgentUntil := none, Penalty := 0, StartedAt := none,
    CompletedAt := none, CreatedAt := 0, UpdatedAt := 0, AIAnalyzed := false,
    AIDifficulty := 0 }

/-- `func NewDailyTask(userID int64, title string, taskType TaskType) *Task`. -/
def NewDailyTask (userID : Int) (title : String) (taskType : TaskType) : Task :=
  { Task.zero with UserID := userID, Title := title, TaskType := taskType,
                   Frequency := FrequencyDaily, Status := TaskStatusActive, XPReward := 15,
                   GoldReward := 5, StatBoost := 1, EnergyCost := 10 }

/-- `func NewCustomTask(userID int64, title, description string, taskType TaskType) *Task`. -/
def NewCustomTask (userID : Int) (title description : String) (taskType : TaskType) : Task :=
  { Task.zero with UserID := userID, Title := title, Description := description,
                   TaskType := taskType, Frequency := FrequencyCustom,
                   Status := TaskStatusActive, EnergyCost := 10, GoldCost := 10,
                   AIAnalyzed := false }

/-- `func NewUrgentCall(userID int64, title string, taskType TaskType, duration
time.Duration) *Task`, at the instant `now`. -/
def NewUrgentCall (now : Time) (userID : Int) (title : String) (taskType : TaskType)
    (duration : Duration) : Task :=
  let task := { Task.zero with UserID := userID, Title := title, TaskType := taskType,
                               Frequency := FrequencyUrgent, Status := TaskStatusActive,
                               EnergyCost := 15 }
  task.SetUrgent now duration 5

/-! ## `internal/ports/repositories.go` -/

/-- `type TaskAnalysis struct`. -/
structure TaskAnalysis where
  TaskType : TaskType
  Difficulty : Int
  XPReward : Int
  GoldReward : Int
  EnergyCost : Int
  Explanation : String

/-- `type ChatMessage struct`. -/
structure ChatMessage where
  Role : String
  Content : String

/-- `type UrgentCallSuggestion struct`. -/
structure UrgentCallSuggestion where
  Title : String
  Description : String
  TaskType : TaskType
  Duration : Int

/-- `type AIService interface`: each method answers with a value or with an error. -/
structure AIService where
  AnalyzeTask : String → String → Except DomainError TaskAnalysis
  Chat : Int → String → List ChatMessage → Except DomainError String
  GenerateUrgentCall : Int → Except DomainError UrgentCallSuggestion

/-- What the two repositories hold: the rows of the users and of the tasks, and the next
value of each identity sequence. -/
structure Store where
  users : List User
  tasks : List Task
  nextUserID : Int
  nextTaskID : Int

/-- Which writes of the repositories fail with an error of the infrastructure: the
creation of a user, the creation of a task, the update of the task with a given id, the
update of the user with a given id. -/
structure Infra where
  userCreateFails : Bool
  taskCreateFails : Bool
  taskUpdateFails : Int → Bool
  userUpdateFails : Int → Bool

/-- The repositories that never fail on a write. -/
def Infra.working : Infra :=
  { userCreateFails := false, taskCreateFails := false, taskUpdateFails := fun _ => false,
    userUpdateFails := fun _ => false }

/-- `UserRepository.GetByID`: the row with this id, or `ErrUserNotFound`. -/
def UserRepository.GetByID (s : Store) (id : Int) : Except DomainError User :=
  match s.users.find? (fun u => decide (u.ID = id)) with
  | some u => .ok u
  | none => .error ErrUserNotFound

/-- `UserRepository.GetByTelegramID`: the row with this external id, or `ErrUserNotFound`. -/
def UserRepository.GetByTelegramID (s : Store) (telegramID : Int) : Except DomainError User :=
  match s.users.find? (fun u => decide (u.TelegramID = telegramID)) with
  | some u => .ok u
  | none => .error ErrUserNotFound

/-- The column defaults of `type User struct` (the `gorm:"default:..."` tags of
`user.go`) as `db.Create` applies them: a tagged field that holds the zero value of its
type takes the default of its tag, in the row and in the aggregate that was passed. The
tags `default:0` of `XP` and `Gold` change nothing. -/
def User.applyColumnDefaults (u : User) : User :=
  { u with Level := if u.Level = 0 then 1 else u.Level,
           Energy := if u.Energy = 0 then 100 else u.Energy,
           MaxEnergy := if u.MaxEnergy = 0 then 100 else u.MaxEnergy,
           Strength := if u.Strength = 0 then 1 else u.Strength,
           Agility := if u.Agility = 0 then 1 else u.Agility,
           Intelligence := if u.Intelligence = 0 then 1 else u.Intelligence,
           Insight := if u.Insight = 0 then 1 else u.Insight,
           LicenseActive := if u.LicenseActive = false then true else u.LicenseActive,
           SenseiRequests := if u.SenseiRequests = 0 then 5 else u.SenseiRequests }

/-- `UserRepository.Create` (`db.Create(user)`): inserts the aggregate, with the column
defaults applied, under the next id of the sequence and writes the id and the defaults back
into it; an id or an external id that is already taken is an error of the store. The
timestamps that the library maintains are not modelled. -/
def UserRepository.Create (io : Infra) (s : Store) (u : User) : Store × Except DomainError User :=
  if io.userCreateFails then (s, .error infrastructure)
  else if s.users.any (fun v => decide (v.ID = s.nextUserID) || decide (v.TelegramID = u.TelegramID))
  then (s, .error infrastructure)
  else
    let u1 := { u.applyColumnDefaults with ID := s.nextUserID }
    ({ s with users := s.users ++ [u1], nextUserID := s.nextUserID + 1 }, .ok u1)

/-- `UserRepository.Update`: saves the whole aggregate under its id (an upsert). -/
def UserRepository.Update (io : Infra) (s : Store) (u : User) : Store × Option DomainError :=
  if io.userUpdateFails u.ID then (s, some infrastructure)
  else if s.users.any (fun v => decide (v.ID = u.ID)) then
    ({ s with users := s.users.map (fun v => if v.ID = u.ID then u else v) }, none)
  else ({ s with users := s.users ++ [u] }, none)

/-- `TaskRepository.GetByID`: the row with this id, or `ErrTaskNotFound`. -/
def TaskRepository.GetByID (s : Store) (id : Int) : Except DomainError Task :=
  match s.tasks.find? (fun t => decide (t.ID = id)) with
  | some t => .ok t
  | none => .error ErrTaskNotFound

/-- The column defaults of `type Task struct` (the `gorm:"default:..."` tags of
`task.go`) as `db.Create` applies them: a tagged field that holds the zero value of its
type takes the default of its tag, in the row and in the aggregate that was passed. The
tags `default:0` of `GoldCost` and `Penalty` and `default:false` of `IsUrgent` and
`AIAnalyzed` change nothing. -/
def Task.applyColumnDefaults (t : Task) : Task :=
  { t with Frequency := if t.Frequency = "" then FrequencyCustom else t.Frequency,
           Status := if t.Status = "" then TaskStatusActive else t.Status,
           XPReward := if t.XPReward = 0 then 10 else t.XPReward,
           GoldReward := if t.GoldReward = 0 then 5 else t.GoldReward,
           StatBoost := if t.StatBoost = 0 then 1 else t.StatBoost,
           EnergyCost := if t.EnergyCost = 0 then 10 else t.EnergyCost,
           AIDifficulty := if t.AIDifficulty = 0 then 1 else t.AIDifficulty }

/-- `TaskRepository.Create` (`db.Create(task)`): inserts the aggregate, with the column
defaults applied, under the next id of the sequence and writes the id and the defaults back
into it; an id that is already taken is an error of the store. The timestamps that the
library maintains are not modelled. -/
def TaskRepository.Create (io : Infra) (s : Store) (t : Task) : Store × Except DomainError Task :=
  if io.taskCreateFails then (s, .error infrastructure)
  else if s.tasks.any (fun v => decide (v.ID = s.nextTaskID)) then (s, .error infrastructure)
  else
    let t1 := { t.applyColumnDefaults with ID := s.nextTaskID }
    ({ s with tasks := s.tasks ++ [t1], nextTaskID := s.nextTaskID + 1 }, .ok t1)

/-- `TaskRepository.Update`: saves the whole aggregate under its id (an upsert). -/
def TaskRepository.Update (io : Infra) (s : Store) (t : Task) : Store × Option DomainError :=
  if io.taskUpdateFails t.ID then (s, some infrastructure)
  else if s.tasks.any (fun v => decide (v.ID = t.ID)) then
    ({ s with tasks := s.tasks.map (fun v => if v.ID = t.ID then t else v) }, none)
  else ({ s with tasks := s.tasks ++ [t] }, none)

/-! ## `internal/core/task_service.go` -/

/-- `type TaskService struct`: the repositories are the store that each method takes and
returns, with the write failures of `infra`; `aiService` is `none` for a nil port. -/
structure TaskService where
  infra : Infra
  aiService : Option AIService

/-- `type TaskCompletionResult struct`. -/
structure TaskCompletionResult where
  Task : Task
  LeveledUp : Bool
  NewLevel : Int
  Rewards : TaskRewards

/-- The classification step of `CreateCustomTask` (the `if s.aiService != nil` statement):
the fields of the analysis when the port is there and answers, `CalculateRewards`
otherwise. -/
def TaskService.analyzeOrCalculate (svc : TaskService) (task : Task)
    (title description : String) : Task :=
  match svc.aiService with
  | some ai =>
    match ai.AnalyzeTask title description with
    | .ok analysis =>
      { task with TaskType := analysis.TaskType, AIDifficulty := analysis.Difficulty,
                  XPReward := analysis.XPReward, GoldReward := analysis.GoldReward,
                  EnergyCost := analysis.EnergyCost, AIAnalyzed := true }
    | .error _ => task.CalculateRewards
  | none => task.CalculateRewards

/-- `func (s *TaskService) CreateCustomTask(ctx, userID, title, description, taskType)`. -/
def TaskService.CreateCustomTask (svc : TaskService) (s : Store) (userID : Int)
    (title description : String) (taskType : TaskType) : Store × Except DomainError Task :=
  match UserRepository.GetByID s userID with
  | .error err => (s, .error err)
  | .ok user =>
    let task := NewCustomTask userID title description taskType
    match user.SpendGold task.GoldCost with
    | (_, some err) => (s, .error err)
    | (user, none) =>
      let task := svc.analyzeOrCalculate task title description
      match TaskRepository.Create svc.infra s task with
      | (s1, .error err) => (s1, .error err)
      | (s1, .ok task) =>
        match UserRepository.Update svc.infra s1 user with
        | (s2, some err) => (s2, .error err)
        | (s2, none) => (s2, .ok task)

/-- `func (s *TaskService) StartTask(ctx, taskID, userID int64) error`. -/
def TaskService.StartTask (svc : TaskService) (s : Store) (now : Time) (taskID userID : Int) :
    Store × Option DomainError :=
  match TaskRepository.GetByID s taskID with
  | .error err => (s, some err)
  | .ok task =>
    if task.UserID ≠ userID then (s, some ErrUnauthorized)
    else
      match UserRepository.GetByID s userID with
      | .error err => (s, some err)
      | .ok user =>
        match user.SpendEnergy task.EnergyCost with
        | (_, some err) => (s, some err)
        | (user, none) =>
          match task.Start now with
          | (_, some err) => (s, some err)
          | (task, none) =>
            match TaskRepository.Update svc.infra s task with
            | (s1, some err) => (s1, some err)
            | (s1, none) => UserRepository.Update svc.infra s1 user

/-- The license penalty of `CompleteTask` (the statement
`if task.Frequency != domain.FrequencyDaily && !user.IsLicenseValid()`): both rewards of
the loaded task are halved. -/
def TaskService.applyLicensePenalty (task : Task) (user : User) (now : Time) : Task :=
  if task.Frequency ≠ FrequencyDaily ∧ user.IsLicenseValid now = false then
    { task with XPReward := goDiv task.XPReward 2, GoldReward := goDiv task.GoldReward 2 }
  else task

/-- `func (s *TaskService) CompleteTask(ctx, taskID, userID int64)`. -/
def TaskService.CompleteTask (svc : TaskService) (s : Store) (now : Time)
    (taskID userID : Int) : Store × Except DomainError TaskCompletionResult :=
  match TaskRepository.GetByID s taskID with
  | .error err => (s, .error err)
  | .ok task =>
    if task.UserID ≠ userID then (s, .error ErrUnauthorized)
    else
      match UserRepository.GetByID s userID with
      | .error err => (s, .error err)
      | .ok user =>
        let task := TaskService.applyLicensePenalty task user now
        match task.Complete now with
        | (_, some err) => (s, .error err)
        | (task, none) =>
          let r := user.AddXP task.XPReward
          let leveledUp := r.2
          let user := r.1.AddGold task.GoldReward
          let user := user.IncreaseAttribute task.TaskType task.StatBoost
          match TaskRepository.Update svc.infra s task with
          | (s1, some err) => (s1, .error err)
          | (s1, none) =>
            match UserRepository.Update svc.infra s1 user with
            | (s2, some err) => (s2, .error err)
            | (s2, none) =>
              (s2, .ok { Task := task, LeveledUp := leveledUp, NewLevel := user.Level,
                         Rewards := task.GetRewards })

/-- `func (s *TaskService) DeclineUrgentCall(ctx, taskID, userID int64) error`. -/
def TaskService.DeclineUrgentCall (svc : TaskService) (s : Store) (now : Time)
    (taskID userID : Int) : Store × Option DomainError :=
  match TaskRepository.GetByID s taskID with
  | .error err => (s, some err)
  | .ok task =>
    if task.UserID ≠ userID then (s, some ErrUnauthorized)
    else if task.IsUrgent = false then (s, some ErrTaskNotActive)
    else
      match UserRepository.GetByID s userID with
      | .error err => (s, some err)
      | .ok user =>
        let user := user.AddGold (-task.Penalty)
        let task := task.Fail now
        match TaskRepository.Update svc.infra s task with
        | (s1, some err) => (s1, some err)
        | (s1, none) => UserRepository.Update svc.infra s1 user

/-! ## `internal/core/user_service.go` -/

/-- `type UserService struct`, read like `TaskService`. -/
structure UserService where
  infra : Infra
  aiService : Option AIService

/-- `type RaidResult struct`. -/
structure RaidResult where
  GoldLooted : Int
  XPGained : Int
  TargetName : String
  TargetRank : String
  deriving DecidableEq

/-- `func (s *UserService) GetOrCreateUser(ctx, telegramID, username, firstName, photoURL)`. -/
def UserService.GetOrCreateUser (svc : UserService) (s : Store) (now : Time) (telegramID : Int)
    (username firstName photoURL : String) : Store × Except DomainError User :=
  match UserRepository.GetByTelegramID s telegramID with
  | .ok user =>
    let user := user.UpdateActivity now
    let user := { user with Username := username, FirstName := firstName,
                            PhotoURL := photoURL }
    match UserRepository.Update svc.infra s user with
    | (s1, some err) => (s1, .error err)
    | (s1, none) => (s1, .ok user)
  | .error err =>
    if err = ErrUserNotFound then
      let user := { User.zero with TelegramID := telegramID, Username := username,
                                   FirstName := firstName, PhotoURL := photoURL, Level := 1,
                                   XP := 0, Gold := 100, Energy := 100, MaxEnergy := 100,
                                   Strength := 1, Agility := 1, Intelligence := 1,
                                   Insight := 1, LicenseActive := true, SenseiRequests := 5,
                                   LastActiveAt := now }
      let user := { user with XPToNextLvl := user.CalculateXPToNextLevel }
      let user := user.RenewLicense now
      let user := { user with SenseiResetsAt := now + sevenDays }
      match UserRepository.Create svc.infra s user with
      | (s1, .error err) => (s1, .error err)
      | (s1, .ok user) => (s1, .ok user)
    else (s, .error err)

/-- `func (s *UserService) GetProfile(ctx, userID int64)`: the error of the update is
dropped. -/
def UserService.GetProfile (svc : UserService) (s : Store) (now : Time) (userID : Int) :
    Store × Except DomainError User :=
  match UserRepository.GetByID s userID with
  | .error err => (s, .error err)
  | .ok user =>
    let user := user.UpdateActivity now
    ((UserRepository.Update svc.infra s user).1, .ok user)

/-- `func (s *UserService) RenewLicense(ctx, userID int64) error`. -/
def UserService.RenewLicense (svc : UserService) (s : Store) (now : Time) (userID : Int) :
    Store × Option DomainError :=
  match UserRepository.GetByID s userID with
  | .error err => (s, some err)
  | .ok user => UserRepository.Update svc.infra s (user.RenewLicense now)

/-- `func (s *UserService) ChatWithSensei(ctx, userID, message, history)`.  The method
calls `s.aiService.Chat` without testing the port: with a nil port the call is a run-time
panic, which is the result `none`; every return of the method is a `some`. -/
def UserService.ChatWithSensei (svc : UserService) (s : Store) (now : Time) (userID : Int)
    (message : String) (history : List ChatMessage) :
    Option (Store × Except DomainError String) :=
  match UserRepository.GetByID s userID with
  | .error err => some (s, .error err)
  | .ok user =>
    match user.UseSenseiRequest now with
    | (_, some err) => some (s, .error err)
    | (user, none) =>
      match svc.aiService with
      | none => none
      | some ai =>
        match ai.Chat userID message history with
        | .error err =>
          let user := { user with SenseiRequests := user.SenseiRequests + 1 }
          some ((UserRepository.Update svc.infra s user).1, .error err)
        | .ok response =>
          match UserRepository.Update svc.infra s user with
          | (s1, some err) => some (s1, .error err)
          | (s1, none) => some (s1, .ok response)

/-- `func (s *UserService) RaidInactivePlayer(ctx, attackerID, targetID int64, cost int)`. -/
def UserService.RaidInactivePlayer (svc : UserService) (s : Store) (now : Time)
    (attackerID targetID : Int) (cost : Int) : Store × Except DomainError RaidResult :=
  match UserRepository.GetByID s attackerID with
  | .error err => (s, .error err)
  | .ok attacker =>
    match UserRepository.GetByID s targetID with
    | .error err => (s, .error err)
    | .ok target =>
      if attackerID = targetID then (s, .error ErrCannotRaidSelf)
      else if target.IsInactive now = false then (s, .error ErrPlayerNotInactive)
      else if attacker.IsLicenseValid now = false then (s, .error ErrLicenseInactive)
      else
        match attacker.SpendGold cost with
        | (_, some err) => (s, .error err)
        | (attacker, none) =>
          let loot := if mulOneFifth target.Gold < 10 then 10 else mulOneFifth target.Gold
          let target := target.AddGold (-loot)
          let attacker := attacker.AddGold loot
          let bonusXP := target.Level * 5
          let attacker := (attacker.AddXP bonusXP).1
          match UserRepository.Update svc.infra s attacker with
          | (s1, some err) => (s1, .error err)
          | (s1, none) =>
            match UserRepository.Update svc.infra s1 target with
            | (s2, some err) => (s2, .error err)
            | (s2, none) =>
              (s2, .ok { GoldLooted := loot, XPGained := bonusXP,
                         TargetName := target.Username, TargetRank := target.GetRank })

/-! ## Concrete aggregates used to evaluate the code -/

/-- A user as `GetOrCreateUser` builds it at the instant `0`, stored under id `1`. -/
def sampleUser : User :=
  { User.zero with ID := 1, TelegramID := 12345678, Username := "test_user",
                   FirstName := "Test", Level := 1, XP := 0, XPToNextLvl := 50, Gold := 100,
                   Energy := 100, MaxEnergy := 100, Strength := 1, Agility := 1,
                   Intelligence := 1, Insight := 1, LicenseActive := true,
                   LicenseExpiresAt := sevenDays, SenseiRequests := 5,
                   SenseiResetsAt := sevenDays }

/-- A custom task as `CreateCustomTask` stores it for user `1` when no AI port is there:
10 experience, 5 gold, 1 attribute point, energy cost 10, gold cost 10. -/
def sampleTask : Task :=
  { (NewCustomTask 1 "run" "five kilometres"
      TypeStrength).CalculateRewards.applyColumnDefaults with ID := 1 }

/-- A store with the sample user and the sample task. -/
def sampleStore : Store :=
  { users := [sampleUser], tasks := [sampleTask], nextUserID := 2, nextTaskID := 2 }

/-- A task service with working repositories and no AI port, as `main` builds it. -/
def plainTaskService : TaskService :=
  { infra := Infra.working, aiService := none }

/-- A user service with working repositories and no AI port, as `main` builds it. -/
def plainUserService : UserService :=
  { infra := Infra.working, aiService := none }

/-- An AI port whose analysis carries a negative energy cost. -/
def negativeCostAI : AIService :=
  { AnalyzeTask := fun _ _ =>
      .ok { TaskType := TypeStrength, Difficulty := 1, XPReward := 10, GoldReward := 5,
            EnergyCost := -10, Explanation := "" },
    Chat := fun _ _ _ => .error ErrAIServiceUnavailable,
    GenerateUrgentCall := fun _ => .error ErrAIServiceUnavailable }

/-- A store whose only user has 5 gold, less than the gold cost of a custom task. -/
def poorStore : Store :=
  { users := [{ sampleUser with Gold := 5 }], tasks := [], nextUserID := 2, nextTaskID := 1 }

/-- A store with the sample user and an urgent call of one hour, built at the instant 0
by `NewUrgentCall` and stored under id `1`: 15 experience, 7 gold, penalty 5. -/
def urgentStore : Store :=
  { users := [sampleUser],
    tasks := [{ NewUrgentCall 0 1 "call" TypeStrength hour with ID := 1 }],
    nextUserID := 2, nextTaskID := 2 }

/-- A store with the sample user and the sample task of another owner, user `2`. -/
def foreignTaskStore : Store :=
  { users := [sampleUser], tasks := [{ sampleTask with UserID := 2 }], nextUserID := 2,
    nextTaskID := 2 }

/-- A store with the sample user and the sample task already completed. -/
def completedTaskStore : Store :=
  { users := [sampleUser],
    tasks := [{ sampleTask with Status := TaskStatusCompleted, StartedAt := some 1,
                                CompletedAt := some 2 }],
    nextUserID := 2, nextTaskID := 2 }

/-- The sample store after the sample user has started the sample task at the instant 0. -/
def inProgressStore : Store :=
  (plainTaskService.StartTask sampleStore 0 1 1).1

/-- The store with the urgent call after the sample user has started it at the instant 0
and completed it at the instant 1. -/
def completedUrgentStore : Store :=
  (plainTaskService.CompleteTask (plainTaskService.StartTask urgentStore 0 1 1).1 1 1 1).1

/-- Successive calls of `UseSenseiRequest`, one at each instant of the list: the user after
the last call and what each call returned, in the order of the calls. -/
def useSenseiRequests (u : User) : List Time → User × List (Option DomainError)
  | [] => (u, [])
  | t :: ts =>
    let r := u.UseSenseiRequest t
    let rest := useSenseiRequests r.1 ts
    (rest.1, r.2 :: rest.2)

/-- The sample task marked urgent at the instant 0 for one hour, with penalty 5. -/
def sampleUrgentTask : Task :=
  { NewUrgentCall 0 1 "call" TypeStrength hour with ID := 1 }

/-- The attacker of the raid examples: the sample user with 50 gold. -/
def raidAttacker : User :=
  { sampleUser with Gold := 50 }

/-- The target of the raid examples: user `2` with the given gold, level 1, last active at
the instant 0. -/
def raidTarget (gold : Int) : User :=
  { sampleUser with ID := 2, TelegramID := 2, Username := "idle", Gold := gold,
                    LastActiveAt := 0 }

/-- A store with the attacker and a target that holds the given gold. -/
def raidStore (targetGold : Int) : Store :=
  { users := [raidAttacker, raidTarget targetGold], tasks := [], nextUserID := 3,
    nextTaskID := 1 }

/-- The instant four days after the instant 0: the target is inactive and the license of
the attacker is still valid. -/
def fourDays : Time := 4 * 24 * hour

/-- An AI port that is there and fails at every call. -/
def unavailableAI : AIService :=
  { AnalyzeTask := fun _ _ => .error ErrAIServiceUnavailable,
    Chat := fun _ _ _ => .error ErrAIServiceUnavailable,
    GenerateUrgentCall := fun _ => .error ErrAIServiceUnavailable }

/-- An AI port whose chat answers every message with the same reply. -/
def replyingAI : AIService :=
  { AnalyzeTask := fun _ _ => .error ErrAIAnalysisFailed,
    Chat := fun _ _ _ => .ok "train every day",
    GenerateUrgentCall := fun _ => .error ErrAIServiceUnavailable }

/-- A store whose only user has no advisory request left; the reset instant is seven days
after the instant 0. -/
def exhaustedStore : Store :=
  { users := [{ sampleUser with SenseiRequests := 0 }], tasks := [], nextUserID := 2,
    nextTaskID := 1 }

/-- The store before the first user: no row, both sequences at 1. -/
def emptyStore : Store :=
  { users := [], tasks := [], nextUserID := 1, nextTaskID := 1 }

/-- The user that `GetOrCreateUser` builds at the instant `now` and the store numbers
`1`. -/
def scenarioUser (now : Time) (telegramID : Int) (username firstName photoURL : String) :
    User :=
  { User.zero with ID := 1, TelegramID := telegramID, Username := username,
                   FirstName := firstName, PhotoURL := photoURL, Level := 1, XP := 0,
                   XPToNextLvl := 50, Gold := 100, Energy := 100, MaxEnergy := 100,
                   Strength := 1, Agility := 1, Intelligence := 1, Insight := 1,
                   LicenseActive := true, LastLicenseCheck := now,
                   LicenseExpiresAt := now + sevenDays, SenseiRequests := 5,
                   SenseiResetsAt := now + sevenDays, LastActiveAt := now }

/-- The custom task that `CreateCustomTask` builds for user `1` without an AI port and the
store numbers `1`. -/
def scenarioTask (title description : String) (taskType : TaskType) : Task :=
  { (NewCustomTask 1 title description taskType).CalculateRewards.applyColumnDefaults with
    ID := 1 }


/-- An AI port whose analysis succeeds: type intelligence, difficulty 2, 20 experience,
10 gold, energy cost 10. -/
def analysingAI : AIService :=
  { AnalyzeTask := fun _ _ =>
      .ok { TaskType := TypeIntelligence, Difficulty := 2, XPReward := 20, GoldReward := 10,
            EnergyCost := 10, Explanation := "" },
    Chat := fun _ _ _ => .error ErrAIServiceUnavailable,
    GenerateUrgentCall := fun _ => .error ErrAIServiceUnavailable }

/-- A task service with working repositories and the AI port whose analysis succeeds. -/
def analysingTaskService : TaskService :=
  { infra := Infra.working, aiService := some analysingAI }

/-- An AI port whose analysis succeeds with the value 0 for the difficulty, both rewards
and the energy cost. -/
def zeroAnalysisAI : AIService :=
  { AnalyzeTask := fun _ _ =>
      .ok { TaskType := TypeIntelligence, Difficulty := 0, XPReward := 0, GoldReward := 0,
            EnergyCost := 0, Explanation := "" },
    Chat := fun _ _ _ => .error ErrAIServiceUnavailable,
    GenerateUrgentCall := fun _ => .error ErrAIServiceUnavailable }

/-- The domain rule violations that a use case of the core can return. -/
def DomainError.IsRuleViolation (e : DomainError) : Prop :=
  e = ErrInsufficientGold ∨ e = ErrInsufficientEnergy ∨ e = ErrTaskNotActive ∨
  e = ErrTaskNotInProgress ∨ e = ErrTaskExpired ∨ e = ErrUnauthorized ∨
  e = ErrCannotRaidSelf ∨ e = ErrPlayerNotInactive ∨ e = ErrLicenseInactive

instance (e : DomainError) : Decidable e.IsRuleViolation :=
  inferInstanceAs (Decidable (e = ErrInsufficientGold ∨ e = ErrInsufficientEnergy ∨
    e = ErrTaskNotActive ∨ e = ErrTaskNotInProgress ∨ e = ErrTaskExpired ∨
    e = ErrUnauthorized ∨ e = ErrCannotRaidSelf ∨ e = ErrPlayerNotInactive ∨
    e = ErrLicenseInactive))

/-! ## Invariants of the store -/

/-- The energy of a user lies between 0 and the maximal energy. -/
def User.EnergyWithinBounds (u : User) : Prop :=
  0 ≤ u.Energy ∧ u.Energy ≤ u.MaxEnergy

instance (u : User) : Decidable u.EnergyWithinBounds :=
  inferInstanceAs (Decidable (0 ≤ u.Energy ∧ u.Energy ≤ u.MaxEnergy))

/-- Every stored user has its energy between 0 and its maximal energy. -/
def Store.EnergyWithinBounds (s : Store) : Prop :=
  ∀ u ∈ s.users, u.EnergyWithinBounds

instance (s : Store) : Decidable s.EnergyWithinBounds :=
  inferInstanceAs (Decidable (∀ u ∈ s.users, u.EnergyWithinBounds))

/-- The gold of a user is not negative and its level is at least 1. -/
def User.GoldNonneg (u : User) : Prop :=
  0 ≤ u.Gold ∧ 1 ≤ u.Level

instance (u : User) : Decidable u.GoldNonneg :=
  inferInstanceAs (Decidable (0 ≤ u.Gold ∧ 1 ≤ u.Level))

/-- Every stored user has gold that is not negative and a level of at least 1. -/
def Store.GoldNonneg (s : Store) : Prop :=
  ∀ u ∈ s.users, u.GoldNonneg

instance (s : Store) : Decidable s.GoldNonneg :=
  inferInstanceAs (Decidable (∀ u ∈ s.users, u.GoldNonneg))

/-! ## The life of a user aggregate -/

/-- One step in the life of a user aggregate: a mutator of `user.go`, or one of the two
field assignments that the services make on a loaded user (the display fields in
`GetOrCreateUser`, the refund `user.SenseiRequests++` in `ChatWithSensei`). -/
inductive User.Step : User → User → Prop where
  | addXP (u : User) (xp : Int) : User.Step u (u.AddXP xp).1
  | levelUp (u : User) : User.Step u u.LevelUp
  | addGold (u : User) (amount : Int) : User.Step u (u.AddGold amount)
  | spendGold (u : User) (amount : Int) : User.Step u (u.SpendGold amount).1
  | spendEnergy (u : User) (amount : Int) : User.Step u (u.SpendEnergy amount).1
  | restoreEnergy (u : User) (amount : Int) : User.Step u (u.RestoreEnergy amount)
  | renewLicense (u : User) (now : Time) : User.Step u (u.RenewLicense now)
  | revokeLicense (u : User) : User.Step u u.RevokeLicense
  | canUseSensei (u : User) (now : Time) : User.Step u (u.CanUseSensei now).1
  | useSenseiRequest (u : User) (now : Time) : User.Step u (u.UseSenseiRequest now).1
  | buySenseiRequest (u : User) (cost : Int) : User.Step u (u.BuySenseiRequest cost).1
  | increaseAttribute (u : User) (taskType : String) (amount : Int) :
      User.Step u (u.IncreaseAttribute taskType amount)
  | updateActivity (u : User) (now : Time) : User.Step u (u.UpdateActivity now)
  | setDisplayFields (u : User) (username firstName photoURL : String) :
      User.Step u { u with Username := username, FirstName := firstName, PhotoURL := photoURL }
  | refundSenseiRequest (u : User) :
      User.Step u { u with SenseiRequests := u.SenseiRequests + 1 }

/-- A user that `GetOrCreateUser` has just created: the external id was not in the store
and the call returned the user. -/
def User.Created (u : User) : Prop :=
  ∃ (svc : UserService) (s s1 : Store) (now : Time) (telegramID : Int)
    (username firstName photoURL : String),
    UserRepository.GetByTelegramID s telegramID = .error ErrUserNotFound ∧
    svc.GetOrCreateUser s now telegramID username firstName photoURL = (s1, .ok u)

/-- The user states that are reachable from a newly created user by steps. -/
inductive User.Reachable : User → Prop where
  | created {u : User} : u.Created → User.Reachable u
  | step {u v : User} : User.Reachable u → User.Step u v → User.Reachable v

/-- The derived fields agree with the level: the level is at least 1, the threshold is
`100 * level * level / 2` and the maximal energy is `100 + 10 * (level - 1)`. -/
def User.DerivedFieldsOK (u : User) : Prop :=
  1 ≤ u.Level ∧ u.XPToNextLvl = 100 * u.Level * u.Level / 2 ∧
    u.MaxEnergy = 100 + 10 * (u.Level - 1)

instance (u : User) : Decidable u.DerivedFieldsOK :=
  inferInstanceAs (Decidable (1 ≤ u.Level ∧ u.XPToNextLvl = 100 * u.Level * u.Level / 2 ∧
    u.MaxEnergy = 100 + 10 * (u.Level - 1)))

/-- One use case of the two services, from the store before to the store after. -/
inductive Store.Step : Store → Store → Prop where
  | getOrCreateUser (svc : UserService) (s : Store) (now : Time) (telegramID : Int)
      (username firstName photoURL : String) :
      Store.Step s (svc.GetOrCreateUser s now telegramID username firstName photoURL).1
  | getProfile (svc : UserService) (s : Store) (now : Time) (userID : Int) :
      Store.Step s (svc.GetProfile s now userID).1
  | renewLicense (svc : UserService) (s : Store) (now : Time) (userID : Int) :
      Store.Step s (svc.RenewLicense s now userID).1
  | chatWithSensei (svc : UserService) (s : Store) (now : Time) (userID : Int)
      (message : String) (history : List ChatMessage)
      (r : Store × Except DomainError String)
      (h : svc.ChatWithSensei s now userID message history = some r) : Store.Step s r.1
  | raidInactivePlayer (svc : UserService) (s : Store) (now : Time)
      (attackerID targetID cost : Int) :
      Store.Step s (svc.RaidInactivePlayer s now attackerID targetID cost).1
  | createCustomTask (svc : TaskService) (s : Store) (userID : Int)
      (title description : String) (taskType : TaskType) :
      Store.Step s (svc.CreateCustomTask s userID title description taskType).1
  | startTask (svc : TaskService) (s : Store) (now : Time) (taskID userID : Int) :
      Store.Step s (svc.StartTask s now taskID userID).1
  | completeTask (svc : TaskService) (s : Store) (now : Time) (taskID userID : Int) :
      Store.Step s (svc.CompleteTask s now taskID userID).1
  | declineUrgentCall (svc : TaskService) (s : Store) (now : Time) (taskID userID : Int) :
      Store.Step s (svc.DeclineUrgentCall s now taskID userID).1

/-! ## The user aggregate: experience and gold -/

/-- The threshold of a level is never negative, so the truncating division of the program
is the floor division. -/
theorem calculateXPToNextLevel_eq (u : User) :
    u.CalculateXPToNextLevel = 100 * u.Level * u.Level / 2 := by
  unfold User.CalculateXPToNextLevel goDiv
  have h : 0 ≤ u.Level * u.Level := mul_self_nonneg _
  exact Int.tdiv_eq_ediv (by nlinarith) (by decide)

/-- The user and the flag that `AddXP` returns, written with the floor division: one
level-up when the new experience reaches the threshold of the current level, and only the
experience and the recomputed threshold change otherwise. -/
theorem addXP_eq (u : User) (amount : Int) :
    u.AddXP amount =
      if 100 * u.Level * u.Level / 2 ≤ u.XP + amount then
        ({ u with Level := u.Level + 1,
                  XP := u.XP + amount - 100 * u.Level * u.Level / 2,
                  XPToNextLvl := 100 * (u.Level + 1) * (u.Level + 1) / 2,
                  MaxEnergy := u.MaxEnergy + 10,
                  Energy := u.MaxEnergy + 10,
                  Gold := u.Gold + 10 * (u.Level + 1) }, true)
      else ({ u with XP := u.XP + amount, XPToNextLvl := 100 * u.Level * u.Level / 2 }, false) := by
  have h1 := calculateXPToNextLevel_eq { u with XP := u.XP + amount }
  have h2 := calculateXPToNextLevel_eq
    { u with Level := u.Level + 1, XP := u.XP + amount - 100 * u.Level * u.Level / 2,
             XPToNextLvl := 100 * u.Level * u.Level / 2 }
  simp only at h1 h2
  unfold User.AddXP User.LevelUp
  simp only [h1, ge_iff_le]
  split
  · simp only [h2, Prod.mk.injEq, and_true]
    congr 1
    ring
  · rfl

/-- C1 (as stated, refuted): a user of level 1 with 0 experience (threshold 50) who
receives 1000 experience ends with 950 experience against a threshold of 200, so the
experience is not below the threshold after `AddXP`. -/
theorem addXP_xp_below_threshold_counterexample :
    ¬ (∀ (u : User) (amount : Int), 1 ≤ u.Level → 0 ≤ u.XP →
        u.XP < 100 * u.Level * u.Level / 2 → 0 ≤ amount →
        (u.AddXP amount).1.XP < (u.AddXP amount).1.XPToNextLvl) := by
  intro h
  have h1 := h sampleUser 1000 (by decide) (by decide) (by decide) (by decide)
  revert h1
  decide

/-- C1 (amended): for a user with level at least 1 and experience below the threshold of
its level, and an amount that is not negative, the experience after `AddXP` is below the
stored threshold exactly when the new experience is below the sum of the thresholds of
the current and of the next level, that is when the amount crosses at most one
threshold. -/
theorem addXP_xp_below_threshold_iff (u : User) (amount : Int) (_hL : 1 ≤ u.Level)
    (_hx0 : 0 ≤ u.XP) (_hx : u.XP < 100 * u.Level * u.Level / 2) (_ha : 0 ≤ amount) :
    (u.AddXP amount).1.XP < (u.AddXP amount).1.XPToNextLvl ↔
      u.XP + amount <
        100 * u.Level * u.Level / 2 + 100 * (u.Level + 1) * (u.Level + 1) / 2 := by
  have hT : (0 : Int) ≤ 100 * (u.Level + 1) * (u.Level + 1) / 2 := by
    apply Int.ediv_nonneg _ (by decide)
    have : 0 ≤ (u.Level + 1) * (u.Level + 1) := mul_self_nonneg _
    nlinarith
  rw [addXP_eq]
  split
  · simp only
    constructor <;> intro h <;> linarith
  · simp only
    constructor <;> intro h <;> linarith

/-- The amended statement of C1 at the sample user: 100 experience crosses one threshold
and leaves 50 below 200. -/
theorem addXP_xp_below_threshold_iff_witness :
    (sampleUser.AddXP 100).1.XP < (sampleUser.AddXP 100).1.XPToNextLvl ↔
      sampleUser.XP + 100 <
        100 * sampleUser.Level * sampleUser.Level / 2
          + 100 * (sampleUser.Level + 1) * (sampleUser.Level + 1) / 2 :=
  addXP_xp_below_threshold_iff sampleUser 100 (by decide) (by decide) (by decide) (by decide)

/-- C2: with `T = 100 * L * L / 2`, if `xp + amount ≥ T` then `AddXP` returns true after
exactly one level-up (level `L + 1`, experience `xp + amount - T`, threshold
`100 * (L + 1) * (L + 1) / 2`, maximal energy plus 10, energy equal to the new maximal
energy, gold plus `10 * (L + 1)`); otherwise it returns false, the experience is
`xp + amount`, the threshold is `T` and nothing else changes. -/
theorem addXP_single_level_up (u : User) (amount : Int) (hL : 1 ≤ u.Level) :
    (100 * u.Level * u.Level / 2 ≤ u.XP + amount →
      u.AddXP amount =
        ({ u with Level := u.Level + 1,
                  XP := u.XP + amount - 100 * u.Level * u.Level / 2,
                  XPToNextLvl := 100 * (u.Level + 1) * (u.Level + 1) / 2,
                  MaxEnergy := u.MaxEnergy + 10,
                  Energy := u.MaxEnergy + 10,
                  Gold := u.Gold + 10 * (u.Level + 1) }, true)) ∧
    (u.XP + amount < 100 * u.Level * u.Level / 2 →
      u.AddXP amount =
        ({ u with XP := u.XP + amount, XPToNextLvl := 100 * u.Level * u.Level / 2 }, false)) := by
  have _ := hL
  rw [addXP_eq]
  constructor
  · intro h
    rw [if_pos h]
  · intro h
    rw [if_neg (by omega)]

/-- C2 at the sample user (level 1, threshold 50): 60 experience levels up to level 2 with
10 experience left, threshold 200, energy 110 of 110 and gold 120; 49 experience does
not. -/
theorem addXP_single_level_up_witness :
    sampleUser.AddXP 60 =
        ({ sampleUser with Level := 2, XP := 10, XPToNextLvl := 200, MaxEnergy := 110,
                           Energy := 110, Gold := 120 }, true) ∧
    sampleUser.AddXP 49 = ({ sampleUser with XP := 49, XPToNextLvl := 50 }, false) :=
  ⟨(addXP_single_level_up sampleUser 60 (by decide)).1 (by decide),
   (addXP_single_level_up sampleUser 49 (by decide)).2 (by decide)⟩

/-- C3: `SpendGold` with an amount above the gold returns `ErrInsufficientGold` and leaves
the user as it was; otherwise it succeeds and only the gold changes, to
`gold - amount`. -/
theorem spendGold_spec (u : User) (amount : Int) :
    (amount > u.Gold → u.SpendGold amount = (u, some ErrInsufficientGold)) ∧
    (amount ≤ u.Gold → u.SpendGold amount = ({ u with Gold := u.Gold - amount }, none)) := by
  unfold User.SpendGold
  constructor
  · intro h
    rw [if_pos h]
  · intro h
    rw [if_neg (by omega)]

/-- C3 at the sample user (gold 100): spending 101 is refused and changes nothing,
spending 30 leaves 70. -/
theorem spendGold_spec_witness :
    (sampleUser.SpendGold 101 = (sampleUser, some ErrInsufficientGold)) ∧
    (sampleUser.SpendGold 30 = ({ sampleUser with Gold := 70 }, none)) :=
  ⟨(spendGold_spec sampleUser 101).1 (by decide), (spendGold_spec sampleUser 30).2 (by decide)⟩

/-! ## The repositories -/

/-- A user that `GetByID` returns is a row of the store and carries the requested id. -/
theorem userRepo_getByID_ok {s : Store} {id : Int} {u : User}
    (h : UserRepository.GetByID s id = .ok u) : u ∈ s.users ∧ u.ID = id := by
  unfold UserRepository.GetByID at h
  split at h
  · rename_i v hv
    cases h
    exact ⟨List.mem_of_find?_eq_some hv, by simpa using List.find?_some hv⟩
  · cases h

/-- A task that `GetByID` returns is a row of the store and carries the requested id. -/
theorem taskRepo_getByID_ok {s : Store} {id : Int} {t : Task}
    (h : TaskRepository.GetByID s id = .ok t) : t ∈ s.tasks ∧ t.ID = id := by
  unfold TaskRepository.GetByID at h
  split at h
  · rename_i v hv
    cases h
    exact ⟨List.mem_of_find?_eq_some hv, by simpa using List.find?_some hv⟩
  · cases h

/-- After an update every user row is the written aggregate or a row that was there. -/
theorem userRepo_update_users (P : User → Prop) {io : Infra} {s s1 : Store} {u : User}
    {e : Option DomainError} (h : UserRepository.Update io s u = (s1, e))
    (hs : ∀ v ∈ s.users, P v) (hu : P u) : ∀ v ∈ s1.users, P v := by
  unfold UserRepository.Update at h
  intro v hv
  split at h
  · cases h
    exact hs v hv
  · split at h
    · cases h
      simp only [List.mem_map] at hv
      obtain ⟨w, hw, rfl⟩ := hv
      split
      · exact hu
      · exact hs w hw
    · cases h
      simp only [List.mem_append, List.mem_singleton] at hv
      rcases hv with hv | rfl
      · exact hs v hv
      · exact hu

/-- An update of a user leaves the task rows as they were. -/
theorem userRepo_update_tasks {io : Infra} {s s1 : Store} {u : User}
    {e : Option DomainError} (h : UserRepository.Update io s u = (s1, e)) :
    s1.tasks = s.tasks := by
  unfold UserRepository.Update at h
  split at h
  · cases h; rfl
  · split at h <;> cases h <;> rfl

/-- After an update every task row is the written aggregate or a row that was there. -/
theorem taskRepo_update_tasks (P : Task → Prop) {io : Infra} {s s1 : Store} {t : Task}
    {e : Option DomainError} (h : TaskRepository.Update io s t = (s1, e))
    (hs : ∀ v ∈ s.tasks, P v) (ht : P t) : ∀ v ∈ s1.tasks, P v := by
  unfold TaskRepository.Update at h
  intro v hv
  split at h
  · cases h
    exact hs v hv
  · split at h
    · cases h
      simp only [List.mem_map] at hv
      obtain ⟨w, hw, rfl⟩ := hv
      split
      · exact ht
      · exact hs w hw
    · cases h
      simp only [List.mem_append, List.mem_singleton] at hv
      rcases hv with hv | rfl
      · exact hs v hv
      · exact ht

/-- An update of a task leaves the user rows as they were. -/
theorem taskRepo_update_users {io : Infra} {s s1 : Store} {t : Task}
    {e : Option DomainError} (h : TaskRepository.Update io s t = (s1, e)) :
    s1.users = s.users := by
  unfold TaskRepository.Update at h
  split at h
  · cases h; rfl
  · split at h <;> cases h <;> rfl

/-- The creation of a task leaves the user rows as they were. -/
theorem taskRepo_create_users {io : Infra} {s s1 : Store} {t : Task}
    {r : Except DomainError Task} (h : TaskRepository.Create io s t = (s1, r)) :
    s1.users = s.users := by
  unfold TaskRepository.Create at h
  split at h
  · cases h; rfl
  · split at h <;> cases h <;> rfl

/-! ## The users that a use case persists -/

/-- Every user row after `CreateCustomTask` was there before or is a stored user after a
successful `SpendGold`. -/
theorem createCustomTask_users (P : User → Prop) (svc : TaskService) (s : Store)
    (userID : Int) (title description : String) (taskType : TaskType)
    (hs : ∀ v ∈ s.users, P v)
    (hstep : ∀ user ∈ s.users, ∀ amount v, user.SpendGold amount = (v, none) → P v) :
    ∀ v ∈ (svc.CreateCustomTask s userID title description taskType).1.users, P v := by
  unfold TaskService.CreateCustomTask
  split
  · exact hs
  · rename_i user hget
    have hmem := (userRepo_getByID_ok hget).1
    dsimp only
    split
    · exact hs
    · rename_i user1 hspend
      have hP1 : P user1 := hstep user hmem _ _ hspend
      split
      · rename_i s1 err hcreate
        simpa only [taskRepo_create_users hcreate] using hs
      · rename_i s1 task1 hcreate
        have h1 : ∀ v ∈ s1.users, P v := by
          simpa only [taskRepo_create_users hcreate] using hs
        split
        · rename_i s2 err hupd
          exact userRepo_update_users P hupd h1 hP1
        · rename_i s2 hupd
          exact userRepo_update_users P hupd h1 hP1

/-- Every user row after `StartTask` was there before or is a stored user after a
successful `SpendEnergy` of the energy cost of a stored task. -/
theorem startTask_users (P : User → Prop) (svc : TaskService) (s : Store) (now : Time)
    (taskID userID : Int) (hs : ∀ v ∈ s.users, P v)
    (hstep : ∀ task ∈ s.tasks, ∀ user ∈ s.users, task.ID = taskID → ∀ v,
      user.SpendEnergy task.EnergyCost = (v, none) → P v) :
    ∀ v ∈ (svc.StartTask s now taskID userID).1.users, P v := by
  unfold TaskService.StartTask
  split
  · exact hs
  · rename_i task hgetT
    have hT := taskRepo_getByID_ok hgetT
    split
    · exact hs
    · split
      · exact hs
      · rename_i user hgetU
        have hU := userRepo_getByID_ok hgetU
        split
        · exact hs
        · rename_i user1 hspend
          have hP1 : P user1 := hstep task hT.1 user hU.1 hT.2 _ hspend
          split
          · exact hs
          · rename_i task1 hstart
            split
            · rename_i s1 err hupd
              simpa only [taskRepo_update_users hupd] using hs
            · rename_i s1 hupd
              have h1 : ∀ v ∈ s1.users, P v := by
                simpa only [taskRepo_update_users hupd] using hs
              exact userRepo_update_users P (Prod.mk.eta).symm h1 hP1

/-- Every user row after `CompleteTask` was there before or is a stored user after
`AddXP`, `AddGold` and `IncreaseAttribute`. -/
theorem completeTask_users (P : User → Prop) (svc : TaskService) (s : Store) (now : Time)
    (taskID userID : Int) (hs : ∀ v ∈ s.users, P v)
    (hstep : ∀ user ∈ s.users, ∀ (xp gold boost : Int) (ty : String),
      P (((user.AddXP xp).1.AddGold gold).IncreaseAttribute ty boost)) :
    ∀ v ∈ (svc.CompleteTask s now taskID userID).1.users, P v := by
  unfold TaskService.CompleteTask
  split
  · exact hs
  · rename_i task hgetT
    split
    · exact hs
    · split
      · exact hs
      · rename_i user hgetU
        have hU := userRepo_getByID_ok hgetU
        dsimp only
        split
        · exact hs
        · rename_i task1 hcomplete
          split
          · rename_i s1 err hupd
            simpa only [taskRepo_update_users hupd] using hs
          · rename_i s1 hupd
            have h1 : ∀ v ∈ s1.users, P v := by
              simpa only [taskRepo_update_users hupd] using hs
            split
            · rename_i s2 err hupd2
              exact userRepo_update_users P hupd2 h1 (hstep user hU.1 _ _ _ _)
            · rename_i s2 hupd2
              exact userRepo_update_users P hupd2 h1 (hstep user hU.1 _ _ _ _)

/-- Every user row after `DeclineUrgentCall` was there before or is a stored user after
`AddGold`. -/
theorem declineUrgentCall_users (P : User → Prop) (svc : TaskService) (s : Store)
    (now : Time) (taskID userID : Int) (hs : ∀ v ∈ s.users, P v)
    (hstep : ∀ user ∈ s.users, ∀ amount : Int, P (user.AddGold amount)) :
    ∀ v ∈ (svc.DeclineUrgentCall s now taskID userID).1.users, P v := by
  unfold TaskService.DeclineUrgentCall
  split
  · exact hs
  · rename_i task hgetT
    split
    · exact hs
    · split
      · exact hs
      · split
        · exact hs
        · rename_i user hgetU
          have hU := userRepo_getByID_ok hgetU
          dsimp only
          split
          · rename_i s1 err hupd
            simpa only [taskRepo_update_users hupd] using hs
          · rename_i s1 hupd
            have h1 : ∀ v ∈ s1.users, P v := by
              simpa only [taskRepo_update_users hupd] using hs
            exact userRepo_update_users P (Prod.mk.eta).symm h1 (hstep user hU.1 _)

/-- Every user row after `RaidInactivePlayer` was there before, or is the attacker after a
successful `SpendGold`, `AddGold` and `AddXP`, or is the target after `AddGold`. -/
theorem raidInactivePlayer_users (P : User → Prop) (svc : UserService) (s : Store)
    (now : Time) (attackerID targetID cost : Int) (hs : ∀ v ∈ s.users, P v)
    (hattacker : ∀ user ∈ s.users, ∀ (amount loot xp : Int) (v : User),
      user.SpendGold amount = (v, none) → P ((v.AddGold loot).AddXP xp).1)
    (htarget : ∀ user ∈ s.users, ∀ amount : Int, P (user.AddGold amount)) :
    ∀ v ∈ (svc.RaidInactivePlayer s now attackerID targetID cost).1.users, P v := by
  unfold UserService.RaidInactivePlayer
  split
  · exact hs
  · rename_i attacker hgetA
    have hA := userRepo_getByID_ok hgetA
    split
    · exact hs
    · rename_i target hgetT
      have hT := userRepo_getByID_ok hgetT
      split
      · exact hs
      · split
        · exact hs
        · split
          · exact hs
          · split
            · exact hs
            · rename_i attacker1 hspend
              dsimp only
              split
              · rename_i s1 err hupd
                exact userRepo_update_users P hupd hs
                  (hattacker attacker hA.1 _ _ _ _ hspend)
              · rename_i s1 hupd
                have h1 := userRepo_update_users P hupd hs
                  (hattacker attacker hA.1 _ _ _ _ hspend)
                split
                · rename_i s2 err hupd2
                  exact userRepo_update_users P hupd2 h1 (htarget target hT.1 _)
                · rename_i s2 hupd2
                  exact userRepo_update_users P hupd2 h1 (htarget target hT.1 _)

/-! ## Energy stays within its bounds -/

/-- A successful `SpendGold` keeps the energy within its bounds. -/
theorem spendGold_energy {u v : User} {amount : Int} (h : u.SpendGold amount = (v, none))
    (hu : u.EnergyWithinBounds) : v.EnergyWithinBounds := by
  unfold User.SpendGold at h
  split at h
  · cases h
  · cases h
    exact hu

/-- A successful `SpendEnergy` of an amount that is not negative keeps the energy within
its bounds. -/
theorem spendEnergy_energy {u v : User} {amount : Int} (h : u.SpendEnergy amount = (v, none))
    (ha : 0 ≤ amount) (hu : u.EnergyWithinBounds) : v.EnergyWithinBounds := by
  unfold User.SpendEnergy User.HasEnoughEnergy at h
  unfold User.EnergyWithinBounds at hu ⊢
  split at h
  · cases h
  · rename_i hne
    simp only [ge_iff_le, Bool.not_eq_true', decide_eq_false_iff_not, not_not] at hne
    cases h
    simp only
    omega

/-- `AddGold` keeps the energy within its bounds. -/
theorem addGold_energy (u : User) (amount : Int) (hu : u.EnergyWithinBounds) :
    (u.AddGold amount).EnergyWithinBounds := by
  unfold User.AddGold
  dsimp only
  split <;> exact hu

/-- `IncreaseAttribute` keeps the energy within its bounds. -/
theorem increaseAttribute_energy (u : User) (ty : String) (amount : Int)
    (hu : u.EnergyWithinBounds) : (u.IncreaseAttribute ty amount).EnergyWithinBounds := by
  unfold User.IncreaseAttribute
  repeat (first | exact hu | split)

/-- `AddXP` keeps the energy within its bounds: a level-up refills it to the new maximum. -/
theorem addXP_energy (u : User) (xp : Int) (hu : u.EnergyWithinBounds) :
    (u.AddXP xp).1.EnergyWithinBounds := by
  unfold User.EnergyWithinBounds at hu ⊢
  rw [addXP_eq]
  split
  · simp only
    omega
  · exact hu

/-- C4 (the code at the failing input): the sample user (energy 100 of 100) creates a
custom task through an AI port whose analysis carries the energy cost -10; the store
satisfies the energy bounds before `StartTask`, and after it the stored user has energy
110 of 100. -/
theorem startTask_negative_energy_cost :
    ((({ plainTaskService with aiService := some negativeCostAI } : TaskService).CreateCustomTask
        sampleStore 1 "rest" "sleep" TypeStrength).1).EnergyWithinBounds ∧
    ¬ (plainTaskService.StartTask
        ((({ plainTaskService with aiService := some negativeCostAI } : TaskService).CreateCustomTask
          sampleStore 1 "rest" "sleep" TypeStrength).1) 0 2 1).1.EnergyWithinBounds := by
  decide

/-- When every stored user has `0 ≤ energy ≤ maxEnergy`, every user stored
after `CreateCustomTask`, `CompleteTask`, `DeclineUrgentCall` and `RaidInactivePlayer` has
it too, and so has every user stored after `StartTask` of a task whose energy cost is not
negative. -/
theorem energy_within_bounds_preserved (tsvc : TaskService) (usvc : UserService) (s : Store)
    (now : Time) (hs : s.EnergyWithinBounds) :
    (∀ (userID : Int) (title description : String) (taskType : TaskType),
      (tsvc.CreateCustomTask s userID title description taskType).1.EnergyWithinBounds) ∧
    (∀ taskID userID : Int, (∀ t ∈ s.tasks, t.ID = taskID → 0 ≤ t.EnergyCost) →
      (tsvc.StartTask s now taskID userID).1.EnergyWithinBounds) ∧
    (∀ taskID userID : Int, (tsvc.CompleteTask s now taskID userID).1.EnergyWithinBounds) ∧
    (∀ taskID userID : Int, (tsvc.DeclineUrgentCall s now taskID userID).1.EnergyWithinBounds) ∧
    (∀ attackerID targetID cost : Int,
      (usvc.RaidInactivePlayer s now attackerID targetID cost).1.EnergyWithinBounds) := by
  refine ⟨?_, ?_, ?_, ?_, ?_⟩
  · intro userID title description taskType
    exact createCustomTask_users _ tsvc s userID title description taskType hs
      (fun user hu _ _ h => spendGold_energy h (hs user hu))
  · intro taskID userID hcost
    exact startTask_users _ tsvc s now taskID userID hs
      (fun task ht user hu hid _ h => spendEnergy_energy h (hcost task ht hid) (hs user hu))
  · intro taskID userID
    exact completeTask_users _ tsvc s now taskID userID hs
      (fun user hu xp gold boost ty =>
        increaseAttribute_energy _ _ _ (addGold_energy _ _ (addXP_energy _ _ (hs user hu))))
  · intro taskID userID
    exact declineUrgentCall_users _ tsvc s now taskID userID hs
      (fun user hu amount => addGold_energy _ _ (hs user hu))
  · intro attackerID targetID cost
    exact raidInactivePlayer_users _ usvc s now attackerID targetID cost hs
      (fun user hu amount loot xp v h =>
        addXP_energy _ _ (addGold_energy _ _ (spendGold_energy h (hs user hu))))
      (fun user hu amount => addGold_energy _ _ (hs user hu))

/-- The preservation of the energy bounds at the sample store: the bounds hold before,
and after `StartTask` of the sample task (energy cost 10) by its owner. -/
theorem energy_within_bounds_preserved_witness :
    sampleStore.EnergyWithinBounds ∧
    (plainTaskService.StartTask sampleStore 0 1 1).1.EnergyWithinBounds :=
  ⟨by decide,
   (energy_within_bounds_preserved plainTaskService plainUserService sampleStore 0
      (by decide)).2.1 1 1 (by decide)⟩

/-! ## Gold is never negative -/

/-- `AddGold` clamps the sum at 0. -/
theorem addGold_gold (u : User) (amount : Int) :
    (u.AddGold amount).Gold = max 0 (u.Gold + amount) := by
  unfold User.AddGold
  dsimp only
  split
  · simp only
    omega
  · simp only
    omega

/-- `AddGold` leaves the level as it was. -/
theorem addGold_level (u : User) (amount : Int) : (u.AddGold amount).Level = u.Level := by
  unfold User.AddGold
  dsimp only
  split <;> rfl

/-- The gold after `AddGold` is not negative. -/
theorem addGold_goldNonneg (u : User) (amount : Int) (hu : 1 ≤ u.Level) :
    (u.AddGold amount).GoldNonneg := by
  unfold User.GoldNonneg
  rw [addGold_gold, addGold_level]
  exact ⟨le_max_left _ _, hu⟩

/-- The gold after `SpendGold` is not negative, whether the call succeeds or not. -/
theorem spendGold_goldNonneg (u : User) (amount : Int) (hu : u.GoldNonneg) :
    (u.SpendGold amount).1.GoldNonneg := by
  unfold User.GoldNonneg at hu ⊢
  unfold User.SpendGold
  split
  · exact hu
  · simp only
    omega

/-- The gold after `AddXP` is not negative: a level-up grants ten times the new level. -/
theorem addXP_goldNonneg (u : User) (xp : Int) (hu : u.GoldNonneg) :
    (u.AddXP xp).1.GoldNonneg := by
  unfold User.GoldNonneg at hu ⊢
  rw [addXP_eq]
  split
  · simp only
    omega
  · exact hu

/-- `IncreaseAttribute` leaves the gold and the level as they were. -/
theorem increaseAttribute_goldNonneg (u : User) (ty : String) (amount : Int)
    (hu : u.GoldNonneg) : (u.IncreaseAttribute ty amount).GoldNonneg := by
  unfold User.IncreaseAttribute
  repeat (first | exact hu | split)

/-- `SpendEnergy` leaves the gold and the level as they were. -/
theorem spendEnergy_goldNonneg (u : User) (amount : Int) (hu : u.GoldNonneg) :
    (u.SpendEnergy amount).1.GoldNonneg := by
  unfold User.SpendEnergy
  split <;> exact hu

/-- C5: for a user with gold that is not negative and level at least 1, `AddGold` with an
amount of any sign yields `max 0 (gold + amount)`, and the gold is not negative after
`SpendGold` and after `AddXP`; and when every stored user has gold that is not negative
and level at least 1, so has every user stored after `CreateCustomTask`, `StartTask`,
`CompleteTask`, `DeclineUrgentCall` and `RaidInactivePlayer`. -/
theorem gold_never_negative (u : User) (hu : u.GoldNonneg) (tsvc : TaskService)
    (usvc : UserService) (s : Store) (now : Time) (hs : s.GoldNonneg) :
    (∀ amount : Int, (u.AddGold amount).Gold = max 0 (u.Gold + amount)) ∧
    (∀ amount : Int, 0 ≤ (u.SpendGold amount).1.Gold) ∧
    (∀ amount : Int, 0 ≤ (u.AddXP amount).1.Gold) ∧
    (∀ (userID : Int) (title description : String) (taskType : TaskType),
      (tsvc.CreateCustomTask s userID title description taskType).1.GoldNonneg) ∧
    (∀ taskID userID : Int, (tsvc.StartTask s now taskID userID).1.GoldNonneg) ∧
    (∀ taskID userID : Int, (tsvc.CompleteTask s now taskID userID).1.GoldNonneg) ∧
    (∀ taskID userID : Int, (tsvc.DeclineUrgentCall s now taskID userID).1.GoldNonneg) ∧
    (∀ attackerID targetID cost : Int,
      (usvc.RaidInactivePlayer s now attackerID targetID cost).1.GoldNonneg) := by
  refine ⟨fun amount => addGold_gold u amount,
    fun amount => (spendGold_goldNonneg u amount hu).1,
    fun amount => (addXP_goldNonneg u amount hu).1, ?_, ?_, ?_, ?_, ?_⟩
  · intro userID title description taskType
    exact createCustomTask_users _ tsvc s userID title description taskType hs
      (fun user hm amount v h => by
        have := spendGold_goldNonneg user amount (hs user hm)
        rwa [h] at this)
  · intro taskID userID
    exact startTask_users _ tsvc s now taskID userID hs
      (fun task _ user hm _ v h => by
        have := spendEnergy_goldNonneg user task.EnergyCost (hs user hm)
        rwa [h] at this)
  · intro taskID userID
    exact completeTask_users _ tsvc s now taskID userID hs
      (fun user hm xp gold boost ty =>
        increaseAttribute_goldNonneg _ _ _
          (addGold_goldNonneg _ _ (addXP_goldNonneg _ _ (hs user hm)).2))
  · intro taskID userID
    exact declineUrgentCall_users _ tsvc s now taskID userID hs
      (fun user hm amount => addGold_goldNonneg _ _ (hs user hm).2)
  · intro attackerID targetID cost
    exact raidInactivePlayer_users _ usvc s now attackerID targetID cost hs
      (fun user hm amount loot xp v h => by
        have h1 := spendGold_goldNonneg user amount (hs user hm)
        rw [h] at h1
        exact addXP_goldNonneg _ _ (addGold_goldNonneg _ _ h1.2))
      (fun user hm amount => addGold_goldNonneg _ _ (hs user hm).2)

/-- C5 at the sample user and the sample store: a penalty of 250 gold leaves 0 gold, and
the stored gold is not negative after the sample task is declined. -/
theorem gold_never_negative_witness :
    (sampleUser.AddGold (-250)).Gold = max 0 (sampleUser.Gold + -250) ∧
    (plainTaskService.DeclineUrgentCall sampleStore 0 1 1).1.GoldNonneg :=
  have h := gold_never_negative sampleUser (by decide) plainTaskService plainUserService
    sampleStore 0 (by decide)
  ⟨h.1 (-250), h.2.2.2.2.2.2.1 1 1⟩

/-! ## The task row under an id -/

/-- A failed update leaves the store as it was, and its error is of the infrastructure. -/
theorem taskRepo_update_error {io : Infra} {s s1 : Store} {t : Task} {err : DomainError}
    (h : TaskRepository.Update io s t = (s1, some err)) : s1 = s ∧ err = infrastructure := by
  unfold TaskRepository.Update at h
  split at h
  · cases h
    exact ⟨rfl, rfl⟩
  · split at h <;> cases h

/-- A failed update leaves the store as it was, and its error is of the infrastructure. -/
theorem userRepo_update_error {io : Infra} {s s1 : Store} {u : User} {err : DomainError}
    (h : UserRepository.Update io s u = (s1, some err)) : s1 = s ∧ err = infrastructure := by
  unfold UserRepository.Update at h
  split at h
  · cases h
    exact ⟨rfl, rfl⟩
  · split at h <;> cases h

/-- A failed creation leaves the store as it was, and its error is of the
infrastructure. -/
theorem taskRepo_create_error {io : Infra} {s s1 : Store} {t : Task} {err : DomainError}
    (h : TaskRepository.Create io s t = (s1, .error err)) : s1 = s ∧ err = infrastructure := by
  unfold TaskRepository.Create at h
  split at h
  · cases h
    exact ⟨rfl, rfl⟩
  · split at h
    · cases h
      exact ⟨rfl, rfl⟩
    · cases h

/-- The lookup of a task reads the task rows only. -/
theorem taskRepo_getByID_congr {s s1 : Store} (h : s1.tasks = s.tasks) (k : Int) :
    TaskRepository.GetByID s1 k = TaskRepository.GetByID s k := by
  unfold TaskRepository.GetByID
  rw [h]

/-- Replacing the rows of one id does not change the first row of another id. -/
theorem find_map_replace_ne (l : List Task) (t : Task) (k : Int) (hk : k ≠ t.ID) :
    (l.map (fun v => if v.ID = t.ID then t else v)).find? (fun v => decide (v.ID = k)) =
      l.find? (fun v => decide (v.ID = k)) := by
  induction l with
  | nil => rfl
  | cons a l ih =>
    simp only [List.map_cons, List.find?_cons]
    by_cases ha : a.ID = t.ID
    · have h1 : ¬ a.ID = k := fun h => hk (h ▸ ha)
      have h2 : ¬ t.ID = k := fun h => hk h.symm
      simp only [ha, if_true, h1, h2, decide_False, ih]
    · simp only [ha, if_false, ih]

/-- Replacing the rows of an id that is present makes the new row the first of that id. -/
theorem find_map_replace_eq (l : List Task) (t : Task)
    (hany : l.any (fun v => decide (v.ID = t.ID)) = true) :
    (l.map (fun v => if v.ID = t.ID then t else v)).find? (fun v => decide (v.ID = t.ID)) =
      some t := by
  induction l with
  | nil => simp at hany
  | cons a l ih =>
    simp only [List.map_cons, List.find?_cons]
    by_cases ha : a.ID = t.ID
    · simp only [ha, if_true, decide_True]
    · simp only [List.any_cons, ha, decide_False, Bool.false_or] at hany
      simp only [ha, if_false, decide_False, ih hany]

/-- An update of a task does not change the row under another id. -/
theorem taskRepo_getByID_update_ne {io : Infra} {s s1 : Store} {t : Task}
    {e : Option DomainError} (h : TaskRepository.Update io s t = (s1, e)) (k : Int)
    (hk : k ≠ t.ID) : TaskRepository.GetByID s1 k = TaskRepository.GetByID s k := by
  unfold TaskRepository.Update at h
  unfold TaskRepository.GetByID
  split at h
  · cases h; rfl
  · split at h
    · cases h
      simp only [find_map_replace_ne _ t k hk]
    · cases h
      have h2 : ¬ t.ID = k := fun h => hk h.symm
      simp only [List.find?_append, List.find?_cons, h2, decide_False, List.find?_nil,
        Option.or_none]

/-- After a successful update the row under the id of the aggregate is the aggregate. -/
theorem taskRepo_getByID_update_eq {io : Infra} {s s1 : Store} {t : Task}
    (h : TaskRepository.Update io s t = (s1, none)) :
    TaskRepository.GetByID s1 t.ID = .ok t := by
  unfold TaskRepository.Update at h
  unfold TaskRepository.GetByID
  split at h
  · cases h
  · split at h
    · rename_i hany
      cases h
      simp only [find_map_replace_eq _ t hany]
    · rename_i hany
      cases h
      have hnone : s.tasks.find? (fun v => decide (v.ID = t.ID)) = none := by
        rw [List.find?_eq_none]
        intro x hx hxe
        exact hany (List.any_eq_true.mpr ⟨x, hx, hxe⟩)
      simp only [List.find?_append, hnone, List.find?_cons, decide_True, Option.none_or]

/-- The creation of a task does not change a row that is there. -/
theorem taskRepo_getByID_create {io : Infra} {s s1 : Store} {x t : Task}
    {r : Except DomainError Task} (h : TaskRepository.Create io s x = (s1, r)) (k : Int)
    (hk : TaskRepository.GetByID s k = .ok t) : TaskRepository.GetByID s1 k = .ok t := by
  unfold TaskRepository.Create at h
  unfold TaskRepository.GetByID at hk ⊢
  split at hk
  · rename_i v hv
    cases hk
    split at h
    · cases h
      simp only [hv]
    · split at h
      · cases h
        simp only [hv]
      · cases h
        simp only [List.find?_append, hv, Option.or]
  · cases hk

/-! ## A use case that returns a rule violation has stored nothing -/

/-- `StartTask` changes the store only when it returns no error or an error of the
infrastructure. -/
theorem startTask_error_store (svc : TaskService) (s : Store) (now : Time)
    (taskID userID : Int) (e : DomainError)
    (h : (svc.StartTask s now taskID userID).2 = some e) (he : e ≠ infrastructure) :
    (svc.StartTask s now taskID userID).1 = s := by
  revert h
  unfold TaskService.StartTask
  split
  · intro _; rfl
  · split
    · intro _; rfl
    · split
      · intro _; rfl
      · split
        · intro _; rfl
        · split
          · intro _; rfl
          · split
            · rename_i s1 err hupd
              intro _
              exact (taskRepo_update_error hupd).1
            · rename_i s1 hupd
              intro h
              exact absurd (userRepo_update_error (Prod.ext rfl h)).2 he

/-- A rule violation is not an error of the infrastructure. -/
theorem isRuleViolation_ne_infrastructure {e : DomainError} (h : e.IsRuleViolation) :
    e ≠ infrastructure := by
  unfold DomainError.IsRuleViolation at h
  rintro rfl
  simp at h

/-- `CreateCustomTask` changes the store only when it returns no error or an error of the
infrastructure. -/
theorem createCustomTask_error_store (svc : TaskService) (s : Store) (userID : Int)
    (title description : String) (taskType : TaskType) (e : DomainError)
    (h : (svc.CreateCustomTask s userID title description taskType).2 = .error e)
    (he : e ≠ infrastructure) :
    (svc.CreateCustomTask s userID title description taskType).1 = s := by
  revert h
  unfold TaskService.CreateCustomTask
  split
  · intro _; rfl
  · dsimp only
    split
    · intro _; rfl
    · split
      · rename_i s1 err hcreate
        intro _
        exact (taskRepo_create_error hcreate).1
      · split
        · rename_i s2 err hupd
          intro h
          cases h
          exact absurd (userRepo_update_error hupd).2 he
        · intro h
          cases h

/-- `CompleteTask` changes the store only when it returns no error or an error of the
infrastructure. -/
theorem completeTask_error_store (svc : TaskService) (s : Store) (now : Time)
    (taskID userID : Int) (e : DomainError)
    (h : (svc.CompleteTask s now taskID userID).2 = .error e) (he : e ≠ infrastructure) :
    (svc.CompleteTask s now taskID userID).1 = s := by
  revert h
  unfold TaskService.CompleteTask
  split
  · intro _; rfl
  · split
    · intro _; rfl
    · split
      · intro _; rfl
      · dsimp only
        split
        · intro _; rfl
        · split
          · rename_i s1 err hupd
            intro _
            exact (taskRepo_update_error hupd).1
          · split
            · rename_i s2 err hupd
              intro h
              cases h
              exact absurd (userRepo_update_error hupd).2 he
            · intro h
              cases h

/-- `DeclineUrgentCall` changes the store only when it returns no error or an error of
the infrastructure. -/
theorem declineUrgentCall_error_store (svc : TaskService) (s : Store) (now : Time)
    (taskID userID : Int) (e : DomainError)
    (h : (svc.DeclineUrgentCall s now taskID userID).2 = some e) (he : e ≠ infrastructure) :
    (svc.DeclineUrgentCall s now taskID userID).1 = s := by
  revert h
  unfold TaskService.DeclineUrgentCall
  split
  · intro _; rfl
  · split
    · intro _; rfl
    · split
      · intro _; rfl
      · split
        · intro _; rfl
        · dsimp only
          split
          · rename_i s1 err hupd
            intro _
            exact (taskRepo_update_error hupd).1
          · rename_i s1 hupd
            intro h
            exact absurd (userRepo_update_error (Prod.ext rfl h)).2 he

/-- `RaidInactivePlayer` changes the store only when it returns no error or an error of
the infrastructure. -/
theorem raidInactivePlayer_error_store (svc : UserService) (s : Store) (now : Time)
    (attackerID targetID cost : Int) (e : DomainError)
    (h : (svc.RaidInactivePlayer s now attackerID targetID cost).2 = .error e)
    (he : e ≠ infrastructure) :
    (svc.RaidInactivePlayer s now attackerID targetID cost).1 = s := by
  revert h
  unfold UserService.RaidInactivePlayer
  split
  · intro _; rfl
  · split
    · intro _; rfl
    · split
      · intro _; rfl
      · split
        · intro _; rfl
        · split
          · intro _; rfl
          · split
            · intro _; rfl
            · dsimp only
              split
              · rename_i s1 err hupd
                intro _
                exact (userRepo_update_error hupd).1
              · split
                · rename_i s2 err hupd
                  intro h
                  cases h
                  exact absurd (userRepo_update_error hupd).2 he
                · intro h
                  cases h

/-- C9: whenever `CreateCustomTask`, `StartTask`, `CompleteTask`, `DeclineUrgentCall` or
`RaidInactivePlayer` returns a domain rule violation, the store after the call (its users,
its tasks and its sequences) is the store before the call; in particular a
`CreateCustomTask` that fails with `ErrInsufficientGold` stores no task. -/
theorem rule_violation_stores_nothing (tsvc : TaskService) (usvc : UserService) (s : Store)
    (now : Time) (e : DomainError) (he : e.IsRuleViolation) :
    (∀ (userID : Int) (title description : String) (taskType : TaskType),
      (tsvc.CreateCustomTask s userID title description taskType).2 = .error e →
      (tsvc.CreateCustomTask s userID title description taskType).1 = s) ∧
    (∀ taskID userID : Int, (tsvc.StartTask s now taskID userID).2 = some e →
      (tsvc.StartTask s now taskID userID).1 = s) ∧
    (∀ taskID userID : Int, (tsvc.CompleteTask s now taskID userID).2 = .error e →
      (tsvc.CompleteTask s now taskID userID).1 = s) ∧
    (∀ taskID userID : Int, (tsvc.DeclineUrgentCall s now taskID userID).2 = some e →
      (tsvc.DeclineUrgentCall s now taskID userID).1 = s) ∧
    (∀ attackerID targetID cost : Int,
      (usvc.RaidInactivePlayer s now attackerID targetID cost).2 = .error e →
      (usvc.RaidInactivePlayer s now attackerID targetID cost).1 = s) := by
  have hne := isRuleViolation_ne_infrastructure he
  exact ⟨fun userID title description taskType h =>
      createCustomTask_error_store tsvc s userID title description taskType e h hne,
    fun taskID userID h => startTask_error_store tsvc s now taskID userID e h hne,
    fun taskID userID h => completeTask_error_store tsvc s now taskID userID e h hne,
    fun taskID userID h => declineUrgentCall_error_store tsvc s now taskID userID e h hne,
    fun attackerID targetID cost h =>
      raidInactivePlayer_error_store usvc s now attackerID targetID cost e h hne⟩

/-- C9 at a store whose user has 5 gold: `CreateCustomTask` fails with
`ErrInsufficientGold` and the store is as before, with no task. -/
theorem rule_violation_stores_nothing_witness :
    (plainTaskService.CreateCustomTask poorStore 1 "run" "" TypeStrength).2
        = .error ErrInsufficientGold ∧
    (plainTaskService.CreateCustomTask poorStore 1 "run" "" TypeStrength).1 = poorStore :=
  ⟨rfl, (rule_violation_stores_nothing plainTaskService plainUserService poorStore 0
      ErrInsufficientGold (by decide)).1 1 "run" "" TypeStrength rfl⟩

/-! ## Ownership -/

/-- C10: for a stored task and a caller that is not its owner, `StartTask`,
`CompleteTask` and `DeclineUrgentCall` each return `ErrUnauthorized`, whatever the status
and the urgency of the task and the resources of the caller, and the store is as
before. -/
theorem foreign_caller_unauthorized (svc : TaskService) (s : Store) (now : Time)
    (taskID userID : Int) (task : Task) (hget : TaskRepository.GetByID s taskID = .ok task)
    (hown : task.UserID ≠ userID) :
    svc.StartTask s now taskID userID = (s, some ErrUnauthorized) ∧
    svc.CompleteTask s now taskID userID = (s, .error ErrUnauthorized) ∧
    svc.DeclineUrgentCall s now taskID userID = (s, some ErrUnauthorized) := by
  unfold TaskService.StartTask TaskService.CompleteTask TaskService.DeclineUrgentCall
  simp only [hget, if_pos hown, and_self]

/-- C10 at a store whose task belongs to user 2: user 1 is refused by the three use
cases. -/
theorem foreign_caller_unauthorized_witness :
    plainTaskService.StartTask foreignTaskStore 0 1 1 = (foreignTaskStore, some ErrUnauthorized) ∧
    plainTaskService.CompleteTask foreignTaskStore 0 1 1
      = (foreignTaskStore, .error ErrUnauthorized) ∧
    plainTaskService.DeclineUrgentCall foreignTaskStore 0 1 1
      = (foreignTaskStore, some ErrUnauthorized) :=
  foreign_caller_unauthorized plainTaskService foreignTaskStore 0 1 1
    { sampleTask with UserID := 2 } rfl (by decide)

/-! ## A failed transition in `StartTask` -/

/-- C8 (as stated, refuted): the sample user (energy 100) starts its own task, which is
already completed and costs 10 energy; were the debit stored, the stored energy would be
90, but it is still 100. -/
theorem startTask_failed_transition_counterexample :
    ¬ (∀ (svc : TaskService) (s : Store) (now : Time) (taskID userID : Int) (task : Task)
        (user : User) (err : DomainError),
        TaskRepository.GetByID s taskID = .ok task → task.UserID = userID →
        UserRepository.GetByID s userID = .ok user → task.EnergyCost ≤ user.Energy →
        (task.Start now).2 = some err →
        (svc.StartTask s now taskID userID).2 = some err ∧
        ∃ user1, UserRepository.GetByID (svc.StartTask s now taskID userID).1 userID
            = .ok user1 ∧ user1.Energy = user.Energy - task.EnergyCost) := by
  intro h
  obtain ⟨_, user1, hget1, hen⟩ := h plainTaskService completedTaskStore 0 1 1
    { sampleTask with Status := TaskStatusCompleted, StartedAt := some 1,
                      CompletedAt := some 2 }
    sampleUser ErrTaskNotActive rfl rfl rfl (by decide) rfl
  have hstored : UserRepository.GetByID
      (plainTaskService.StartTask completedTaskStore 0 1 1).1 1 = .ok sampleUser := rfl
  rw [hstored] at hget1
  cases hget1
  revert hen
  decide

/-- C8 (amended): for a task owned by the caller and a user with energy at least the
energy cost, if the status is not active, or the task is urgent and `now` is after its
expiry, then `StartTask` returns the error of the transition (`ErrTaskNotActive` in the
first case, `ErrTaskExpired` otherwise) and stores nothing: the store, and with it the
energy of the stored user, is as before. -/
theorem startTask_failed_transition_stores_nothing (svc : TaskService) (s : Store)
    (now : Time) (taskID userID : Int) (task : Task) (user : User)
    (hget : TaskRepository.GetByID s taskID = .ok task) (hown : task.UserID = userID)
    (huser : UserRepository.GetByID s userID = .ok user)
    (henergy : task.EnergyCost ≤ user.Energy)
    (hfail : task.Status ≠ TaskStatusActive ∨
      (task.IsUrgent = true ∧ ∃ deadline, task.UrgentUntil = some deadline ∧ deadline < now)) :
    svc.StartTask s now taskID userID =
      (s, some (if task.Status ≠ TaskStatusActive then ErrTaskNotActive else ErrTaskExpired)) := by
  have hspend : user.SpendEnergy task.EnergyCost
      = ({ user with Energy := user.Energy - task.EnergyCost }, none) := by
    unfold User.SpendEnergy User.HasEnoughEnergy
    rw [if_neg]
    simpa using henergy
  have hstart : task.Start now
      = (task, some (if task.Status ≠ TaskStatusActive then ErrTaskNotActive
          else ErrTaskExpired)) := by
    unfold Task.Start Task.CanStart
    by_cases hst : task.Status ≠ TaskStatusActive
    · simp only [if_pos hst]
    · rcases hfail with h | ⟨hu, deadline, hd, hlt⟩
      · exact absurd h hst
      · simp only [if_neg hst, hu, hd, gt_iff_lt, hlt, if_true]
  unfold TaskService.StartTask
  simp only [hget, hown, ne_eq, not_true_eq_false, if_false, huser, hspend, hstart]

/-- The amended statement of C8 at the completed sample task: `StartTask` returns
`ErrTaskNotActive` and the store is as before. -/
theorem startTask_failed_transition_stores_nothing_witness :
    plainTaskService.StartTask completedTaskStore 0 1 1
      = (completedTaskStore, some ErrTaskNotActive) :=
  startTask_failed_transition_stores_nothing plainTaskService completedTaskStore 0 1 1
    { sampleTask with Status := TaskStatusCompleted, StartedAt := some 1,
                      CompletedAt := some 2 }
    sampleUser rfl rfl rfl (by decide) (Or.inl (by decide))

/-! ## The task rows that a use case persists -/

/-- A lookup has one answer. -/
theorem taskRepo_getByID_unique {s : Store} {k : Int} {t t1 : Task}
    (h : TaskRepository.GetByID s k = .ok t) (h1 : TaskRepository.GetByID s k = .ok t1) :
    t1 = t := by
  rw [h] at h1
  cases h1
  rfl

/-- After the update of a task, the row under an id is the row that was there, or the
written aggregate when the id is its own. -/
theorem taskRepo_update_row {io : Infra} {s s1 : Store} {t1 t : Task}
    {e : Option DomainError} (h : TaskRepository.Update io s t1 = (s1, e)) {k : Int}
    (hk : TaskRepository.GetByID s k = .ok t) :
    TaskRepository.GetByID s1 k = .ok t ∨
      (k = t1.ID ∧ TaskRepository.GetByID s1 k = .ok t1) := by
  by_cases hid : k = t1.ID
  · cases e with
    | none =>
      right
      exact ⟨hid, hid ▸ taskRepo_getByID_update_eq h⟩
    | some err =>
      left
      rw [(taskRepo_update_error h).1]
      exact hk
  · left
    rw [taskRepo_getByID_update_ne h k hid]
    exact hk

/-- `Start` leaves the id of the task as it was. -/
theorem start_ID {t t1 : Task} {now : Time} {e : Option DomainError}
    (h : t.Start now = (t1, e)) : t1.ID = t.ID := by
  unfold Task.Start at h
  split at h <;> cases h <;> rfl

/-- `Complete` leaves the id of the task as it was. -/
theorem complete_ID {t t1 : Task} {now : Time} {e : Option DomainError}
    (h : t.Complete now = (t1, e)) : t1.ID = t.ID := by
  unfold Task.Complete at h
  split at h <;> cases h <;> rfl

/-- The license penalty leaves the id of the task as it was. -/
theorem applyLicensePenalty_ID (t : Task) (u : User) (now : Time) :
    (TaskService.applyLicensePenalty t u now).ID = t.ID := by
  unfold TaskService.applyLicensePenalty
  split <;> rfl

/-- The row under an id after `CreateCustomTask` is the row that was there. -/
theorem createCustomTask_task_row (svc : TaskService) (s : Store) (userID : Int)
    (title description : String) (taskType : TaskType) {k : Int} {t : Task}
    (hk : TaskRepository.GetByID s k = .ok t) :
    TaskRepository.GetByID (svc.CreateCustomTask s userID title description taskType).1 k
      = .ok t := by
  unfold TaskService.CreateCustomTask
  split
  · exact hk
  · dsimp only
    split
    · exact hk
    · split
      · rename_i s1 err hcreate
        exact taskRepo_getByID_create hcreate k hk
      · rename_i s1 task1 hcreate
        have h1 := taskRepo_getByID_create hcreate k hk
        split
        · rename_i s2 err hupd
          rw [taskRepo_getByID_congr (userRepo_update_tasks hupd)]
          exact h1
        · rename_i s2 hupd
          rw [taskRepo_getByID_congr (userRepo_update_tasks hupd)]
          exact h1

/-- The row under an id after `StartTask` is the row that was there, or that row after a
successful `Start` when the id is that of the call. -/
theorem startTask_task_row (svc : TaskService) (s : Store) (now : Time)
    (taskID userID : Int) {k : Int} {t : Task} (hk : TaskRepository.GetByID s k = .ok t) :
    TaskRepository.GetByID (svc.StartTask s now taskID userID).1 k = .ok t ∨
      (k = taskID ∧ ∃ t1, t.Start now = (t1, none) ∧
        TaskRepository.GetByID (svc.StartTask s now taskID userID).1 k = .ok t1) := by
  unfold TaskService.StartTask
  split
  · exact Or.inl hk
  · rename_i task hgetT
    have hT := (taskRepo_getByID_ok hgetT).2
    split
    · exact Or.inl hk
    · split
      · exact Or.inl hk
      · split
        · exact Or.inl hk
        · split
          · exact Or.inl hk
          · rename_i task1 hstart
            have hid : task1.ID = taskID := (start_ID hstart).trans hT
            have hrow : ∀ s1 e1 s2, TaskRepository.Update svc.infra s task1 = (s1, e1) →
                s2.tasks = s1.tasks →
                TaskRepository.GetByID s2 k = .ok t ∨
                  (k = taskID ∧ ∃ t1, t.Start now = (t1, none) ∧
                    TaskRepository.GetByID s2 k = .ok t1) := by
              intro s1 e1 s2 hupd htasks
              rw [taskRepo_getByID_congr htasks]
              rcases taskRepo_update_row hupd hk with h | ⟨h1, h2⟩
              · exact Or.inl h
              · have hkt : k = taskID := h1.trans hid
                subst hkt
                have := taskRepo_getByID_unique hk hgetT
                subst this
                exact Or.inr ⟨rfl, task1, hstart, h2⟩
            split
            · rename_i s1 err hupd
              exact hrow s1 _ s1 hupd rfl
            · rename_i s1 hupd
              exact hrow s1 _ _ hupd (userRepo_update_tasks (Prod.mk.eta).symm)

/-- The row under an id after `CompleteTask` is the row that was there, or that row after
the license penalty and a successful `Complete` when the id is that of the call. -/
theorem completeTask_task_row (svc : TaskService) (s : Store) (now : Time)
    (taskID userID : Int) {k : Int} {t : Task} (hk : TaskRepository.GetByID s k = .ok t) :
    TaskRepository.GetByID (svc.CompleteTask s now taskID userID).1 k = .ok t ∨
      (k = taskID ∧ ∃ user t1, UserRepository.GetByID s userID = .ok user ∧
        (TaskService.applyLicensePenalty t user now).Complete now = (t1, none) ∧
        TaskRepository.GetByID (svc.CompleteTask s now taskID userID).1 k = .ok t1) := by
  unfold TaskService.CompleteTask
  split
  · exact Or.inl hk
  · rename_i task hgetT
    have hT := (taskRepo_getByID_ok hgetT).2
    split
    · exact Or.inl hk
    · split
      · exact Or.inl hk
      · rename_i user hgetU
        dsimp only
        split
        · exact Or.inl hk
        · rename_i task1 hcomplete
          have hid : task1.ID = taskID :=
            ((complete_ID hcomplete).trans (applyLicensePenalty_ID _ _ _)).trans hT
          have hrow : ∀ s1 e1 s2, TaskRepository.Update svc.infra s task1 = (s1, e1) →
              s2.tasks = s1.tasks →
              TaskRepository.GetByID s2 k = .ok t ∨
                (k = taskID ∧ ∃ user t1, UserRepository.GetByID s userID = .ok user ∧
                  (TaskService.applyLicensePenalty t user now).Complete now = (t1, none) ∧
                  TaskRepository.GetByID s2 k = .ok t1) := by
            intro s1 e1 s2 hupd htasks
            rw [taskRepo_getByID_congr htasks]
            rcases taskRepo_update_row hupd hk with h | ⟨h1, h2⟩
            · exact Or.inl h
            · have hkt : k = taskID := h1.trans hid
              subst hkt
              have := taskRepo_getByID_unique hk hgetT
              subst this
              exact Or.inr ⟨rfl, user, task1, hgetU, hcomplete, h2⟩
          split
          · rename_i s1 err hupd
            exact hrow s1 _ s1 hupd rfl
          · rename_i s1 hupd
            split
            · rename_i s2 err hupd2
              exact hrow s1 _ s2 hupd (userRepo_update_tasks hupd2)
            · rename_i s2 hupd2
              exact hrow s1 _ s2 hupd (userRepo_update_tasks hupd2)

/-- The row under an id after `DeclineUrgentCall` is the row that was there, or that row
after `Fail` when the id is that of the call and the task is urgent. -/
theorem declineUrgentCall_task_row (svc : TaskService) (s : Store) (now : Time)
    (taskID userID : Int) {k : Int} {t : Task} (hk : TaskRepository.GetByID s k = .ok t) :
    TaskRepository.GetByID (svc.DeclineUrgentCall s now taskID userID).1 k = .ok t ∨
      (k = taskID ∧ t.IsUrgent = true ∧
        TaskRepository.GetByID (svc.DeclineUrgentCall s now taskID userID).1 k
          = .ok (t.Fail now)) := by
  unfold TaskService.DeclineUrgentCall
  split
  · exact Or.inl hk
  · rename_i task hgetT
    have hT := (taskRepo_getByID_ok hgetT).2
    split
    · exact Or.inl hk
    · split
      · exact Or.inl hk
      · rename_i hurgent
        split
        · exact Or.inl hk
        · dsimp only
          have hrow : ∀ s1 e1 s2, TaskRepository.Update svc.infra s (task.Fail now) = (s1, e1) →
              s2.tasks = s1.tasks →
              TaskRepository.GetByID s2 k = .ok t ∨
                (k = taskID ∧ t.IsUrgent = true ∧
                  TaskRepository.GetByID s2 k = .ok (t.Fail now)) := by
            intro s1 e1 s2 hupd htasks
            rw [taskRepo_getByID_congr htasks]
            rcases taskRepo_update_row hupd hk with h | ⟨h1, h2⟩
            · exact Or.inl h
            · have hkt : k = taskID := h1.trans hT
              subst hkt
              have := taskRepo_getByID_unique hk hgetT
              subst this
              exact Or.inr ⟨rfl, by simpa using hurgent, h2⟩
          split
          · rename_i s1 err hupd
            exact hrow s1 _ s1 hupd rfl
          · rename_i s1 hupd
            exact hrow s1 _ _ hupd (userRepo_update_tasks (Prod.mk.eta).symm)

/-- The task rows after `RaidInactivePlayer` are the rows that were there. -/
theorem raidInactivePlayer_tasks (svc : UserService) (s : Store) (now : Time)
    (attackerID targetID cost : Int) :
    (svc.RaidInactivePlayer s now attackerID targetID cost).1.tasks = s.tasks := by
  unfold UserService.RaidInactivePlayer
  split
  · rfl
  · split
    · rfl
    · split
      · rfl
      · split
        · rfl
        · split
          · rfl
          · split
            · rfl
            · dsimp only
              split
              · rename_i s1 err hupd
                exact userRepo_update_tasks hupd
              · rename_i s1 hupd
                split
                · rename_i s2 err hupd2
                  exact (userRepo_update_tasks hupd2).trans (userRepo_update_tasks hupd)
                · rename_i s2 hupd2
                  exact (userRepo_update_tasks hupd2).trans (userRepo_update_tasks hupd)

/-! ## The status of a stored task -/

/-- C6 (the code at the failing input): the sample user starts and completes the urgent
call, which stores the status `completed` and 107 gold; `DeclineUrgentCall` on the same
task then succeeds, stores the status `failed` and takes the penalty of 5 gold. -/
theorem declineUrgentCall_completed_task :
    completedUrgentStore.tasks.map (fun t => t.Status) = [TaskStatusCompleted] ∧
    completedUrgentStore.users.map (fun u => u.Gold) = [107] ∧
    (plainTaskService.DeclineUrgentCall completedUrgentStore 2 1 1).2 = none ∧
    (plainTaskService.DeclineUrgentCall completedUrgentStore 2 1 1).1.tasks.map
      (fun t => t.Status) = [TaskStatusFailed] ∧
    (plainTaskService.DeclineUrgentCall completedUrgentStore 2 1 1).1.users.map
      (fun u => u.Gold) = [102] := by
  decide

/-! ## The rewards of a stored task -/

/-- `Start` does not succeed on a task that is not active. -/
theorem start_not_active {t t1 : Task} {now : Time} (hst : t.Status ≠ TaskStatusActive) :
    t.Start now ≠ (t1, none) := by
  unfold Task.Start Task.CanStart
  rw [if_pos hst]
  intro h
  cases h

/-- `Complete` succeeds only on a task in progress, and leaves its rewards as they were. -/
theorem complete_ok {t t1 : Task} {now : Time} (h : t.Complete now = (t1, none)) :
    t.Status = TaskStatusInProgress ∧ t1.XPReward = t.XPReward ∧
      t1.GoldReward = t.GoldReward ∧ t1.StatBoost = t.StatBoost := by
  unfold Task.Complete Task.CanComplete at h
  by_cases hst : t.Status = TaskStatusInProgress
  · simp only [ne_eq, hst, not_true_eq_false, if_false] at h
    cases h
    exact ⟨hst, rfl, rfl, rfl⟩
  · simp only [ne_eq, hst, not_false_eq_true, if_true] at h
    cases h

/-! ## The lifecycle methods of a task -/

/-- C16: `Start` succeeds exactly when the status is active and the task is not urgent, or
has no expiry, or `now` is not after the expiry; a success sets the status to in progress
and `StartedAt` to `now` and nothing else; a status that is not active gives
`ErrTaskNotActive` (also when the task is expired), an active urgent task whose expiry is
before `now` gives `ErrTaskExpired`, and a failure leaves the task as it was. -/
theorem start_spec (t : Task) (now : Time) :
    ((t.Start now).2 = none ↔
      t.Status = TaskStatusActive ∧
        (t.IsUrgent = false ∨ t.UrgentUntil = none ∨
          ∃ deadline, t.UrgentUntil = some deadline ∧ now ≤ deadline)) ∧
    ((t.Start now).2 = none →
      (t.Start now).1 = { t with Status := TaskStatusInProgress, StartedAt := some now }) ∧
    (t.Status ≠ TaskStatusActive → t.Start now = (t, some ErrTaskNotActive)) ∧
    (t.Status = TaskStatusActive → t.IsUrgent = true →
      ∀ deadline, t.UrgentUntil = some deadline → deadline < now →
        t.Start now = (t, some ErrTaskExpired)) ∧
    ((t.Start now).2 ≠ none → (t.Start now).1 = t) := by
  unfold Task.Start Task.CanStart
  by_cases hst : t.Status = TaskStatusActive
  · simp only [ne_eq, hst, not_true_eq_false, if_false, true_and, false_imp_iff, true_imp_iff]
    cases hu : t.IsUrgent with
    | false => simp
    | true =>
      cases hd : t.UrgentUntil with
      | none => simp
      | some deadline =>
        by_cases hlt : deadline < now
        · simp [hlt]
        · simp [hlt, not_lt.mp hlt]
  · simp [hst]

/-- C16 at the sample tasks: the active sample task starts at the instant 0; the urgent
sample task, which expires after one hour, is refused one nanosecond later. -/
theorem start_spec_witness :
    (sampleTask.Start 0).1
        = { sampleTask with Status := TaskStatusInProgress, StartedAt := some 0 } ∧
    sampleUrgentTask.Start (hour + 1) = (sampleUrgentTask, some ErrTaskExpired) :=
  ⟨(start_spec sampleTask 0).2.1 (by decide),
   (start_spec sampleUrgentTask (hour + 1)).2.2.2.1 (by decide) (by decide) hour (by decide)
     (by decide)⟩

/-- C17: `Complete` succeeds exactly when the status is in progress, and then sets the
status to completed and `CompletedAt` to `now` and nothing else; for every other status,
an active task included, it returns `ErrTaskNotInProgress` and leaves the task as it
was. -/
theorem complete_spec (t : Task) (now : Time) :
    ((t.Complete now).2 = none ↔ t.Status = TaskStatusInProgress) ∧
    (t.Status = TaskStatusInProgress →
      t.Complete now
        = ({ t with Status := TaskStatusCompleted, CompletedAt := some now }, none)) ∧
    (t.Status ≠ TaskStatusInProgress → t.Complete now = (t, some ErrTaskNotInProgress)) := by
  unfold Task.Complete Task.CanComplete
  by_cases hst : t.Status = TaskStatusInProgress
  · simp [hst]
  · simp [hst]

/-- C17 at the sample task: in progress it completes at the instant 3; active and never
started it is refused. -/
theorem complete_spec_witness :
    (sampleTask.Start 0).1.Complete 3
        = ({ (sampleTask.Start 0).1 with Status := TaskStatusCompleted,
                                         CompletedAt := some 3 }, none) ∧
    sampleTask.Complete 3 = (sampleTask, some ErrTaskNotInProgress) :=
  ⟨(complete_spec (sampleTask.Start 0).1 3).2.1 (by decide),
   (complete_spec sampleTask 3).2.2 (by decide)⟩

/-! ## The advisory quota -/

/-- What `UseSenseiRequest` returns in each of its three cases. -/
theorem useSenseiRequest_eq (u : User) (now : Time) :
    u.UseSenseiRequest now =
      if 0 < u.SenseiRequests then ({ u with SenseiRequests := u.SenseiRequests - 1 }, none)
      else if u.SenseiResetsAt < now then
        ({ u with SenseiRequests := 4, SenseiResetsAt := now + sevenDays }, none)
      else (u, some ErrNoSenseiRequests) := by
  unfold User.UseSenseiRequest User.CanUseSensei
  by_cases hpos : 0 < u.SenseiRequests
  · have hle : ¬ u.SenseiRequests ≤ 0 := by omega
    simp [hpos, hle]
  · have hle : u.SenseiRequests ≤ 0 := by omega
    by_cases hlt : u.SenseiResetsAt < now
    · simp [hpos, hle, hlt]
    · simp [hpos, hle, hlt]

/-- C18: `UseSenseiRequest` fails with `ErrNoSenseiRequests` exactly when no request
remains and `now` is not after the reset instant, and then leaves the user as it was; when
no request remains and `now` is after the reset instant it resets the remaining requests
to 5 and the reset instant to `now` plus seven days and then takes one; otherwise it takes
one.  Hence from 5 remaining requests five calls succeed and reach 0, a sixth call that is
not after the reset instant fails, and `CanUseSensei` after the reset instant returns true
with 5 remaining requests. -/
theorem useSenseiRequest_spec (u : User) (now t1 t2 t3 t4 t5 t6 t7 : Time) :
    ((u.UseSenseiRequest now).2 = some ErrNoSenseiRequests ↔
      u.SenseiRequests ≤ 0 ∧ ¬ u.SenseiResetsAt < now) ∧
    ((u.UseSenseiRequest now).2 ≠ none →
      u.UseSenseiRequest now = (u, some ErrNoSenseiRequests)) ∧
    (u.SenseiRequests ≤ 0 → u.SenseiResetsAt < now →
      u.UseSenseiRequest now
        = ({ u with SenseiRequests := 5 - 1, SenseiResetsAt := now + sevenDays }, none)) ∧
    (0 < u.SenseiRequests →
      u.UseSenseiRequest now = ({ u with SenseiRequests := u.SenseiRequests - 1 }, none)) ∧
    (u.SenseiRequests = 5 → t6 ≤ u.SenseiResetsAt → u.SenseiResetsAt < t7 →
      useSenseiRequests u [t1, t2, t3, t4, t5]
        = ({ u with SenseiRequests := 0 }, [none, none, none, none, none]) ∧
      useSenseiRequests u [t1, t2, t3, t4, t5, t6]
        = ({ u with SenseiRequests := 0 },
            [none, none, none, none, none, some ErrNoSenseiRequests]) ∧
      (useSenseiRequests u [t1, t2, t3, t4, t5, t6]).1.CanUseSensei t7
        = ({ u with SenseiRequests := 5, SenseiResetsAt := t7 + sevenDays }, true)) := by
  refine ⟨?_, ?_, ?_, ?_, ?_⟩
  · rw [useSenseiRequest_eq]
    by_cases hpos : 0 < u.SenseiRequests
    · simp only [hpos, if_true]
      constructor
      · intro h; cases h
      · intro h; omega
    · by_cases hlt : u.SenseiResetsAt < now
      · simp [hpos, hlt]
      · simp only [hpos, hlt, if_false, not_false_eq_true, and_true, true_iff]
        omega
  · rw [useSenseiRequest_eq]
    by_cases hpos : 0 < u.SenseiRequests
    · simp [hpos]
    · by_cases hlt : u.SenseiResetsAt < now
      · simp [hpos, hlt]
      · simp [hpos, hlt]
  · intro hle hlt
    rw [useSenseiRequest_eq, if_neg (by omega), if_pos hlt]
    rfl
  · intro hpos
    rw [useSenseiRequest_eq, if_pos hpos]
  · intro h5 h6 h7
    have hchain : useSenseiRequests u [t1, t2, t3, t4, t5]
        = ({ u with SenseiRequests := 0 }, [none, none, none, none, none]) := by
      simp [useSenseiRequests, useSenseiRequest_eq, h5]
    have hsix : useSenseiRequests u [t1, t2, t3, t4, t5, t6]
        = ({ u with SenseiRequests := 0 },
            [none, none, none, none, none, some ErrNoSenseiRequests]) := by
      simp [useSenseiRequests, useSenseiRequest_eq, h5, not_lt.mpr h6]
    refine ⟨hchain, hsix, ?_⟩
    rw [hsix]
    simp [User.CanUseSensei, h7]

/-- C18 at the sample user (5 requests, reset after seven days): five chats exhaust the
quota, the sixth at the reset instant fails, and the check one nanosecond later finds 5
requests again. -/
theorem useSenseiRequest_spec_witness :
    useSenseiRequests sampleUser [1, 2, 3, 4, 5]
        = ({ sampleUser with SenseiRequests := 0 }, [none, none, none, none, none]) ∧
    useSenseiRequests sampleUser [1, 2, 3, 4, 5, sevenDays]
        = ({ sampleUser with SenseiRequests := 0 },
            [none, none, none, none, none, some ErrNoSenseiRequests]) ∧
    (useSenseiRequests sampleUser [1, 2, 3, 4, 5, sevenDays]).1.CanUseSensei (sevenDays + 1)
        = ({ sampleUser with SenseiRequests := 5,
                             SenseiResetsAt := sevenDays + 1 + sevenDays }, true) :=
  (useSenseiRequest_spec sampleUser 0 1 2 3 4 5 sevenDays (sevenDays + 1)).2.2.2.2
    (by decide) (by decide) (by decide)

/-! ## The user row under an id -/

/-- The lookup of a user reads the user rows only. -/
theorem userRepo_getByID_congr {s s1 : Store} (h : s1.users = s.users) (k : Int) :
    UserRepository.GetByID s1 k = UserRepository.GetByID s k := by
  unfold UserRepository.GetByID
  rw [h]

/-- Replacing the user rows of one id does not change the first row of another id. -/
theorem find_map_replace_user_ne (l : List User) (u : User) (k : Int) (hk : k ≠ u.ID) :
    (l.map (fun v => if v.ID = u.ID then u else v)).find? (fun v => decide (v.ID = k)) =
      l.find? (fun v => decide (v.ID = k)) := by
  induction l with
  | nil => rfl
  | cons a l ih =>
    simp only [List.map_cons, List.find?_cons]
    by_cases ha : a.ID = u.ID
    · have h1 : ¬ a.ID = k := fun h => hk (h ▸ ha)
      have h2 : ¬ u.ID = k := fun h => hk h.symm
      simp only [ha, if_true, h1, h2, decide_False, ih]
    · simp only [ha, if_false, ih]

/-- Replacing the user rows of an id that is present makes the new row the first of that
id. -/
theorem find_map_replace_user_eq (l : List User) (u : User)
    (hany : l.any (fun v => decide (v.ID = u.ID)) = true) :
    (l.map (fun v => if v.ID = u.ID then u else v)).find? (fun v => decide (v.ID = u.ID)) =
      some u := by
  induction l with
  | nil => simp at hany
  | cons a l ih =>
    simp only [List.map_cons, List.find?_cons]
    by_cases ha : a.ID = u.ID
    · simp only [ha, if_true, decide_True]
    · simp only [List.any_cons, ha, decide_False, Bool.false_or] at hany
      simp only [ha, if_false, decide_False, ih hany]

/-- An update of a user does not change the row under another id. -/
theorem userRepo_getByID_update_ne {io : Infra} {s s1 : Store} {u : User}
    {e : Option DomainError} (h : UserRepository.Update io s u = (s1, e)) (k : Int)
    (hk : k ≠ u.ID) : UserRepository.GetByID s1 k = UserRepository.GetByID s k := by
  unfold UserRepository.Update at h
  unfold UserRepository.GetByID
  split at h
  · cases h; rfl
  · split at h
    · cases h
      simp only [find_map_replace_user_ne _ u k hk]
    · cases h
      have h2 : ¬ u.ID = k := fun h => hk h.symm
      simp only [List.find?_append, List.find?_cons, h2, decide_False, List.find?_nil,
        Option.or_none]

/-- After a successful update the row under the id of the aggregate is the aggregate. -/
theorem userRepo_getByID_update_eq {io : Infra} {s s1 : Store} {u : User}
    (h : UserRepository.Update io s u = (s1, none)) :
    UserRepository.GetByID s1 u.ID = .ok u := by
  unfold UserRepository.Update at h
  unfold UserRepository.GetByID
  split at h
  · cases h
  · split at h
    · rename_i hany
      cases h
      simp only [find_map_replace_user_eq _ u hany]
    · rename_i hany
      cases h
      have hnone : s.users.find? (fun v => decide (v.ID = u.ID)) = none := by
        rw [List.find?_eq_none]
        intro x hx hxe
        exact hany (List.any_eq_true.mpr ⟨x, hx, hxe⟩)
      simp only [List.find?_append, hnone, List.find?_cons, decide_True, Option.none_or]

/-- An update of a user that the infrastructure does not refuse succeeds: the row under
the id of the aggregate is the aggregate, and the other rows are as before. -/
theorem userRepo_update_success (io : Infra) (s : Store) (u : User)
    (h : io.userUpdateFails u.ID = false) :
    ∃ s1, UserRepository.Update io s u = (s1, none) ∧
      UserRepository.GetByID s1 u.ID = .ok u ∧
      (∀ k, k ≠ u.ID → UserRepository.GetByID s1 k = UserRepository.GetByID s k) ∧
      s1.tasks = s.tasks := by
  have hnone : (UserRepository.Update io s u).2 = none := by
    unfold UserRepository.Update
    rw [h]
    simp only [Bool.false_eq_true, if_false]
    split <;> rfl
  have heq : UserRepository.Update io s u = ((UserRepository.Update io s u).1, none) :=
    Prod.ext rfl hnone
  exact ⟨_, heq, userRepo_getByID_update_eq heq,
    fun k hk => userRepo_getByID_update_ne heq k hk, userRepo_update_tasks heq⟩

/-- An update of a task that the infrastructure does not refuse succeeds: the row under
the id of the aggregate is the aggregate, and the other rows are as before. -/
theorem taskRepo_update_success (io : Infra) (s : Store) (t : Task)
    (h : io.taskUpdateFails t.ID = false) :
    ∃ s1, TaskRepository.Update io s t = (s1, none) ∧
      TaskRepository.GetByID s1 t.ID = .ok t ∧
      (∀ k, k ≠ t.ID → TaskRepository.GetByID s1 k = TaskRepository.GetByID s k) ∧
      s1.users = s.users := by
  have hnone : (TaskRepository.Update io s t).2 = none := by
    unfold TaskRepository.Update
    rw [h]
    simp only [Bool.false_eq_true, if_false]
    split <;> rfl
  have heq : TaskRepository.Update io s t = ((TaskRepository.Update io s t).1, none) :=
    Prod.ext rfl hnone
  exact ⟨_, heq, taskRepo_getByID_update_eq heq,
    fun k hk => taskRepo_getByID_update_ne heq k hk, taskRepo_update_users heq⟩

/-! ## The raid -/

/-- C12: with both users stored, `RaidInactivePlayer` fails with `ErrCannotRaidSelf` when
the ids are equal; otherwise with `ErrPlayerNotInactive` when `now - lastActiveAt` of the
target is at most three days; otherwise with `ErrLicenseInactive` when the license of the
attacker is not valid at `now`; otherwise with `ErrInsufficientGold` when the cost is above
the gold of the attacker; and in each of these failures the store is as before. -/
theorem raid_guards (svc : UserService) (s : Store) (now : Time)
    (attackerID targetID cost : Int) (attacker target : User)
    (hA : UserRepository.GetByID s attackerID = .ok attacker)
    (hT : UserRepository.GetByID s targetID = .ok target) :
    (attackerID = targetID →
      svc.RaidInactivePlayer s now attackerID targetID cost = (s, .error ErrCannotRaidSelf)) ∧
    (attackerID ≠ targetID → now - target.LastActiveAt ≤ 3 * 24 * hour →
      svc.RaidInactivePlayer s now attackerID targetID cost
        = (s, .error ErrPlayerNotInactive)) ∧
    (attackerID ≠ targetID → 3 * 24 * hour < now - target.LastActiveAt →
      attacker.IsLicenseValid now = false →
      svc.RaidInactivePlayer s now attackerID targetID cost
        = (s, .error ErrLicenseInactive)) ∧
    (attackerID ≠ targetID → 3 * 24 * hour < now - target.LastActiveAt →
      attacker.IsLicenseValid now = true → attacker.Gold < cost →
      svc.RaidInactivePlayer s now attackerID targetID cost
        = (s, .error ErrInsufficientGold)) := by
  unfold UserService.RaidInactivePlayer
  simp only [hA, hT]
  refine ⟨?_, ?_, ?_, ?_⟩
  · intro heq
    rw [if_pos heq]
  · intro hne hrecent
    have hin : target.IsInactive now = false := by
      unfold User.IsInactive
      exact decide_eq_false (not_lt.mpr hrecent)
    rw [if_neg hne, if_pos hin]
  · intro hne hold hlic
    have hin : ¬ target.IsInactive now = false := by
      unfold User.IsInactive
      rw [decide_eq_true hold]
      exact Bool.noConfusion
    rw [if_neg hne, if_neg hin, if_pos hlic]
  · intro hne hold hlic hgold
    have hin : ¬ target.IsInactive now = false := by
      unfold User.IsInactive
      rw [decide_eq_true hold]
      exact Bool.noConfusion
    have hspend : attacker.SpendGold cost = (attacker, some ErrInsufficientGold) := by
      unfold User.SpendGold
      rw [if_pos hgold]
    rw [if_neg hne, if_neg hin, if_neg (by simp [hlic])]
    simp only [hspend]

/-- C12 at the raid store one hour after the target was active: the raid is refused with
`ErrPlayerNotInactive` and the store is as before. -/
theorem raid_guards_witness :
    plainUserService.RaidInactivePlayer (raidStore 100) hour 1 2 10
      = (raidStore 100, .error ErrPlayerNotInactive) :=
  (raid_guards plainUserService (raidStore 100) hour 1 2 10 raidAttacker (raidTarget 100)
    rfl rfl).2.1 (by decide) (by decide)

/-- C11 (as stated, refuted): the attacker raids a target that holds 3 gold; the loot is
10, and the stored gold of the target is 0, not `3 - 10`. -/
theorem raid_target_gold_counterexample :
    ¬ (∀ (svc : UserService) (s : Store) (now : Time) (attackerID targetID cost : Int)
        (attacker target : User),
        UserRepository.GetByID s attackerID = .ok attacker →
        UserRepository.GetByID s targetID = .ok target →
        attackerID ≠ targetID → target.IsInactive now = true →
        attacker.IsLicenseValid now = true → cost ≤ attacker.Gold →
        attacker.XP + target.Level * 5 < 100 * attacker.Level * attacker.Level / 2 →
        (∃ r, (svc.RaidInactivePlayer s now attackerID targetID cost).2 = .ok r) →
        ∃ stored,
          UserRepository.GetByID (svc.RaidInactivePlayer s now attackerID targetID cost).1
            targetID = .ok stored ∧
          stored.Gold = target.Gold - max 10 (target.Gold / 5)) := by
  intro h
  obtain ⟨stored, hget, hgold⟩ := h plainUserService (raidStore 3) fourDays 1 2 10
    raidAttacker (raidTarget 3) rfl rfl (by decide) (by decide) (by decide) (by decide)
    (by decide) ⟨_, rfl⟩
  have hstored : UserRepository.GetByID
      (plainUserService.RaidInactivePlayer (raidStore 3) fourDays 1 2 10).1 2
        = .ok { raidTarget 3 with Gold := 0 } := rfl
  rw [hstored] at hget
  cases hget
  revert hgold
  decide

/-- The loot of a raid, written with the floor division: a fifth of the gold of the target,
and at least 10. -/
theorem raid_loot_eq (g : Int) :
    (if mulOneFifth g < 10 then 10 else mulOneFifth g) = max 10 (g / 5) := by
  unfold mulOneFifth
  by_cases hg : 0 ≤ g
  · rw [Int.tdiv_eq_ediv hg (by decide)]
    split <;> omega
  · have h1 : Int.tdiv g 5 = -((-g) / 5) := by
      have h := Int.neg_tdiv (-g) 5
      have h2 : (-g).tdiv 5 = -g / 5 := Int.tdiv_eq_ediv (by omega) (by decide)
      rw [neg_neg, h2] at h
      exact h
    rw [h1]
    split <;> omega

/-- C11 (amended): in a raid that passes its guards (different ids, inactive target, valid
license, cost at most the gold of the attacker), is not refused by the store and does not
level the attacker up, with `loot = max 10 (target.gold / 5)`: the result reports the loot
and `target.level * 5` experience, the stored attacker has `gold - cost + loot` gold and
that experience added, and the stored target has `max 0 (gold - loot)` gold, which is
`gold - loot` when the target holds at least 10 gold. -/
theorem raid_success (svc : UserService) (s : Store) (now : Time)
    (attackerID targetID cost : Int) (attacker target : User)
    (hA : UserRepository.GetByID s attackerID = .ok attacker)
    (hT : UserRepository.GetByID s targetID = .ok target)
    (hne : attackerID ≠ targetID) (hin : target.IsInactive now = true)
    (hlic : attacker.IsLicenseValid now = true) (hcost : cost ≤ attacker.Gold)
    (hnolevel : attacker.XP + target.Level * 5 < 100 * attacker.Level * attacker.Level / 2)
    (hioA : svc.infra.userUpdateFails attackerID = false)
    (hioT : svc.infra.userUpdateFails targetID = false) :
    (svc.RaidInactivePlayer s now attackerID targetID cost).2
      = .ok { GoldLooted := max 10 (target.Gold / 5), XPGained := target.Level * 5,
              TargetName := target.Username, TargetRank := target.GetRank } ∧
    UserRepository.GetByID (svc.RaidInactivePlayer s now attackerID targetID cost).1 attackerID
      = .ok { attacker with Gold := attacker.Gold - cost + max 10 (target.Gold / 5),
                            XP := attacker.XP + target.Level * 5,
                            XPToNextLvl := 100 * attacker.Level * attacker.Level / 2 } ∧
    UserRepository.GetByID (svc.RaidInactivePlayer s now attackerID targetID cost).1 targetID
      = .ok { target with Gold := max 0 (target.Gold - max 10 (target.Gold / 5)) } ∧
    (10 ≤ target.Gold →
      max 0 (target.Gold - max 10 (target.Gold / 5))
        = target.Gold - max 10 (target.Gold / 5)) := by
  have harith : 10 ≤ target.Gold →
      max 0 (target.Gold - max 10 (target.Gold / 5))
        = target.Gold - max 10 (target.Gold / 5) := by
    intro h
    omega
  have hAid := (userRepo_getByID_ok hA).2
  have hTid := (userRepo_getByID_ok hT).2
  have hspend : attacker.SpendGold cost
      = ({ attacker with Gold := attacker.Gold - cost }, none) := by
    unfold User.SpendGold
    rw [if_neg (by omega)]
  have hloot := raid_loot_eq target.Gold
  have h10 : 10 ≤ max 10 (target.Gold / 5) := le_max_left _ _
  generalize max 10 (target.Gold / 5) = loot at hloot h10 harith ⊢
  have hgoldA : ({ attacker with Gold := attacker.Gold - cost } : User).AddGold loot
      = { attacker with Gold := attacker.Gold - cost + loot } := by
    unfold User.AddGold
    dsimp only
    rw [if_neg (by omega)]
  have hgoldT : target.AddGold (-loot) = { target with Gold := max 0 (target.Gold - loot) } := by
    unfold User.AddGold
    dsimp only
    split
    · have h0 : max 0 (target.Gold - loot) = 0 := by omega
      rw [h0]
    · have h0 : max 0 (target.Gold - loot) = target.Gold + -loot := by omega
      rw [h0]
  have hxp : ({ attacker with Gold := attacker.Gold - cost + loot } : User).AddXP
        (target.Level * 5)
      = ({ attacker with Gold := attacker.Gold - cost + loot,
                         XP := attacker.XP + target.Level * 5,
                         XPToNextLvl := 100 * attacker.Level * attacker.Level / 2 }, false) := by
    rw [addXP_eq]
    exact if_neg (not_le.mpr hnolevel)
  obtain ⟨s1, hu1, hg1, hne1, _⟩ := userRepo_update_success svc.infra s
    { attacker with Gold := attacker.Gold - cost + loot,
                    XP := attacker.XP + target.Level * 5,
                    XPToNextLvl := 100 * attacker.Level * attacker.Level / 2 }
    (by rw [← hAid] at hioA; exact hioA)
  obtain ⟨s2, hu2, hg2, hne2, _⟩ := userRepo_update_success svc.infra s1
    { target with Gold := max 0 (target.Gold - loot) }
    (by rw [← hTid] at hioT; exact hioT)
  have hraid : svc.RaidInactivePlayer s now attackerID targetID cost
      = (s2, .ok { GoldLooted := loot, XPGained := target.Level * 5,
                   TargetName := target.Username, TargetRank := target.GetRank }) := by
    unfold UserService.RaidInactivePlayer
    simp only [hA, hT, if_neg hne, hin, hlic, Bool.true_eq_false, if_false, hspend, hloot,
      hgoldT, hgoldA, hxp, hu1, hu2]
    rfl
  rw [hraid]
  refine ⟨rfl, ?_, ?_, harith⟩
  · have h := hne2 attackerID (by rw [← hTid] at hne; exact hne)
    simp only at h ⊢
    rw [h, ← hAid]
    exact hg1
  · rw [← hTid]
    exact hg2

/-- The amended statement of C11 at the scenario of the specification: attacker with 50
gold, target with 100 gold, cost 10; the loot is 20, the attacker ends with 60 gold and 5
more experience, the target with 80 gold. -/
theorem raid_success_witness :
    (plainUserService.RaidInactivePlayer (raidStore 100) fourDays 1 2 10).2
      = .ok { GoldLooted := 20, XPGained := 5, TargetName := "idle", TargetRank := "E" } ∧
    UserRepository.GetByID
        (plainUserService.RaidInactivePlayer (raidStore 100) fourDays 1 2 10).1 1
      = .ok { raidAttacker with Gold := 60, XP := 5, XPToNextLvl := 50 } ∧
    UserRepository.GetByID
        (plainUserService.RaidInactivePlayer (raidStore 100) fourDays 1 2 10).1 2
      = .ok { raidTarget 100 with Gold := 80 } :=
  have h := raid_success plainUserService (raidStore 100) fourDays 1 2 10 raidAttacker
    (raidTarget 100) rfl rfl (by decide) (by decide) (by decide) (by decide) (by decide) rfl rfl
  ⟨h.1, h.2.1, h.2.2.1⟩

/-! ## The completion of a task -/

/-- `AddXP` leaves the id and the four attributes as they were. -/
theorem addXP_frame (u : User) (xp : Int) :
    (u.AddXP xp).1.ID = u.ID ∧ (u.AddXP xp).1.Strength = u.Strength ∧
    (u.AddXP xp).1.Agility = u.Agility ∧ (u.AddXP xp).1.Intelligence = u.Intelligence ∧
    (u.AddXP xp).1.Insight = u.Insight := by
  rw [addXP_eq]
  split <;> exact ⟨rfl, rfl, rfl, rfl, rfl⟩

/-- `AddGold` leaves the id and the four attributes as they were. -/
theorem addGold_frame (u : User) (amount : Int) :
    (u.AddGold amount).ID = u.ID ∧ (u.AddGold amount).Strength = u.Strength ∧
    (u.AddGold amount).Agility = u.Agility ∧
    (u.AddGold amount).Intelligence = u.Intelligence ∧
    (u.AddGold amount).Insight = u.Insight := by
  unfold User.AddGold
  dsimp only
  split <;> exact ⟨rfl, rfl, rfl, rfl, rfl⟩

/-- `IncreaseAttribute` leaves the id and the level as they were. -/
theorem increaseAttribute_ID (u : User) (ty : String) (amount : Int) :
    (u.IncreaseAttribute ty amount).ID = u.ID ∧
    (u.IncreaseAttribute ty amount).Level = u.Level := by
  unfold User.IncreaseAttribute
  repeat (first | exact ⟨rfl, rfl⟩ | split)

/-- `IncreaseAttribute` adds the amount to the attribute that the type names. -/
theorem increaseAttribute_known (u : User) (amount : Int) :
    (u.IncreaseAttribute TypeStrength amount).Strength = u.Strength + amount ∧
    (u.IncreaseAttribute TypeAgility amount).Agility = u.Agility + amount ∧
    (u.IncreaseAttribute TypeIntelligence amount).Intelligence = u.Intelligence + amount ∧
    (u.IncreaseAttribute TypeInsight amount).Insight = u.Insight + amount := by
  unfold User.IncreaseAttribute
  exact ⟨rfl, rfl, rfl, rfl⟩

/-- C13: for a task in progress that the caller owns, with rewards that are not negative,
and a store that does not refuse the two updates, `CompleteTask` at `now` succeeds and
stores the task as completed; the experience and the gold granted are the rewards of the
task when it is of daily frequency or the license of the user is valid at `now`, and their
halves rounded down otherwise; the attribute that the type of the task names grows by
`StatBoost`; and the result reports the granted experience, gold and `StatBoost`, the flag
of `AddXP` as `LeveledUp` and the level of the stored user as `NewLevel`. -/
theorem completeTask_success (svc : TaskService) (s : Store) (now : Time)
    (taskID userID : Int) (task : Task) (user : User)
    (hT : TaskRepository.GetByID s taskID = .ok task) (hown : task.UserID = userID)
    (hU : UserRepository.GetByID s userID = .ok user)
    (hst : task.Status = TaskStatusInProgress)
    (hxp : 0 ≤ task.XPReward) (hgold : 0 ≤ task.GoldReward)
    (hioT : svc.infra.taskUpdateFails taskID = false)
    (hioU : svc.infra.userUpdateFails userID = false) :
    let full := task.Frequency = FrequencyDaily ∨ user.IsLicenseValid now = true
    let xp := if full then task.XPReward else task.XPReward / 2
    let gold := if full then task.GoldReward else task.GoldReward / 2
    let done : Task := { task with XPReward := xp, GoldReward := gold,
                                   Status := TaskStatusCompleted, CompletedAt := some now }
    let user1 := ((user.AddXP xp).1.AddGold gold).IncreaseAttribute task.TaskType
      task.StatBoost
    (svc.CompleteTask s now taskID userID).2
      = .ok { Task := done, LeveledUp := (user.AddXP xp).2, NewLevel := user1.Level,
              Rewards := { XP := xp, Gold := gold, StatBoost := task.StatBoost,
                           StatType := task.TaskType } } ∧
    TaskRepository.GetByID (svc.CompleteTask s now taskID userID).1 taskID = .ok done ∧
    UserRepository.GetByID (svc.CompleteTask s now taskID userID).1 userID = .ok user1 ∧
    (task.TaskType = TypeStrength → user1.Strength = user.Strength + task.StatBoost) ∧
    (task.TaskType = TypeAgility → user1.Agility = user.Agility + task.StatBoost) ∧
    (task.TaskType = TypeIntelligence →
      user1.Intelligence = user.Intelligence + task.StatBoost) ∧
    (task.TaskType = TypeInsight → user1.Insight = user.Insight + task.StatBoost) := by
  intro full xp gold done user1
  subst hown
  have hTid := (taskRepo_getByID_ok hT).2
  have hUid := (userRepo_getByID_ok hU).2
  have hpen : TaskService.applyLicensePenalty task user now
      = { task with XPReward := xp, GoldReward := gold } := by
    unfold TaskService.applyLicensePenalty
    by_cases hfull : full
    · have hno : ¬ (task.Frequency ≠ FrequencyDaily ∧ user.IsLicenseValid now = false) := by
        rintro ⟨h1, h2⟩
        rcases hfull with h | h
        · exact h1 h
        · rw [h2] at h; cases h
      rw [if_neg hno]
      show task = { task with XPReward := if full then task.XPReward else task.XPReward / 2,
                              GoldReward := if full then task.GoldReward else task.GoldReward / 2 }
      rw [if_pos hfull, if_pos hfull]
    · have hyes : task.Frequency ≠ FrequencyDaily ∧ user.IsLicenseValid now = false := by
        constructor
        · exact fun h => hfull (Or.inl h)
        · cases hl : user.IsLicenseValid now with
          | false => rfl
          | true => exact absurd (Or.inr hl) hfull
      rw [if_pos hyes]
      show _ = { task with XPReward := if full then task.XPReward else task.XPReward / 2,
                           GoldReward := if full then task.GoldReward else task.GoldReward / 2 }
      rw [if_neg hfull, if_neg hfull]
      unfold goDiv
      rw [Int.tdiv_eq_ediv hxp (by decide), Int.tdiv_eq_ediv hgold (by decide)]
  have hcomplete : ({ task with XPReward := xp, GoldReward := gold } : Task).Complete now
      = (done, none) := by
    unfold Task.Complete Task.CanComplete
    simp only [hst, ne_eq, not_true_eq_false, if_false]
  have hid1 : user1.ID = task.UserID := by
    rw [(increaseAttribute_ID _ _ _).1, (addGold_frame _ _).1, (addXP_frame _ _).1, hUid]
  obtain ⟨s1, hu1, hg1, _, husers1⟩ := taskRepo_update_success svc.infra s done
    (by show svc.infra.taskUpdateFails task.ID = false; rw [hTid]; exact hioT)
  obtain ⟨s2, hu2, hg2, _, htasks2⟩ := userRepo_update_success svc.infra s1 user1
    (by rw [hid1]; exact hioU)
  have hmain : svc.CompleteTask s now taskID task.UserID
      = (s2, .ok { Task := done, LeveledUp := (user.AddXP xp).2, NewLevel := user1.Level,
                   Rewards := { XP := xp, Gold := gold, StatBoost := task.StatBoost,
                                StatType := task.TaskType } }) := by
    unfold TaskService.CompleteTask
    simp only [hT, ne_eq, not_true_eq_false, if_false, hU, hpen, hcomplete, hu1]
    have hu2' : UserRepository.Update svc.infra s1
        (((user.AddXP xp).1.AddGold gold).IncreaseAttribute task.TaskType task.StatBoost)
          = (s2, none) := hu2
    simp only [hu2']
    rfl
  rw [hmain]
  refine ⟨rfl, ?_, ?_, ?_, ?_, ?_, ?_⟩
  · show TaskRepository.GetByID s2 taskID = .ok done
    rw [taskRepo_getByID_congr htasks2, ← hTid]
    exact hg1
  · show UserRepository.GetByID s2 task.UserID = .ok user1
    rw [← hid1]
    exact hg2
  · intro hty
    show (User.IncreaseAttribute _ task.TaskType _).Strength = _
    rw [hty, (increaseAttribute_known _ _).1, (addGold_frame _ _).2.1, (addXP_frame _ _).2.1]
  · intro hty
    show (User.IncreaseAttribute _ task.TaskType _).Agility = _
    rw [hty, (increaseAttribute_known _ _).2.1, (addGold_frame _ _).2.2.1,
      (addXP_frame _ _).2.2.1]
  · intro hty
    show (User.IncreaseAttribute _ task.TaskType _).Intelligence = _
    rw [hty, (increaseAttribute_known _ _).2.2.1, (addGold_frame _ _).2.2.2.1,
      (addXP_frame _ _).2.2.2.1]
  · intro hty
    show (User.IncreaseAttribute _ task.TaskType _).Insight = _
    rw [hty, (increaseAttribute_known _ _).2.2.2, (addGold_frame _ _).2.2.2.2,
      (addXP_frame _ _).2.2.2.2]

/-- C13 at the sample task in progress, completed by its owner at the instant 1 with a
valid license: 10 experience and 5 gold are granted, strength grows from 1 to 2. -/
theorem completeTask_success_witness :
    (plainTaskService.CompleteTask inProgressStore 1 1 1).2
      = .ok { Task := { (sampleTask.Start 0).1 with Status := TaskStatusCompleted,
                                                    CompletedAt := some 1 },
              LeveledUp := false, NewLevel := 1,
              Rewards := { XP := 10, Gold := 5, StatBoost := 1, StatType := TypeStrength } } ∧
    UserRepository.GetByID (plainTaskService.CompleteTask inProgressStore 1 1 1).1 1
      = .ok { sampleUser with Energy := 90, XP := 10, Gold := 105, Strength := 2 } :=
  have h := completeTask_success plainTaskService inProgressStore 1 1 1 (sampleTask.Start 0).1
    { sampleUser with Energy := 90 } rfl rfl rfl (by decide) (by decide) (by decide) rfl rfl
  ⟨h.1, h.2.2.1⟩

/-! ## The decline of an urgent call -/

/-- C20: for a stored task that the caller owns, `DeclineUrgentCall` fails with
`ErrTaskNotActive` and stores nothing when the task is not flagged urgent; otherwise, for
a stored caller and a store that does not refuse the two updates, it succeeds, the stored
user differs from the one before in its gold only, which is `max 0 (gold - penalty)`, and
the stored task has the status failed and `CompletedAt = now`. -/
theorem declineUrgentCall_spec (svc : TaskService) (s : Store) (now : Time)
    (taskID userID : Int) (task : Task)
    (hT : TaskRepository.GetByID s taskID = .ok task) (hown : task.UserID = userID) :
    (task.IsUrgent = false →
      svc.DeclineUrgentCall s now taskID userID = (s, some ErrTaskNotActive)) ∧
    (task.IsUrgent = true → ∀ user, UserRepository.GetByID s userID = .ok user →
      svc.infra.taskUpdateFails taskID = false → svc.infra.userUpdateFails userID = false →
      (svc.DeclineUrgentCall s now taskID userID).2 = none ∧
      UserRepository.GetByID (svc.DeclineUrgentCall s now taskID userID).1 userID
        = .ok { user with Gold := max 0 (user.Gold - task.Penalty) } ∧
      TaskRepository.GetByID (svc.DeclineUrgentCall s now taskID userID).1 taskID
        = .ok { task with Status := TaskStatusFailed, CompletedAt := some now }) := by
  subst hown
  have hTid := (taskRepo_getByID_ok hT).2
  constructor
  · intro hu
    unfold TaskService.DeclineUrgentCall
    simp only [hT, ne_eq, not_true_eq_false, if_false, hu, if_true]
  · intro hu user hU hioT hioU
    have hUid := (userRepo_getByID_ok hU).2
    have hgold : user.AddGold (-task.Penalty)
        = { user with Gold := max 0 (user.Gold - task.Penalty) } := by
      unfold User.AddGold
      dsimp only
      split
      · have h0 : max 0 (user.Gold - task.Penalty) = 0 := by omega
        rw [h0]
      · have h0 : max 0 (user.Gold - task.Penalty) = user.Gold + -task.Penalty := by omega
        rw [h0]
    obtain ⟨s1, hu1, hg1, _, husers1⟩ := taskRepo_update_success svc.infra s (task.Fail now)
      (by show svc.infra.taskUpdateFails task.ID = false; rw [hTid]; exact hioT)
    obtain ⟨s2, hu2, hg2, _, htasks2⟩ := userRepo_update_success svc.infra s1
      { user with Gold := max 0 (user.Gold - task.Penalty) }
      (by show svc.infra.userUpdateFails user.ID = false; rw [hUid]; exact hioU)
    have hmain : svc.DeclineUrgentCall s now taskID task.UserID = (s2, none) := by
      unfold TaskService.DeclineUrgentCall
      simp only [hT, ne_eq, not_true_eq_false, if_false, hu, Bool.true_eq_false, hU, hgold,
        hu1, hu2]
    rw [hmain]
    refine ⟨rfl, ?_, ?_⟩
    · show UserRepository.GetByID s2 task.UserID = _
      rw [← hUid]
      exact hg2
    · show TaskRepository.GetByID s2 taskID = _
      rw [taskRepo_getByID_congr htasks2, ← hTid]
      exact hg1

/-- C20 at the urgent call of the sample user (penalty 5), declined at the instant 2: the
stored gold is 95 and the stored task is failed since the instant 2. -/
theorem declineUrgentCall_spec_witness :
    (plainTaskService.DeclineUrgentCall urgentStore 2 1 1).2 = none ∧
    UserRepository.GetByID (plainTaskService.DeclineUrgentCall urgentStore 2 1 1).1 1
      = .ok { sampleUser with Gold := 95 } ∧
    TaskRepository.GetByID (plainTaskService.DeclineUrgentCall urgentStore 2 1 1).1 1
      = .ok { sampleUrgentTask with Status := TaskStatusFailed, CompletedAt := some 2 } :=
  (declineUrgentCall_spec plainTaskService urgentStore 2 1 1 sampleUrgentTask rfl rfl).2
    (by decide) sampleUser rfl rfl rfl

/-! ## The creation of a custom task -/

/-- A creation of a task that the infrastructure does not refuse, under a next id that no
row carries, stores the aggregate, with the column defaults applied, under that id and
leaves the other rows as they were. -/
theorem taskRepo_create_success (io : Infra) (s : Store) (t : Task)
    (hio : io.taskCreateFails = false)
    (hfresh : s.tasks.any (fun v => decide (v.ID = s.nextTaskID)) = false) :
    ∃ s1, TaskRepository.Create io s t
        = (s1, .ok { t.applyColumnDefaults with ID := s.nextTaskID }) ∧
      TaskRepository.GetByID s1 s.nextTaskID
        = .ok { t.applyColumnDefaults with ID := s.nextTaskID } ∧
      s1.users = s.users := by
  refine ⟨{ s with tasks := s.tasks ++ [{ t.applyColumnDefaults with ID := s.nextTaskID }],
                   nextTaskID := s.nextTaskID + 1 }, ?_, ?_, rfl⟩
  · unfold TaskRepository.Create
    simp only [hio, hfresh, Bool.false_eq_true, if_false]
  · unfold TaskRepository.GetByID
    have hnone : s.tasks.find? (fun v => decide (v.ID = s.nextTaskID)) = none := by
      rw [List.find?_eq_none]
      intro x hx hxe
      have hany : s.tasks.any (fun v => decide (v.ID = s.nextTaskID)) = true :=
        List.any_eq_true.mpr ⟨x, hx, hxe⟩
      rw [hfresh] at hany
      cases hany
    simp only [List.find?_append, hnone, List.find?_cons, decide_True, Option.none_or]

/-- C15 (as stated, refuted): the sample user creates a custom task through an AI port
whose analysis succeeds with difficulty 0, 0 experience, 0 gold and energy cost 0; the
creation applies the column defaults, and the task that is returned and stored carries
difficulty 1, 10 experience, 5 gold and energy cost 10, not the values of the analysis. -/
theorem createCustomTask_zero_analysis_counterexample :
    (zeroAnalysisAI.AnalyzeTask "rest" "sleep").toOption.map
        (fun a => (a.Difficulty, a.XPReward, a.GoldReward, a.EnergyCost))
      = some (0, 0, 0, 0) ∧
    (({ plainTaskService with aiService := some zeroAnalysisAI } : TaskService).CreateCustomTask
        sampleStore 1 "rest" "sleep" TypeStrength).2.toOption.map
        (fun t => (t.AIAnalyzed, t.AIDifficulty, t.XPReward, t.GoldReward, t.EnergyCost))
      = some (true, 1, 10, 5, 10) ∧
    (({ plainTaskService with aiService := some zeroAnalysisAI } : TaskService).CreateCustomTask
        sampleStore 1 "rest" "sleep" TypeStrength).1.tasks.map
        (fun t => (t.ID, t.AIDifficulty, t.XPReward, t.GoldReward, t.EnergyCost))
      = [(1, 1, 10, 5, 10), (2, 1, 10, 5, 10)] := by
  decide

/-- C15 (amended): for a stored user with at least 10 gold and a store that refuses neither
the creation (the next id is free) nor the update, `CreateCustomTask` succeeds whatever the
AI port does: the task is stored active under the next id with 1 attribute point and the
stored gold of the user is 10 less; without a port or with a failing `AnalyzeTask` the task
is not annotated and has the rewards of `CalculateRewards` (10 experience, 5 gold); with a
successful `AnalyzeTask` the task is marked annotated, its type is that of the analysis,
and its difficulty, experience, gold and energy cost are those of the analysis, except
that a value 0 is replaced by the column default (difficulty 1, 10 experience, 5 gold,
energy cost 10). -/
theorem createCustomTask_spec (svc : TaskService) (s : Store) (userID : Int)
    (title description : String) (taskType : TaskType) (user : User)
    (hU : UserRepository.GetByID s userID = .ok user) (hgold : 10 ≤ user.Gold)
    (hioT : svc.infra.taskCreateFails = false)
    (hfresh : s.tasks.any (fun v => decide (v.ID = s.nextTaskID)) = false)
    (hioU : svc.infra.userUpdateFails userID = false) :
    ∃ task, (svc.CreateCustomTask s userID title description taskType).2 = .ok task ∧
      task.Status = TaskStatusActive ∧ task.ID = s.nextTaskID ∧ task.UserID = userID ∧
      task.StatBoost = 1 ∧
      TaskRepository.GetByID (svc.CreateCustomTask s userID title description taskType).1
        task.ID = .ok task ∧
      UserRepository.GetByID (svc.CreateCustomTask s userID title description taskType).1
        userID = .ok { user with Gold := user.Gold - 10 } ∧
      ((svc.aiService = none ∨
          ∃ ai e, svc.aiService = some ai ∧ ai.AnalyzeTask title description = .error e) →
        task.AIAnalyzed = false ∧ task.XPReward = 10 ∧ task.GoldReward = 5 ∧
          task.StatBoost = 1 ∧ task.TaskType = taskType ∧ task.EnergyCost = 10) ∧
      (∀ ai analysis, svc.aiService = some ai →
        ai.AnalyzeTask title description = .ok analysis →
        task.AIAnalyzed = true ∧ task.TaskType = analysis.TaskType ∧
          task.AIDifficulty = (if analysis.Difficulty = 0 then 1 else analysis.Difficulty) ∧
          task.XPReward = (if analysis.XPReward = 0 then 10 else analysis.XPReward) ∧
          task.GoldReward = (if analysis.GoldReward = 0 then 5 else analysis.GoldReward) ∧
          task.EnergyCost = (if analysis.EnergyCost = 0 then 10 else analysis.EnergyCost)) := by
  have hUid := (userRepo_getByID_ok hU).2
  have hspend : user.SpendGold (NewCustomTask userID title description taskType).GoldCost
      = ({ user with Gold := user.Gold - 10 }, none) := by
    unfold User.SpendGold
    show (if user.Gold < 10 then _ else _) = _
    rw [if_neg (by omega)]
    rfl
  obtain ⟨s1, hc1, hg1, husers1⟩ := taskRepo_create_success svc.infra s
    (svc.analyzeOrCalculate (NewCustomTask userID title description taskType) title
      description) hioT hfresh
  obtain ⟨s2, hu2, hg2, _, htasks2⟩ := userRepo_update_success svc.infra s1
    { user with Gold := user.Gold - 10 }
    (by show svc.infra.userUpdateFails user.ID = false; rw [hUid]; exact hioU)
  have hmain : svc.CreateCustomTask s userID title description taskType
      = (s2, .ok { (svc.analyzeOrCalculate (NewCustomTask userID title description taskType)
                     title description).applyColumnDefaults with ID := s.nextTaskID }) := by
    unfold TaskService.CreateCustomTask
    simp only [hU, hspend, hc1, hu2]
  rw [hmain]
  refine ⟨_, rfl, ?_, rfl, ?_, ?_, ?_, ?_, ?_, ?_⟩
  · unfold TaskService.analyzeOrCalculate Task.CalculateRewards NewCustomTask
    cases svc.aiService with
    | none => rfl
    | some ai =>
      dsimp only
      cases ai.AnalyzeTask title description <;> rfl
  · unfold TaskService.analyzeOrCalculate Task.CalculateRewards NewCustomTask
    cases svc.aiService with
    | none => rfl
    | some ai =>
      dsimp only
      cases ai.AnalyzeTask title description <;> rfl
  · unfold TaskService.analyzeOrCalculate Task.CalculateRewards NewCustomTask
    cases svc.aiService with
    | none => rfl
    | some ai =>
      dsimp only
      cases ai.AnalyzeTask title description <;> rfl
  · show TaskRepository.GetByID s2 s.nextTaskID = _
    rw [taskRepo_getByID_congr htasks2]
    exact hg1
  · show UserRepository.GetByID s2 userID = _
    rw [← hUid]
    exact hg2
  · rintro (hnone | ⟨ai, e, hai, herr⟩)
    · unfold TaskService.analyzeOrCalculate Task.CalculateRewards NewCustomTask
      rw [hnone]
      exact ⟨rfl, rfl, rfl, rfl, rfl, rfl⟩
    · unfold TaskService.analyzeOrCalculate Task.CalculateRewards NewCustomTask
      rw [hai]
      dsimp only
      rw [herr]
      exact ⟨rfl, rfl, rfl, rfl, rfl, rfl⟩
  · intro ai analysis hai hok
    unfold TaskService.analyzeOrCalculate
    rw [hai]
    dsimp only
    rw [hok]
    exact ⟨rfl, rfl, rfl, rfl, rfl, rfl⟩

/-- C15 (amended) at the sample store: with an AI port that fails the task is created
active, not annotated, with the rewards of `CalculateRewards`; with an AI port whose
analysis gives difficulty 2, 20 experience, 10 gold and energy cost 10 the task carries
these values; with an analysis of zeros it carries the column defaults. -/
theorem createCustomTask_spec_witness :
    (∃ task,
      (({ plainTaskService with aiService := some unavailableAI } : TaskService).CreateCustomTask
        sampleStore 1 "read" "a book" TypeIntelligence).2 = .ok task ∧
      task.Status = TaskStatusActive ∧ task.AIAnalyzed = false ∧ task.XPReward = 10 ∧
      task.GoldReward = 5 ∧ task.StatBoost = 1) ∧
    (∃ task,
      (analysingTaskService.CreateCustomTask sampleStore 1 "read" "a book" TypeStrength).2
        = .ok task ∧
      task.AIAnalyzed = true ∧ task.TaskType = TypeIntelligence ∧ task.AIDifficulty = 2 ∧
      task.XPReward = 20 ∧ task.GoldReward = 10 ∧ task.EnergyCost = 10) ∧
    (∃ task,
      (({ plainTaskService with aiService := some zeroAnalysisAI } : TaskService).CreateCustomTask
        sampleStore 1 "read" "a book" TypeStrength).2 = .ok task ∧
      task.AIAnalyzed = true ∧ task.AIDifficulty = 1 ∧ task.XPReward = 10 ∧
      task.GoldReward = 5 ∧ task.EnergyCost = 10) :=
  have ⟨task, h1, h2, _, _, _, _, _, h7, _⟩ :=
    createCustomTask_spec { plainTaskService with aiService := some unavailableAI }
      sampleStore 1 "read" "a book" TypeIntelligence sampleUser rfl (by decide) rfl rfl rfl
  have h := h7 (Or.inr ⟨unavailableAI, ErrAIServiceUnavailable, rfl, rfl⟩)
  have ⟨task2, g1, _, _, _, _, _, _, _, g8⟩ :=
    createCustomTask_spec analysingTaskService
      sampleStore 1 "read" "a book" TypeStrength sampleUser rfl (by decide) rfl rfl rfl
  have g := g8 analysingAI _ rfl rfl
  have ⟨task3, k1, _, _, _, _, _, _, _, k8⟩ :=
    createCustomTask_spec { plainTaskService with aiService := some zeroAnalysisAI }
      sampleStore 1 "read" "a book" TypeStrength sampleUser rfl (by decide) rfl rfl rfl
  have k := k8 zeroAnalysisAI _ rfl rfl
  ⟨⟨task, h1, h2, h.1, h.2.1, h.2.2.1, h.2.2.2.1⟩,
   ⟨task2, g1, g.1, g.2.1, g.2.2.1, g.2.2.2.1, g.2.2.2.2.1, g.2.2.2.2.2⟩,
   ⟨task3, k1, k.1, k.2.2.1, k.2.2.2.1, k.2.2.2.2.1, k.2.2.2.2.2⟩⟩

/-! ## The advisory chat -/

/-- `UseSenseiRequest` leaves the id of the user as it was. -/
theorem useSenseiRequest_ID (u : User) (now : Time) : (u.UseSenseiRequest now).1.ID = u.ID := by
  rw [useSenseiRequest_eq]
  split
  · rfl
  · split <;> rfl

/-- C19: for a stored user, when no request remains and `now` is not after the reset
instant, `ChatWithSensei` fails with `ErrNoSenseiRequests` and stores nothing, whatever
the AI port is, a nil port included; when a request is consumed, the port is there and the
store does not refuse the update: if `Chat` fails, the call returns that error and the
stored user has one request more than the user after the consumption, that is one more
than after a successful chat; if `Chat` succeeds, the call returns the reply and the
stored user is the user after the consumption. -/
theorem chatWithSensei_spec (svc : UserService) (s : Store) (now : Time) (userID : Int)
    (message : String) (history : List ChatMessage) (user : User)
    (hU : UserRepository.GetByID s userID = .ok user) :
    (user.SenseiRequests ≤ 0 → ¬ user.SenseiResetsAt < now →
      svc.ChatWithSensei s now userID message history
        = some (s, .error ErrNoSenseiRequests)) ∧
    (∀ ai consumed, svc.aiService = some ai → user.UseSenseiRequest now = (consumed, none) →
      svc.infra.userUpdateFails userID = false →
      (∀ e, ai.Chat userID message history = .error e →
        ∃ s1, svc.ChatWithSensei s now userID message history = some (s1, .error e) ∧
          UserRepository.GetByID s1 userID
            = .ok { consumed with SenseiRequests := consumed.SenseiRequests + 1 }) ∧
      (∀ reply, ai.Chat userID message history = .ok reply →
        ∃ s1, svc.ChatWithSensei s now userID message history = some (s1, .ok reply) ∧
          UserRepository.GetByID s1 userID = .ok consumed)) := by
  have hUid := (userRepo_getByID_ok hU).2
  constructor
  · intro hle hlt
    have huse : user.UseSenseiRequest now = (user, some ErrNoSenseiRequests) := by
      rw [useSenseiRequest_eq, if_neg (by omega), if_neg hlt]
    unfold UserService.ChatWithSensei
    simp only [hU, huse]
  · intro ai consumed hai huse hio
    have hcid : consumed.ID = userID := by
      have h := useSenseiRequest_ID user now
      rw [huse] at h
      exact h.trans hUid
    constructor
    · intro e hchat
      obtain ⟨s1, hu1, hg1, _, _⟩ := userRepo_update_success svc.infra s
        { consumed with SenseiRequests := consumed.SenseiRequests + 1 }
        (by show svc.infra.userUpdateFails consumed.ID = false; rw [hcid]; exact hio)
      refine ⟨s1, ?_, ?_⟩
      · unfold UserService.ChatWithSensei
        simp only [hU, huse, hai, hchat, hu1]
      · rw [← hcid]
        exact hg1
    · intro reply hchat
      obtain ⟨s1, hu1, hg1, _, _⟩ := userRepo_update_success svc.infra s consumed
        (by rw [hcid]; exact hio)
      refine ⟨s1, ?_, ?_⟩
      · unfold UserService.ChatWithSensei
        simp only [hU, huse, hai, hchat, hu1]
      · rw [← hcid]
        exact hg1

/-- C19 at the sample store with an AI port whose chat fails: the call returns the error
of the port and the stored user has its 5 requests again. -/
theorem chatWithSensei_spec_witness :
    ∃ s1,
      ({ plainUserService with aiService := some unavailableAI } : UserService).ChatWithSensei
          sampleStore 1 1 "hello" [] = some (s1, .error ErrAIServiceUnavailable) ∧
      UserRepository.GetByID s1 1 = .ok sampleUser :=
  ((chatWithSensei_spec { plainUserService with aiService := some unavailableAI } sampleStore 1
      1 "hello" [] sampleUser rfl).2 unavailableAI { sampleUser with SenseiRequests := 4 } rfl
      rfl rfl).1 ErrAIServiceUnavailable rfl

/-! ## From a new user to a completed task -/

/-- C14: a user newly created by `GetOrCreateUser` in the empty store (gold 100, energy
100 of 100, level 1, no experience, license valid) creates, without an AI port, a custom
task of one of the four types: the call succeeds, the stored gold is 90 and the task is
active; `StartTask` then stores energy 90 and the status in progress; `CompleteTask`,
before the license expires, then stores the status completed, gold 95, experience 10 and
level 1, reports no level-up, and the attribute of the type of the task has grown by the
`StatBoost` of the task, which is 1. -/
theorem end_to_end_scenario (now0 t1 t2 : Time) (telegramID : Int)
    (username firstName photoURL title description : String) (taskType : TaskType)
    (hty : taskType = TypeStrength ∨ taskType = TypeAgility ∨ taskType = TypeIntelligence ∨
      taskType = TypeInsight)
    (hlic : t2 < now0 + sevenDays) :
    let r0 := plainUserService.GetOrCreateUser emptyStore now0 telegramID username firstName
      photoURL
    let r1 := plainTaskService.CreateCustomTask r0.1 1 title description taskType
    let r2 := plainTaskService.StartTask r1.1 t1 1 1
    let r3 := plainTaskService.CompleteTask r2.1 t2 1 1
    (r0.1.users.map (fun u => (u.ID, u.Gold, u.Energy, u.MaxEnergy, u.Level, u.XP,
        u.IsLicenseValid now0)) = [(1, 100, 100, 100, 1, 0, true)]) ∧
    (r1.2.toOption.map (fun t => (t.ID, t.Status)) = some (1, TaskStatusActive)) ∧
    (r1.1.users.map (fun u => u.Gold) = [90]) ∧
    (r1.1.tasks.map (fun t => (t.ID, t.Status)) = [(1, TaskStatusActive)]) ∧
    (r2.2 = none) ∧
    (r2.1.users.map (fun u => u.Energy) = [90]) ∧
    (r2.1.tasks.map (fun t => t.Status) = [TaskStatusInProgress]) ∧
    (r3.2.toOption.map (fun r => (r.LeveledUp, r.NewLevel, r.Rewards.XP, r.Rewards.Gold,
        r.Rewards.StatBoost)) = some (false, 1, 10, 5, 1)) ∧
    (r3.1.tasks.map (fun t => t.Status) = [TaskStatusCompleted]) ∧
    (r3.1.users.map (fun u => (u.Gold, u.XP, u.Level)) = [(95, 10, 1)]) ∧
    (r3.1.users.map (fun u => (u.Strength, u.Agility, u.Intelligence, u.Insight))
      = [(if taskType = TypeStrength then 2 else 1, if taskType = TypeAgility then 2 else 1,
          if taskType = TypeIntelligence then 2 else 1,
          if taskType = TypeInsight then 2 else 1)]) := by
  intro r0 r1 r2 r3
  have e0 : r0 =
      ({ users := [scenarioUser now0 telegramID username firstName photoURL],
         tasks := [], nextUserID := 2, nextTaskID := 1 },
       .ok (scenarioUser now0 telegramID username firstName photoURL)) := rfl
  have e1 : r1 =
      ({ users := [{ scenarioUser now0 telegramID username firstName photoURL with
                     Gold := 90 }],
         tasks := [scenarioTask title description taskType], nextUserID := 2,
         nextTaskID := 2 },
       .ok (scenarioTask title description taskType)) := rfl
  have e2 : r2 =
      ({ users := [{ scenarioUser now0 telegramID username firstName photoURL with
                     Gold := 90, Energy := 90 }],
         tasks := [{ scenarioTask title description taskType with
                     Status := TaskStatusInProgress, StartedAt := some t1 }],
         nextUserID := 2, nextTaskID := 2 }, none) := rfl
  have hvalid0 : (scenarioUser now0 telegramID username firstName photoURL).IsLicenseValid now0
      = true := by
    have h0 : 0 < sevenDays := by decide
    have h7 : now0 < now0 + sevenDays := lt_add_of_pos_right now0 h0
    unfold User.IsLicenseValid
    exact (Bool.true_and _).trans (decide_eq_true h7)
  have hT : TaskRepository.GetByID r2.1 1
      = .ok { scenarioTask title description taskType with
              Status := TaskStatusInProgress, StartedAt := some t1 } := rfl
  have hU : UserRepository.GetByID r2.1 1
      = .ok { scenarioUser now0 telegramID username firstName photoURL with
              Gold := 90, Energy := 90 } := rfl
  have hpen : TaskService.applyLicensePenalty
      { scenarioTask title description taskType with
        Status := TaskStatusInProgress, StartedAt := some t1 }
      { scenarioUser now0 telegramID username firstName photoURL with Gold := 90, Energy := 90 }
      t2 = { scenarioTask title description taskType with
             Status := TaskStatusInProgress, StartedAt := some t1 } := by
    have hv : ({ scenarioUser now0 telegramID username firstName photoURL with
                 Gold := 90, Energy := 90 } : User).IsLicenseValid t2 = true := by
      unfold User.IsLicenseValid
      exact (Bool.true_and _).trans (decide_eq_true hlic)
    unfold TaskService.applyLicensePenalty
    rw [if_neg]
    rw [hv]
    simp
  have e3 : r3 = plainTaskService.CompleteTask r2.1 t2 1 1 := rfl
  unfold TaskService.CompleteTask at e3
  simp only [hT, hU, hpen] at e3
  refine ⟨?_, rfl, rfl, rfl, rfl, rfl, rfl, ?_, ?_, ?_, ?_⟩
  · rw [e0]
    simp only [List.map_cons, List.map_nil, hvalid0]
    rfl
  · rw [e3]
    rcases hty with rfl | rfl | rfl | rfl <;> rfl
  · rw [e3]
    rcases hty with rfl | rfl | rfl | rfl <;> rfl
  · rw [e3]
    rcases hty with rfl | rfl | rfl | rfl <;> rfl
  · rw [e3]
    rcases hty with rfl | rfl | rfl | rfl <;> rfl


/-- C14 for a task of the type strength, created, started at the instant 1 and completed
at the instant 2 by a user created at the instant 0: gold 95, experience 10, level 1. -/
theorem end_to_end_scenario_witness :
    (plainTaskService.CompleteTask
      (plainTaskService.StartTask
        (plainTaskService.CreateCustomTask
          (plainUserService.GetOrCreateUser emptyStore 0 12345678 "test_user" "Test" "").1
          1 "run" "" TypeStrength).1 1 1 1).1 2 1 1).1.users.map
      (fun u => (u.Gold, u.XP, u.Level)) = [(95, 10, 1)] :=
  (end_to_end_scenario 0 1 2 12345678 "test_user" "Test" "" "run" "" TypeStrength
    (Or.inl rfl) (by decide)).2.2.2.2.2.2.2.2.2.1

/-! ## The rewards and the remaining time of a task -/

/-- C21: for a task whose difficulty `d` is not negative, with `d' = 1` when `d = 0` and
`d' = d` otherwise, `CalculateRewards` sets `StatBoost` to 1 and, when the task is not
urgent, `XPReward` to `10 * d'` and `GoldReward` to `5 * d'`; when the task is urgent,
`XPReward` to `10 * d'` times 1.5 truncated, which is `15 * d'`, and `GoldReward` to
`5 * d'` times 1.5 truncated, which is `15 * d' / 2` rounded down; no other field
changes. -/
theorem calculateRewards_spec (t : Task) (hd : 0 ≤ t.AIDifficulty) :
    (t.IsUrgent = false →
      t.CalculateRewards
        = { t with XPReward := 10 * (if t.AIDifficulty = 0 then 1 else t.AIDifficulty),
                   GoldReward := 5 * (if t.AIDifficulty = 0 then 1 else t.AIDifficulty),
                   StatBoost := 1 }) ∧
    (t.IsUrgent = true →
      t.CalculateRewards
        = { t with XPReward := 15 * (if t.AIDifficulty = 0 then 1 else t.AIDifficulty),
                   GoldReward := 15 * (if t.AIDifficulty = 0 then 1 else t.AIDifficulty) / 2,
                   StatBoost := 1 }) := by
  have hpos : 0 < (if t.AIDifficulty = 0 then 1 else t.AIDifficulty) := by
    split <;> omega
  unfold Task.CalculateRewards
  dsimp only
  generalize (if t.AIDifficulty = 0 then 1 else t.AIDifficulty) = d at hpos ⊢
  have hxp : mulOneAndHalf (10 * d) = 15 * d := by
    unfold mulOneAndHalf
    rw [Int.tdiv_eq_ediv (by omega) (by decide)]
    omega
  have hgold : mulOneAndHalf (5 * d) = 15 * d / 2 := by
    unfold mulOneAndHalf
    rw [Int.tdiv_eq_ediv (by omega) (by decide)]
    omega
  constructor
  · intro hu
    simp only [hu, Bool.false_eq_true, if_false]
  · intro hu
    simp only [hu, if_true, hxp, hgold]

/-- C21 at the sample task with difficulty 3: not urgent it pays 30 experience and 15
gold, urgent 45 experience and 22 gold. -/
theorem calculateRewards_spec_witness :
    ({ sampleTask with AIDifficulty := 3 } : Task).CalculateRewards
        = { sampleTask with AIDifficulty := 3, XPReward := 30, GoldReward := 15,
                            StatBoost := 1 } ∧
    ({ sampleTask with AIDifficulty := 3, IsUrgent := true } : Task).CalculateRewards
        = { sampleTask with AIDifficulty := 3, IsUrgent := true, XPReward := 45,
                            GoldReward := 22, StatBoost := 1 } :=
  ⟨(calculateRewards_spec { sampleTask with AIDifficulty := 3 } (by decide)).1 rfl,
   (calculateRewards_spec { sampleTask with AIDifficulty := 3, IsUrgent := true }
      (by decide)).2 rfl⟩

/-- The time that remains of an urgent task with an expiry, written with `max`. -/
theorem getTimeRemaining_urgent (t : Task) (now deadline : Time) (hu : t.IsUrgent = true)
    (hd : t.UrgentUntil = some deadline) :
    t.GetTimeRemaining now = max 0 (deadline - now) := by
  unfold Task.GetTimeRemaining
  rw [hu, hd]
  dsimp only
  split
  · rename_i h
    exact (max_eq_left (le_of_lt h)).symm
  · rename_i h
    exact (max_eq_right (not_lt.mp h)).symm

/-- No time remains of a task that is not urgent. -/
theorem getTimeRemaining_not_urgent (t : Task) (now : Time) (hu : t.IsUrgent = false) :
    t.GetTimeRemaining now = 0 := by
  unfold Task.GetTimeRemaining
  rw [hu]

/-- C22: the task that `NewUrgentCall` builds at the instant `t0` for a positive duration
`d` is urgent, of frequency urgent, active, with penalty 5, 15 experience and 7 gold as
rewards, `StatBoost` 1 and `UrgentUntil = t0 + d`; its `GetTimeRemaining` at `t` is
`max 0 (t0 + d - t)`, so it is positive at `t0` and 0 at every `t` after `UrgentUntil`;
and `GetTimeRemaining` is 0 for every task that is not urgent. -/
theorem newUrgentCall_spec (t0 : Time) (userID : Int) (title : String) (taskType : TaskType)
    (d : Duration) (hd : 0 < d) :
    NewUrgentCall t0 userID title taskType d
      = { Task.zero with UserID := userID, Title := title, TaskType := taskType,
                         Frequency := FrequencyUrgent, Status := TaskStatusActive,
                         EnergyCost := 15, IsUrgent := true, UrgentUntil := some (t0 + d),
                         Penalty := 5, XPReward := 15, GoldReward := 7, StatBoost := 1 } ∧
    (∀ t : Time, (NewUrgentCall t0 userID title taskType d).GetTimeRemaining t
      = max 0 (t0 + d - t)) ∧
    0 < (NewUrgentCall t0 userID title taskType d).GetTimeRemaining t0 ∧
    (∀ t : Time, t0 + d < t →
      (NewUrgentCall t0 userID title taskType d).GetTimeRemaining t = 0) ∧
    (∀ (task : Task) (t : Time), task.IsUrgent = false → task.GetTimeRemaining t = 0) := by
  have hnew : NewUrgentCall t0 userID title taskType d
      = { Task.zero with UserID := userID, Title := title, TaskType := taskType,
                         Frequency := FrequencyUrgent, Status := TaskStatusActive,
                         EnergyCost := 15, IsUrgent := true, UrgentUntil := some (t0 + d),
                         Penalty := 5, XPReward := 15, GoldReward := 7, StatBoost := 1 } := rfl
  have hrem : ∀ t : Time, (NewUrgentCall t0 userID title taskType d).GetTimeRemaining t
      = max 0 (t0 + d - t) := by
    intro t
    exact getTimeRemaining_urgent _ t (t0 + d) rfl rfl
  refine ⟨hnew, hrem, ?_, ?_, ?_⟩
  · rw [hrem]
    have h : t0 + d - t0 = d := by ring
    rw [h]
    exact lt_max_of_lt_right hd
  · intro t ht
    rw [hrem]
    have h : t0 + d - t ≤ 0 := by linarith
    exact max_eq_left h
  · intro task t hu
    exact getTimeRemaining_not_urgent task t hu

/-- C22 for a call of one hour built at the instant 0: one hour remains at the instant 0,
nothing one nanosecond after the expiry. -/
theorem newUrgentCall_spec_witness :
    0 < (NewUrgentCall 0 1 "call" TypeStrength hour).GetTimeRemaining 0 ∧
    (NewUrgentCall 0 1 "call" TypeStrength hour).GetTimeRemaining (hour + 1) = 0 :=
  have h := newUrgentCall_spec 0 1 "call" TypeStrength hour (by decide)
  ⟨h.2.2.1, h.2.2.2.1 (hour + 1) (by decide)⟩

/-! ## The license window and the threshold of a level -/

/-- C23: `IsLicenseValid` at `now` is the conjunction of the active flag and
`now < expiry`, so two users with the same flag and the same expiry have the same
validity; and after `RenewLicense` at `t` the license is valid at every `t'` with
`t ≤ t' < t + 7 days` and not valid at every `t'` from `t + 7 days` on, whatever the flag
and the expiry were. -/
theorem license_window (u : User) (now t : Time) :
    (u.IsLicenseValid now = true ↔ u.LicenseActive = true ∧ now < u.LicenseExpiresAt) ∧
    (∀ v : User, v.LicenseActive = u.LicenseActive →
      v.LicenseExpiresAt = u.LicenseExpiresAt → v.IsLicenseValid now = u.IsLicenseValid now) ∧
    (∀ t' : Time, t ≤ t' → t' < t + 7 * 24 * hour →
      (u.RenewLicense t).IsLicenseValid t' = true) ∧
    (∀ t' : Time, t + 7 * 24 * hour ≤ t' → (u.RenewLicense t).IsLicenseValid t' = false) := by
  refine ⟨?_, ?_, ?_, ?_⟩
  · unfold User.IsLicenseValid
    simp
  · intro v hf he
    unfold User.IsLicenseValid
    rw [hf, he]
  · intro t' _ hlt
    unfold User.IsLicenseValid User.RenewLicense
    exact (Bool.true_and _).trans (decide_eq_true hlt)
  · intro t' hge
    unfold User.IsLicenseValid User.RenewLicense
    exact (Bool.true_and _).trans (decide_eq_false (not_lt.mpr hge))

/-- C23 at the sample user with a revoked license, renewed at the instant 5: valid one
nanosecond before seven days have passed, not valid when they have. -/
theorem license_window_witness :
    (sampleUser.RevokeLicense.RenewLicense 5).IsLicenseValid (5 + 7 * 24 * hour - 1) = true ∧
    (sampleUser.RevokeLicense.RenewLicense 5).IsLicenseValid (5 + 7 * 24 * hour) = false :=
  have h := license_window sampleUser.RevokeLicense 0 5
  ⟨h.2.2.1 (5 + 7 * 24 * hour - 1) (by decide) (by decide),
   h.2.2.2 (5 + 7 * 24 * hour) (by decide)⟩

/-- C24: for a user of level `L`, in particular for `L ≥ 1`, `CalculateXPToNextLevel`
returns `100 * L * L / 2`, the division truncating, which here is the floor since
`100 * L * L` is not negative; and two users of the same level get the same result. -/
theorem calculateXPToNextLevel_spec (u : User) :
    u.CalculateXPToNextLevel = Int.tdiv (100 * u.Level * u.Level) 2 ∧
    u.CalculateXPToNextLevel = 100 * u.Level * u.Level / 2 ∧
    (∀ v : User, v.Level = u.Level → v.CalculateXPToNextLevel = u.CalculateXPToNextLevel) := by
  refine ⟨rfl, calculateXPToNextLevel_eq u, ?_⟩
  intro v hv
  unfold User.CalculateXPToNextLevel
  rw [hv]

/-- C24 at level 3: the threshold is 450, also for a user that differs from the sample
user in its gold. -/
theorem calculateXPToNextLevel_spec_witness :
    ({ sampleUser with Level := 3 } : User).CalculateXPToNextLevel = 450 ∧
    ({ sampleUser with Level := 3, Gold := 7 } : User).CalculateXPToNextLevel
      = ({ sampleUser with Level := 3 } : User).CalculateXPToNextLevel :=
  ⟨(calculateXPToNextLevel_spec { sampleUser with Level := 3 }).2.1,
   (calculateXPToNextLevel_spec { sampleUser with Level := 3 }).2.2
     { sampleUser with Level := 3, Gold := 7 } rfl⟩

/-! ## The attribute points of a custom task -/

/-- A task that `TaskRepository.Create` returns is the given one, with the column defaults
applied, under the next id of the sequence. -/
theorem taskRepo_create_ok {io : Infra} {s s1 : Store} {t v : Task}
    (h : TaskRepository.Create io s t = (s1, .ok v)) :
    v = { t.applyColumnDefaults with ID := s.nextTaskID } := by
  unfold TaskRepository.Create at h
  split at h
  · cases h
  · split at h
    · cases h
    · cases h
      rfl

/-- The classification step leaves 0 attribute points (an analysis that succeeds) or sets 1
(`CalculateRewards`). -/
theorem analyzeOrCalculate_statBoost (svc : TaskService) (userID : Int)
    (title description : String) (taskType : TaskType) :
    (svc.analyzeOrCalculate (NewCustomTask userID title description taskType) title
        description).StatBoost = 0 ∨
    (svc.analyzeOrCalculate (NewCustomTask userID title description taskType) title
        description).StatBoost = 1 := by
  unfold TaskService.analyzeOrCalculate Task.CalculateRewards NewCustomTask
  cases svc.aiService with
  | none => exact Or.inr rfl
  | some ai =>
    dsimp only
    cases ai.AnalyzeTask title description with
    | error e => exact Or.inr rfl
    | ok analysis => exact Or.inl rfl

/-- A task that `TaskRepository.Create` returns is the row under its id. -/
theorem taskRepo_create_ok_row {io : Infra} {s s1 : Store} {t v : Task}
    (h : TaskRepository.Create io s t = (s1, .ok v)) :
    TaskRepository.GetByID s1 v.ID = .ok v := by
  unfold TaskRepository.Create at h
  split at h
  · cases h
  · split at h
    · cases h
    · rename_i hio hany
      cases h
      unfold TaskRepository.GetByID
      have hnone : s.tasks.find? (fun v => decide (v.ID = s.nextTaskID)) = none := by
        rw [List.find?_eq_none]
        intro x hx hxe
        exact hany (List.any_eq_true.mpr ⟨x, hx, hxe⟩)
      simp only [List.find?_append, hnone, List.find?_cons, decide_True, Option.none_or]

/-- A successful `Start` leaves the attribute points of the task as they were. -/
theorem start_statBoost {t t1 : Task} {now : Time} (h : t.Start now = (t1, none)) :
    t1.StatBoost = t.StatBoost := by
  unfold Task.Start at h
  split at h <;> cases h
  rfl

/-- A successful `Complete` after the license penalty leaves the id, the type and the
attribute points of the task as they were. -/
theorem complete_penalty_frame {t t1 : Task} {u : User} {now : Time}
    (h : (TaskService.applyLicensePenalty t u now).Complete now = (t1, none)) :
    t1.ID = t.ID ∧ t1.TaskType = t.TaskType ∧ t1.StatBoost = t.StatBoost := by
  unfold Task.Complete at h
  split at h
  · cases h
  · cases h
    unfold TaskService.applyLicensePenalty
    split <;> exact ⟨rfl, rfl, rfl⟩

/-- `IncreaseAttribute` adds the amount to the attribute that the type names and leaves the
three others as they were; a type that names none leaves the four as they were. -/
theorem increaseAttribute_attrs (u : User) (ty : String) (amount : Int) :
    (u.IncreaseAttribute ty amount).Strength
      = u.Strength + (if ty = TypeStrength then amount else 0) ∧
    (u.IncreaseAttribute ty amount).Agility
      = u.Agility + (if ty = TypeAgility then amount else 0) ∧
    (u.IncreaseAttribute ty amount).Intelligence
      = u.Intelligence + (if ty = TypeIntelligence then amount else 0) ∧
    (u.IncreaseAttribute ty amount).Insight
      = u.Insight + (if ty = TypeInsight then amount else 0) := by
  unfold User.IncreaseAttribute
  by_cases h1 : ty = "strength"
  · subst h1
    simp [TypeStrength, TypeAgility, TypeIntelligence, TypeInsight]
  · by_cases h2 : ty = "agility"
    · subst h2
      simp [TypeStrength, TypeAgility, TypeIntelligence, TypeInsight]
    · by_cases h3 : ty = "intelligence"
      · subst h3
        simp [TypeStrength, TypeAgility, TypeIntelligence, TypeInsight]
      · by_cases h4 : ty = "insight"
        · subst h4
          simp [TypeStrength, TypeAgility, TypeIntelligence, TypeInsight]
        · simp [h1, h2, h3, h4, TypeStrength, TypeAgility, TypeIntelligence, TypeInsight]

/-- C25: every task that a successful `CreateCustomTask` returns has `StatBoost = 1`,
whether the AI port is absent, fails or answers (the path of the analysis leaves the field
at 0 and the creation in the store applies the column default 1), and it is the row stored
under its id; each use case leaves the stored `StatBoost` of every task as it was; and a
successful `CompleteTask` of a stored task with `StatBoost = 1` reports 1 attribute point
and stores the caller with the attribute that the type of the task names raised by exactly
1 and the other attributes as they were. -/
theorem createCustomTask_statBoost_one (tsvc : TaskService) (usvc : UserService) (s : Store)
    (now : Time) :
    (∀ (userID : Int) (title description : String) (taskType : TaskType) (s1 : Store)
        (task : Task),
      tsvc.CreateCustomTask s userID title description taskType = (s1, .ok task) →
      task.StatBoost = 1 ∧ TaskRepository.GetByID s1 task.ID = .ok task) ∧
    (∀ (k : Int) (t : Task), TaskRepository.GetByID s k = .ok t →
      (∀ (userID : Int) (title description : String) (taskType : TaskType),
        TaskRepository.GetByID (tsvc.CreateCustomTask s userID title description taskType).1 k
          = .ok t) ∧
      (∀ taskID userID : Int, ∃ t1,
        TaskRepository.GetByID (tsvc.StartTask s now taskID userID).1 k = .ok t1 ∧
        t1.StatBoost = t.StatBoost) ∧
      (∀ taskID userID : Int, ∃ t1,
        TaskRepository.GetByID (tsvc.CompleteTask s now taskID userID).1 k = .ok t1 ∧
        t1.StatBoost = t.StatBoost) ∧
      (∀ taskID userID : Int, ∃ t1,
        TaskRepository.GetByID (tsvc.DeclineUrgentCall s now taskID userID).1 k = .ok t1 ∧
        t1.StatBoost = t.StatBoost) ∧
      (∀ attackerID targetID cost : Int,
        TaskRepository.GetByID (usvc.RaidInactivePlayer s now attackerID targetID cost).1 k
          = .ok t)) ∧
    (∀ (k userID : Int) (t : Task) (user : User) (s3 : Store) (r : TaskCompletionResult),
      TaskRepository.GetByID s k = .ok t → t.StatBoost = 1 →
      UserRepository.GetByID s userID = .ok user →
      tsvc.CompleteTask s now k userID = (s3, .ok r) →
      r.Rewards.StatBoost = 1 ∧ r.Rewards.StatType = t.TaskType ∧
      ∃ stored, UserRepository.GetByID s3 userID = .ok stored ∧
        stored.Strength = user.Strength + (if t.TaskType = TypeStrength then 1 else 0) ∧
        stored.Agility = user.Agility + (if t.TaskType = TypeAgility then 1 else 0) ∧
        stored.Intelligence
          = user.Intelligence + (if t.TaskType = TypeIntelligence then 1 else 0) ∧
        stored.Insight = user.Insight + (if t.TaskType = TypeInsight then 1 else 0)) := by
  refine ⟨?_, ?_, ?_⟩
  · intro userID title description taskType s1 task h
    unfold TaskService.CreateCustomTask at h
    split at h
    · cases h
    · dsimp only at h
      split at h
      · cases h
      · split at h
        · cases h
        · rename_i s2 created hcreate
          have hc := taskRepo_create_ok hcreate
          have hrow := taskRepo_create_ok_row hcreate
          split at h
          · cases h
          · rename_i s4 hupd
            cases h
            constructor
            · rw [hc]
              show (if _ = 0 then 1 else _) = (1 : Int)
              rcases analyzeOrCalculate_statBoost tsvc userID title description taskType
                with h0 | h1
              · rw [if_pos h0]
              · rw [h1]
                rfl
            · rw [taskRepo_getByID_congr (userRepo_update_tasks hupd)]
              exact hrow
  · intro k t hk
    refine ⟨?_, ?_, ?_, ?_, ?_⟩
    · intro userID title description taskType
      exact createCustomTask_task_row tsvc s userID title description taskType hk
    · intro taskID userID
      rcases startTask_task_row tsvc s now taskID userID hk with h | ⟨_, t1, hstart, hrow⟩
      · exact ⟨t, h, rfl⟩
      · exact ⟨t1, hrow, start_statBoost hstart⟩
    · intro taskID userID
      rcases completeTask_task_row tsvc s now taskID userID hk with
        h | ⟨_, user, t1, _, hcomplete, hrow⟩
      · exact ⟨t, h, rfl⟩
      · exact ⟨t1, hrow, (complete_penalty_frame hcomplete).2.2⟩
    · intro taskID userID
      rcases declineUrgentCall_task_row tsvc s now taskID userID hk with h | ⟨_, _, hrow⟩
      · exact ⟨t, h, rfl⟩
      · exact ⟨t.Fail now, hrow, rfl⟩
    · intro attackerID targetID cost
      rw [taskRepo_getByID_congr (raidInactivePlayer_tasks usvc s now attackerID targetID cost)]
      exact hk
  · intro k userID t user s3 r hk hboost hU h
    have hUid := (userRepo_getByID_ok hU).2
    unfold TaskService.CompleteTask at h
    simp only [hk, hU] at h
    split at h
    · cases h
    · split at h
      · cases h
      · rename_i t1 hcomplete
        obtain ⟨_, hty, hsb⟩ := complete_penalty_frame hcomplete
        split at h
        · cases h
        · split at h
          · cases h
          · rename_i s1 hupdT s2 hupdU
            cases h
            have hstored := userRepo_getByID_update_eq hupdU
            have hid : (((user.AddXP t1.XPReward).1.AddGold t1.GoldReward).IncreaseAttribute
                t1.TaskType t1.StatBoost).ID = userID := by
              rw [(increaseAttribute_ID _ _ _).1, (addGold_frame _ _).1, (addXP_frame _ _).1]
              exact hUid
            rw [hid] at hstored
            have hattr := increaseAttribute_attrs
              ((user.AddXP t1.XPReward).1.AddGold t1.GoldReward) t1.TaskType t1.StatBoost
            have hg := addGold_frame (user.AddXP t1.XPReward).1 t1.GoldReward
            have hx := addXP_frame user t1.XPReward
            refine ⟨?_, ?_, _, hstored, ?_, ?_, ?_, ?_⟩
            · show t1.StatBoost = 1
              rw [hsb, hboost]
            · show t1.TaskType = t.TaskType
              exact hty
            · rw [hattr.1, hg.2.1, hx.2.1, hsb, hboost, hty]
            · rw [hattr.2.1, hg.2.2.1, hx.2.2.1, hsb, hboost, hty]
            · rw [hattr.2.2.1, hg.2.2.2.1, hx.2.2.2.1, hsb, hboost, hty]
            · rw [hattr.2.2.2, hg.2.2.2.2, hx.2.2.2.2, hsb, hboost, hty]

/-- C25 at the sample store: the sample user (intelligence 1) creates a custom task through
the AI port whose analysis succeeds; the returned task, stored under the id 2, is marked
analysed and has `StatBoost = 1`; after `StartTask` and `CompleteTask` of that task the
completion reports 1 attribute point and the stored intelligence is 2, the three other
attributes still 1. -/
theorem createCustomTask_statBoost_one_witness :
    (analysingTaskService.CreateCustomTask sampleStore 1 "read" "a chapter"
      TypeIntelligence).2.toOption.map (fun t => (t.ID, t.AIAnalyzed, t.StatBoost))
      = some (2, true, 1) ∧
    (analysingTaskService.CompleteTask
        (analysingTaskService.StartTask
          (analysingTaskService.CreateCustomTask sampleStore 1 "read" "a chapter"
            TypeIntelligence).1 0 2 1).1 0 2 1).2.toOption.map
      (fun r => (r.Task.Status, r.Rewards.StatBoost, r.Rewards.StatType))
      = some (TaskStatusCompleted, 1, TypeIntelligence) ∧
    (analysingTaskService.CompleteTask
        (analysingTaskService.StartTask
          (analysingTaskService.CreateCustomTask sampleStore 1 "read" "a chapter"
            TypeIntelligence).1 0 2 1).1 0 2 1).1.users.map
      (fun u => (u.Strength, u.Agility, u.Intelligence, u.Insight)) = [(1, 1, 2, 1)] ∧
    (∃ task, (analysingTaskService.CreateCustomTask sampleStore 1 "read" "a chapter"
        TypeIntelligence).2 = .ok task ∧ task.StatBoost = 1) := by
  refine ⟨by decide, by decide, by decide, ?_⟩
  have h := (createCustomTask_statBoost_one analysingTaskService plainUserService sampleStore
    0).1 1 "read" "a chapter" TypeIntelligence _ _ rfl
  exact ⟨_, rfl, h.1⟩

/-! ## Spending a negative amount -/

/-- C26 (the code at negative amounts): `SpendGold` and `SpendEnergy` test only that the
resource is not below the amount; with a negative amount that the resource is not below
they succeed and leave the resource above its previous value. So does the debit of the
cost of a raid: the attacker (gold 50) raids the target (gold 100) at the cost -100; the
raid succeeds with the loot 20 and the attacker is stored with 170 gold, 100 more than
`50 + 20`. -/
theorem spend_negative_amount (u : User) (amount : Int) (hneg : amount < 0) :
    (amount ≤ u.Gold →
      u.SpendGold amount = ({ u with Gold := u.Gold - amount }, none) ∧
      u.Gold < (u.SpendGold amount).1.Gold) ∧
    (amount ≤ u.Energy →
      u.SpendEnergy amount = ({ u with Energy := u.Energy - amount }, none) ∧
      u.Energy < (u.SpendEnergy amount).1.Energy) ∧
    (plainUserService.RaidInactivePlayer (raidStore 100) fourDays 1 2 (-100)).2
      = .ok { GoldLooted := 20, XPGained := 5, TargetName := "idle", TargetRank := "E" } ∧
    (plainUserService.RaidInactivePlayer (raidStore 100) fourDays 1 2 (-100)).1.users.map
      (fun v => v.Gold) = [170, 80] := by
  refine ⟨?_, ?_, by rfl, by decide⟩
  · intro h
    have h1 : u.SpendGold amount = ({ u with Gold := u.Gold - amount }, none) := by
      unfold User.SpendGold
      rw [if_neg (by omega)]
    refine ⟨h1, ?_⟩
    rw [h1]
    show u.Gold < u.Gold - amount
    omega
  · intro h
    have h1 : u.SpendEnergy amount = ({ u with Energy := u.Energy - amount }, none) := by
      unfold User.SpendEnergy User.HasEnoughEnergy
      simp [h]
    refine ⟨h1, ?_⟩
    rw [h1]
    show u.Energy < u.Energy - amount
    omega

/-- C26 at the sample user (gold 100, energy 100 of 100): spending -5 gold succeeds and
leaves 105 gold; spending -5 energy succeeds and leaves 105 energy. -/
theorem spend_negative_amount_witness :
    ((-5 : Int) < 0) ∧
    sampleUser.SpendGold (-5) = ({ sampleUser with Gold := 105 }, none) ∧
    sampleUser.SpendEnergy (-5) = ({ sampleUser with Energy := 105 }, none) :=
  ⟨by decide,
   ((spend_negative_amount sampleUser (-5) (by decide)).1 (by decide)).1,
   ((spend_negative_amount sampleUser (-5) (by decide)).2.1 (by decide)).1⟩

/-! ## The derived fields of a user -/

/-- A step that is not `AddXP` or `LevelUp` leaves the id, the level, the threshold and the
maximal energy as they were; the two others keep the id, do not lower the level and keep
the derived fields in agreement with it. -/
theorem user_step_frame {u v : User} (h : User.Step u v) :
    v.ID = u.ID ∧ u.Level ≤ v.Level ∧ (u.DerivedFieldsOK → v.DerivedFieldsOK) := by
  have hsame : ∀ w : User, w.ID = u.ID → w.Level = u.Level → w.XPToNextLvl = u.XPToNextLvl →
      w.MaxEnergy = u.MaxEnergy →
      w.ID = u.ID ∧ u.Level ≤ w.Level ∧ (u.DerivedFieldsOK → w.DerivedFieldsOK) := by
    intro w h1 h2 h3 h4
    refine ⟨h1, by omega, ?_⟩
    unfold User.DerivedFieldsOK
    rw [h2, h3, h4]
    exact id
  cases h with
  | addXP xp =>
    rw [addXP_eq]
    unfold User.DerivedFieldsOK
    split
    · refine ⟨rfl, ?_, ?_⟩
      · show u.Level ≤ u.Level + 1
        omega
      · rintro ⟨h1, _, h3⟩
        refine ⟨?_, rfl, ?_⟩
        · show 1 ≤ u.Level + 1
          omega
        · show u.MaxEnergy + 10 = 100 + 10 * (u.Level + 1 - 1)
          omega
    · refine ⟨rfl, le_refl _, ?_⟩
      rintro ⟨h1, _, h3⟩
      exact ⟨h1, rfl, h3⟩
  | levelUp =>
    unfold User.DerivedFieldsOK
    refine ⟨rfl, ?_, ?_⟩
    · show u.Level ≤ u.Level + 1
      omega
    · rintro ⟨h1, _, h3⟩
      refine ⟨?_, ?_, ?_⟩
      · show 1 ≤ u.Level + 1
        omega
      · exact calculateXPToNextLevel_eq
          { u with Level := u.Level + 1, XP := u.XP - u.XPToNextLvl }
      · show u.MaxEnergy + 10 = 100 + 10 * (u.Level + 1 - 1)
        omega
  | addGold amount =>
    apply hsame <;> (unfold User.AddGold; dsimp only; split <;> rfl)
  | spendGold amount =>
    apply hsame <;> (unfold User.SpendGold; split <;> rfl)
  | spendEnergy amount =>
    apply hsame <;> (unfold User.SpendEnergy; split <;> rfl)
  | restoreEnergy amount =>
    apply hsame <;> (unfold User.RestoreEnergy; dsimp only; split <;> rfl)
  | renewLicense now => exact hsame _ rfl rfl rfl rfl
  | revokeLicense => exact hsame _ rfl rfl rfl rfl
  | canUseSensei now =>
    apply hsame <;>
      (unfold User.CanUseSensei; dsimp only; split <;> [(split <;> rfl); rfl])
  | useSenseiRequest now =>
    apply hsame <;> (rw [useSenseiRequest_eq]; split <;> [rfl; (split <;> rfl)])
  | buySenseiRequest cost =>
    apply hsame <;>
      (unfold User.BuySenseiRequest User.SpendGold; by_cases hc : u.Gold < cost <;> simp [hc])
  | increaseAttribute taskType amount =>
    apply hsame <;> (unfold User.IncreaseAttribute; repeat (first | rfl | split))
  | updateActivity now => exact hsame _ rfl rfl rfl rfl
  | setDisplayFields username firstName photoURL => exact hsame _ rfl rfl rfl rfl
  | refundSenseiRequest => exact hsame _ rfl rfl rfl rfl

/-- A sequence of steps keeps the id, does not lower the level and keeps the derived fields
in agreement with it. -/
theorem user_steps_frame {u v : User} (h : Relation.ReflTransGen User.Step u v) :
    v.ID = u.ID ∧ u.Level ≤ v.Level ∧ (u.DerivedFieldsOK → v.DerivedFieldsOK) := by
  induction h with
  | refl => exact ⟨rfl, le_refl _, id⟩
  | tail _ hstep ih =>
    obtain ⟨h1, h2, h3⟩ := user_step_frame hstep
    exact ⟨h1.trans ih.1, le_trans ih.2.1 h2, fun h => h3 (ih.2.2 h)⟩

/-- A user that `UserRepository.Create` returns is the given one, with the column defaults
applied, under the next id of the sequence. -/
theorem userRepo_create_ok {io : Infra} {s s1 : Store} {u v : User}
    (h : UserRepository.Create io s u = (s1, .ok v)) :
    v = { u.applyColumnDefaults with ID := s.nextUserID } := by
  unfold UserRepository.Create at h
  split at h
  · cases h
  · split at h
    · cases h
    · cases h
      rfl

/-- A user that `GetOrCreateUser` has just created has level 1, threshold 50 and maximal
energy 100. -/
theorem created_derivedFieldsOK {u : User} (h : u.Created) : u.DerivedFieldsOK := by
  obtain ⟨svc, s, s1, now, telegramID, username, firstName, photoURL, hget, hcall⟩ := h
  unfold UserService.GetOrCreateUser at hcall
  rw [hget] at hcall
  simp only [if_true] at hcall
  split at hcall
  · cases hcall
  · rename_i s2 user hcreate
    cases hcall
    have hu := userRepo_create_ok hcreate
    subst hu
    exact ⟨show (1 : Int) ≤ 1 from le_refl 1, by rfl, by rfl⟩

/-- A reachable user state has its derived fields in agreement with its level. -/
theorem reachable_derivedFieldsOK {u : User} (h : User.Reachable u) : u.DerivedFieldsOK := by
  induction h with
  | created hc => exact created_derivedFieldsOK hc
  | step _ hstep ih => exact (user_step_frame hstep).2.2 ih

/-- A sequence of steps from a reachable user state ends in a reachable user state. -/
theorem reachable_steps {u v : User} (hu : User.Reachable u)
    (h : Relation.ReflTransGen User.Step u v) : User.Reachable v := by
  induction h with
  | refl => exact hu
  | tail _ hstep ih => exact User.Reachable.step ih hstep

/-- After the creation of a user every user row was there before or is the returned
user. -/
theorem userRepo_create_users {io : Infra} {s s1 : Store} {u : User}
    {r : Except DomainError User} (h : UserRepository.Create io s u = (s1, r)) :
    ∀ v ∈ s1.users, v ∈ s.users ∨ r = .ok v := by
  unfold UserRepository.Create at h
  intro v hv
  split at h
  · cases h
    exact Or.inl hv
  · split at h
    · cases h
      exact Or.inl hv
    · cases h
      simp only [List.mem_append, List.mem_singleton] at hv
      rcases hv with hv | rfl
      · exact Or.inl hv
      · exact Or.inr rfl

/-- Every user row after a use case has just been created by `GetOrCreateUser` or comes
from a row of the store before by a sequence of steps. -/
theorem store_step_users {s s1 : Store} (h : Store.Step s s1) :
    ∀ v ∈ s1.users, v.Created ∨ ∃ u ∈ s.users, Relation.ReflTransGen User.Step u v := by
  have hs : ∀ v ∈ s.users, v.Created ∨ ∃ u ∈ s.users, Relation.ReflTransGen User.Step u v :=
    fun v hv => Or.inr ⟨v, hv, Relation.ReflTransGen.refl⟩
  have one : ∀ u ∈ s.users, ∀ v, User.Step u v →
      v.Created ∨ ∃ u ∈ s.users, Relation.ReflTransGen User.Step u v :=
    fun u hu v hstep => Or.inr ⟨u, hu, Relation.ReflTransGen.single hstep⟩
  have two : ∀ u ∈ s.users, ∀ v w, User.Step u v → User.Step v w →
      w.Created ∨ ∃ u ∈ s.users, Relation.ReflTransGen User.Step u w :=
    fun u hu v w h1 h2 => Or.inr ⟨u, hu, Relation.ReflTransGen.tail
      (Relation.ReflTransGen.single h1) h2⟩
  cases h with
  | getOrCreateUser svc _ now telegramID username firstName photoURL =>
    cases hget : UserRepository.GetByTelegramID s telegramID with
    | ok user =>
      have hmem : user ∈ s.users := by
        unfold UserRepository.GetByTelegramID at hget
        split at hget
        · rename_i w hw
          cases hget
          exact List.mem_of_find?_eq_some hw
        · cases hget
      have hP := two user hmem _ _ (User.Step.updateActivity user now)
        (User.Step.setDisplayFields _ username firstName photoURL)
      unfold UserService.GetOrCreateUser
      simp only [hget]
      split
      · rename_i s2 err hupd
        exact userRepo_update_users _ hupd hs hP
      · rename_i s2 hupd
        exact userRepo_update_users _ hupd hs hP
    | error err =>
      by_cases herr : err = ErrUserNotFound
      · subst herr
        intro v hv
        cases hcall : svc.GetOrCreateUser s now telegramID username firstName photoURL with
        | mk s2 r =>
          rw [hcall] at hv
          have hcall2 := hcall
          unfold UserService.GetOrCreateUser at hcall2
          simp only [hget, if_true] at hcall2
          split at hcall2
          · rename_i s3 err hcreate
            cases hcall2
            rcases userRepo_create_users hcreate v hv with h | h
            · exact hs v h
            · cases h
          · rename_i s3 user hcreate
            cases hcall2
            rcases userRepo_create_users hcreate v hv with h | h
            · exact hs v h
            · cases h
              exact Or.inl ⟨svc, s, _, now, telegramID, username, firstName, photoURL, hget,
                hcall⟩
      · unfold UserService.GetOrCreateUser
        simp only [hget, herr, if_false]
        exact hs
  | getProfile svc _ now userID =>
    unfold UserService.GetProfile
    split
    · exact hs
    · rename_i user hget
      exact userRepo_update_users _ (Prod.mk.eta).symm hs
        (one user (userRepo_getByID_ok hget).1 _ (User.Step.updateActivity user now))
  | renewLicense svc _ now userID =>
    unfold UserService.RenewLicense
    split
    · exact hs
    · rename_i user hget
      exact userRepo_update_users _ (Prod.mk.eta).symm hs
        (one user (userRepo_getByID_ok hget).1 _ (User.Step.renewLicense user now))
  | chatWithSensei svc _ now userID message history r hchat =>
    unfold UserService.ChatWithSensei at hchat
    split at hchat
    · cases hchat
      exact hs
    · rename_i user hget
      have hmem := (userRepo_getByID_ok hget).1
      split at hchat
      · cases hchat
        exact hs
      · rename_i consumed huse
        have hcons : Relation.ReflTransGen User.Step user consumed := by
          have h1 := User.Step.useSenseiRequest user now
          rw [huse] at h1
          exact Relation.ReflTransGen.single h1
        split at hchat
        · cases hchat
        · split at hchat
          · cases hchat
            exact userRepo_update_users _ (Prod.mk.eta).symm hs
              (Or.inr ⟨user, hmem, Relation.ReflTransGen.tail hcons
                (User.Step.refundSenseiRequest consumed)⟩)
          · split at hchat
            · rename_i s2 err hupd
              cases hchat
              exact userRepo_update_users _ hupd hs (Or.inr ⟨user, hmem, hcons⟩)
            · rename_i s2 hupd
              cases hchat
              exact userRepo_update_users _ hupd hs (Or.inr ⟨user, hmem, hcons⟩)
  | raidInactivePlayer svc _ now attackerID targetID cost =>
    apply raidInactivePlayer_users _ svc s now attackerID targetID cost hs
    · intro user hu amount loot xp v hspend
      have h1 := User.Step.spendGold user amount
      rw [hspend] at h1
      exact Or.inr ⟨user, hu, Relation.ReflTransGen.tail
        (Relation.ReflTransGen.tail (Relation.ReflTransGen.single h1)
          (User.Step.addGold v loot)) (User.Step.addXP _ xp)⟩
    · intro user hu amount
      exact one user hu _ (User.Step.addGold user amount)
  | createCustomTask svc _ userID title description taskType =>
    apply createCustomTask_users _ svc s userID title description taskType hs
    intro user hu amount v hspend
    have h1 := User.Step.spendGold user amount
    rw [hspend] at h1
    exact one user hu v h1
  | startTask svc _ now taskID userID =>
    apply startTask_users _ svc s now taskID userID hs
    intro task _ user hu _ v hspend
    have h1 := User.Step.spendEnergy user task.EnergyCost
    rw [hspend] at h1
    exact one user hu v h1
  | completeTask svc _ now taskID userID =>
    apply completeTask_users _ svc s now taskID userID hs
    intro user hu xp gold boost ty
    exact Or.inr ⟨user, hu, Relation.ReflTransGen.tail
      (Relation.ReflTransGen.tail (Relation.ReflTransGen.single (User.Step.addXP user xp))
        (User.Step.addGold _ gold)) (User.Step.increaseAttribute _ ty boost)⟩
  | declineUrgentCall svc _ now taskID userID =>
    apply declineUrgentCall_users _ svc s now taskID userID hs
    intro user hu amount
    exact one user hu _ (User.Step.addGold user amount)

/-- C27: every user state reachable from a user newly created by `GetOrCreateUser` through
mutators has level at least 1, threshold `100 * level * level / 2` and maximal energy
`100 + 10 * (level - 1)`; no mutator lowers the level; every user that a use case stores
has just been created or comes by mutators, hence with the same id and a level that is
not lower, from a user stored before; and so, from a store whose users are reachable
states, every sequence of use cases leads to a store whose users are reachable states with
derived fields in agreement with the level. -/
theorem derived_fields_invariant :
    (∀ u : User, User.Reachable u → u.DerivedFieldsOK) ∧
    (∀ u v : User, Relation.ReflTransGen User.Step u v → v.ID = u.ID ∧ u.Level ≤ v.Level) ∧
    (∀ s s1 : Store, Store.Step s s1 → ∀ v ∈ s1.users,
      v.Created ∨ ∃ u ∈ s.users, v.ID = u.ID ∧ u.Level ≤ v.Level ∧
        Relation.ReflTransGen User.Step u v) ∧
    (∀ s s1 : Store, (∀ u ∈ s.users, User.Reachable u) →
      Relation.ReflTransGen Store.Step s s1 →
      ∀ u ∈ s1.users, User.Reachable u ∧ u.DerivedFieldsOK) := by
  refine ⟨fun u h => reachable_derivedFieldsOK h,
    fun u v h => ⟨(user_steps_frame h).1, (user_steps_frame h).2.1⟩, ?_, ?_⟩
  · intro s s1 hstep v hv
    rcases store_step_users hstep v hv with h | ⟨u, hu, hsteps⟩
    · exact Or.inl h
    · exact Or.inr ⟨u, hu, (user_steps_frame hsteps).1, (user_steps_frame hsteps).2.1, hsteps⟩
  · intro s s1 hs hsteps
    have hreach : ∀ u ∈ s1.users, User.Reachable u := by
      induction hsteps with
      | refl => exact hs
      | tail _ hstep ih =>
        intro v hv
        rcases store_step_users hstep v hv with h | ⟨u, hu, hsteps⟩
        · exact User.Reachable.created h
        · exact reachable_steps (ih u hu) hsteps
    exact fun u hu => ⟨hreach u hu, reachable_derivedFieldsOK (hreach u hu)⟩

/-- C27 at the first user: the user that `GetOrCreateUser` creates in the empty store, after
`AddXP 60`, is a reachable state at level 2 with threshold 200 and maximal energy 110; and
every user stored after `GetOrCreateUser` and `CreateCustomTask` from the empty store is a
reachable state whose derived fields agree with its level. -/
theorem derived_fields_invariant_witness :
    User.Reachable ((scenarioUser 0 7 "ann" "Ann" "").AddXP 60).1 ∧
    ((scenarioUser 0 7 "ann" "Ann" "").AddXP 60).1.DerivedFieldsOK ∧
    ((scenarioUser 0 7 "ann" "Ann" "").AddXP 60).1.Level = 2 ∧
    ((scenarioUser 0 7 "ann" "Ann" "").AddXP 60).1.XPToNextLvl = 200 ∧
    ((scenarioUser 0 7 "ann" "Ann" "").AddXP 60).1.MaxEnergy = 110 ∧
    (plainTaskService.CreateCustomTask
      (plainUserService.GetOrCreateUser emptyStore 0 7 "ann" "Ann" "").1 1 "run" ""
        TypeStrength).1.users.map (fun u => (u.ID, u.Gold)) = [(1, 90)] ∧
    (∀ u ∈ (plainTaskService.CreateCustomTask
        (plainUserService.GetOrCreateUser emptyStore 0 7 "ann" "Ann" "").1 1 "run" ""
          TypeStrength).1.users, User.Reachable u ∧ u.DerivedFieldsOK) := by
  have hreach : User.Reachable ((scenarioUser 0 7 "ann" "Ann" "").AddXP 60).1 :=
    User.Reachable.step
      (User.Reachable.created ⟨plainUserService, emptyStore, _, 0, 7, "ann", "Ann", "", rfl,
        rfl⟩)
      (User.Step.addXP _ 60)
  exact ⟨hreach, derived_fields_invariant.1 _ hreach, by decide, by decide, by decide,
    by decide,
    derived_fields_invariant.2.2.2 emptyStore _ (fun u hu => absurd hu (List.not_mem_nil u))
      (Relation.ReflTransGen.tail
        (Relation.ReflTransGen.single
          (Store.Step.getOrCreateUser plainUserService emptyStore 0 7 "ann" "Ann" ""))
        (Store.Step.createCustomTask plainTaskService _ 1 "run" "" TypeStrength))⟩

/-! ## The rewards of a stored task after a completion -/

/-- The license penalty leaves the status of the task as it was. -/
theorem applyLicensePenalty_status (t : Task) (u : User) (now : Time) :
    (TaskService.applyLicensePenalty t u now).Status = t.Status ∧
    (TaskService.applyLicensePenalty t u now).StatBoost = t.StatBoost := by
  unfold TaskService.applyLicensePenalty
  split <;> exact ⟨rfl, rfl⟩

/-- An update that succeeds was not refused. -/
theorem taskRepo_update_ok_io {io : Infra} {s s1 : Store} {t : Task}
    (h : TaskRepository.Update io s t = (s1, none)) : io.taskUpdateFails t.ID = false := by
  unfold TaskRepository.Update at h
  split at h
  · cases h
  · rename_i hio
    exact Bool.eq_false_iff.mpr hio

/-- The row under an id after `CompleteTask`: when the id is that of the call, the caller
owns the task and is stored, the task is in progress and its update is not refused, it is
the row after the license penalty, completed at `now`; in every other case it is the row
that was there. -/
theorem completeTask_task_row_exact (svc : TaskService) (s : Store) (now : Time)
    (taskID userID : Int) {k : Int} {t : Task} (hk : TaskRepository.GetByID s k = .ok t) :
    (∀ user, k = taskID → t.UserID = userID → t.Status = TaskStatusInProgress →
      svc.infra.taskUpdateFails k = false → UserRepository.GetByID s userID = .ok user →
      TaskRepository.GetByID (svc.CompleteTask s now taskID userID).1 k
        = .ok { TaskService.applyLicensePenalty t user now with
                Status := TaskStatusCompleted, CompletedAt := some now }) ∧
    (¬ (k = taskID ∧ t.UserID = userID ∧ t.Status = TaskStatusInProgress ∧
        svc.infra.taskUpdateFails k = false ∧
        ∃ user, UserRepository.GetByID s userID = .ok user) →
      TaskRepository.GetByID (svc.CompleteTask s now taskID userID).1 k = .ok t) := by
  have hkid := (taskRepo_getByID_ok hk).2
  constructor
  · intro user hkt hown hst hio hU
    subst hkt
    have hcomplete : (TaskService.applyLicensePenalty t user now).Complete now
        = ({ TaskService.applyLicensePenalty t user now with
             Status := TaskStatusCompleted, CompletedAt := some now }, none) := by
      unfold Task.Complete Task.CanComplete
      rw [(applyLicensePenalty_status t user now).1, hst]
      rfl
    have hid : ({ TaskService.applyLicensePenalty t user now with
        Status := TaskStatusCompleted, CompletedAt := some now } : Task).ID = k :=
      (applyLicensePenalty_ID t user now).trans hkid
    obtain ⟨s1, hupd, hget, _, _⟩ := taskRepo_update_success svc.infra s
      { TaskService.applyLicensePenalty t user now with
        Status := TaskStatusCompleted, CompletedAt := some now }
      (by rw [hid]; exact hio)
    rw [hid] at hget
    unfold TaskService.CompleteTask
    simp only [hk, hU, hown, ne_eq, not_true_eq_false, if_false, hcomplete, hupd]
    split
    · rename_i s2 err hupd2
      show TaskRepository.GetByID s2 k = _
      rw [taskRepo_getByID_congr (userRepo_update_tasks hupd2)]
      exact hget
    · rename_i s2 hupd2
      show TaskRepository.GetByID s2 k = _
      rw [taskRepo_getByID_congr (userRepo_update_tasks hupd2)]
      exact hget
  · intro hnot
    rcases completeTask_task_row svc s now taskID userID hk with h | ⟨hkt, _, _, _, _, _⟩
    · exact h
    · subst hkt
      unfold TaskService.CompleteTask
      simp only [hk]
      split
      · exact hk
      · rename_i hown
        have hown1 : t.UserID = userID := not_not.mp hown
        split
        · exact hk
        · rename_i user hU
          split
          · exact hk
          · rename_i t1 hcomplete
            have hst : t.Status = TaskStatusInProgress := by
              have h1 := (complete_ok hcomplete).1
              rw [(applyLicensePenalty_status t user now).1] at h1
              exact h1
            have hid : t1.ID = k :=
              ((complete_ID hcomplete).trans (applyLicensePenalty_ID _ _ _)).trans hkid
            split
            · rename_i s1 err hupd
              rw [(taskRepo_update_error hupd).1]
              exact hk
            · rename_i s1 hupd
              have hio := taskRepo_update_ok_io hupd
              rw [hid] at hio
              exact absurd ⟨rfl, hown1, hst, hio, user, hU⟩ hnot

/-- C7 (as stated, refuted): the sample task, in progress with 10 experience and 5 gold
as rewards, is completed by its owner one nanosecond after the license has expired; the
stored task then carries 5 experience and 2 gold. -/
theorem completeTask_rewards_frozen_counterexample :
    inProgressStore.tasks.map (fun t => (t.Status, t.XPReward, t.GoldReward, t.StatBoost))
      = [(TaskStatusInProgress, 10, 5, 1)] ∧
    (plainTaskService.CompleteTask inProgressStore (sevenDays + 1) 1 1).1.tasks.map
      (fun t => (t.Status, t.XPReward, t.GoldReward, t.StatBoost))
      = [(TaskStatusCompleted, 5, 2, 1)] := by
  decide

/-- C7 (amended): for a stored task whose status is not active, the stored task after
`CreateCustomTask`, `StartTask` and `RaidInactivePlayer` is the one before, and the stored
`StatBoost`, `XPReward` and `GoldReward` after `DeclineUrgentCall` are the ones before;
after `CompleteTask` the stored `StatBoost` is the one before, and the stored `XPReward`
and `GoldReward` are the halves, truncated, of the ones before when the call persists
that task (the id is that of the call, the caller owns the task and is stored, the task is
in progress, its update is not refused) and the task is not of daily frequency and the
license of the caller is not valid at `now`, and the ones before in every other case. -/
theorem rewards_frozen_after_active (tsvc : TaskService) (usvc : UserService) (s : Store)
    (now : Time) (k : Int) (t : Task) (hk : TaskRepository.GetByID s k = .ok t)
    (hst : t.Status ≠ TaskStatusActive) :
    (∀ (userID : Int) (title description : String) (taskType : TaskType),
      TaskRepository.GetByID (tsvc.CreateCustomTask s userID title description taskType).1 k
        = .ok t) ∧
    (∀ taskID userID : Int,
      TaskRepository.GetByID (tsvc.StartTask s now taskID userID).1 k = .ok t) ∧
    (∀ taskID userID : Int, ∃ t1,
      TaskRepository.GetByID (tsvc.CompleteTask s now taskID userID).1 k = .ok t1 ∧
      t1.StatBoost = t.StatBoost ∧
      ((k = taskID ∧ t.UserID = userID ∧ t.Status = TaskStatusInProgress ∧
          tsvc.infra.taskUpdateFails k = false ∧ t.Frequency ≠ FrequencyDaily ∧
          (∃ user, UserRepository.GetByID s userID = .ok user ∧
            user.IsLicenseValid now = false)) →
        t1.Status = TaskStatusCompleted ∧ t1.XPReward = goDiv t.XPReward 2 ∧
          t1.GoldReward = goDiv t.GoldReward 2) ∧
      (¬ (k = taskID ∧ t.UserID = userID ∧ t.Status = TaskStatusInProgress ∧
          tsvc.infra.taskUpdateFails k = false ∧ t.Frequency ≠ FrequencyDaily ∧
          (∃ user, UserRepository.GetByID s userID = .ok user ∧
            user.IsLicenseValid now = false)) →
        t1.XPReward = t.XPReward ∧ t1.GoldReward = t.GoldReward)) ∧
    (∀ taskID userID : Int, ∃ t1,
      TaskRepository.GetByID (tsvc.DeclineUrgentCall s now taskID userID).1 k = .ok t1 ∧
      t1.StatBoost = t.StatBoost ∧ t1.XPReward = t.XPReward ∧
      t1.GoldReward = t.GoldReward) ∧
    (∀ attackerID targetID cost : Int,
      TaskRepository.GetByID (usvc.RaidInactivePlayer s now attackerID targetID cost).1 k
        = .ok t) := by
  refine ⟨?_, ?_, ?_, ?_, ?_⟩
  · intro userID title description taskType
    exact createCustomTask_task_row tsvc s userID title description taskType hk
  · intro taskID userID
    rcases startTask_task_row tsvc s now taskID userID hk with h | ⟨_, t1, hstart, _⟩
    · exact h
    · exact absurd hstart (start_not_active hst)
  · intro taskID userID
    obtain ⟨hdone, hkept⟩ := completeTask_task_row_exact tsvc s now taskID userID hk
    by_cases hQ : k = taskID ∧ t.UserID = userID ∧ t.Status = TaskStatusInProgress ∧
        tsvc.infra.taskUpdateFails k = false ∧
        ∃ user, UserRepository.GetByID s userID = .ok user
    · obtain ⟨hkt, hown, hprog, hio, user, hU⟩ := hQ
      have hrow := hdone user hkt hown hprog hio hU
      refine ⟨_, hrow, (applyLicensePenalty_status t user now).2, ?_, ?_⟩
      · rintro ⟨_, _, _, _, hfreq, user1, hU1, hinv⟩
        have huser : user1 = user := by
          rw [hU] at hU1
          cases hU1
          rfl
        subst huser
        refine ⟨rfl, ?_, ?_⟩
        · show (TaskService.applyLicensePenalty t user1 now).XPReward = _
          unfold TaskService.applyLicensePenalty
          rw [if_pos ⟨hfreq, hinv⟩]
        · show (TaskService.applyLicensePenalty t user1 now).GoldReward = _
          unfold TaskService.applyLicensePenalty
          rw [if_pos ⟨hfreq, hinv⟩]
      · intro hnot
        have hpen : ¬ (t.Frequency ≠ FrequencyDaily ∧ user.IsLicenseValid now = false) :=
          fun h => hnot ⟨hkt, hown, hprog, hio, h.1, user, hU, h.2⟩
        constructor
        · show (TaskService.applyLicensePenalty t user now).XPReward = _
          unfold TaskService.applyLicensePenalty
          rw [if_neg hpen]
        · show (TaskService.applyLicensePenalty t user now).GoldReward = _
          unfold TaskService.applyLicensePenalty
          rw [if_neg hpen]
    · refine ⟨t, hkept hQ, rfl, ?_, ?_⟩
      · rintro ⟨hkt, hown, hprog, hio, _, user, hU, _⟩
        exact absurd ⟨hkt, hown, hprog, hio, user, hU⟩ hQ
      · intro _
        exact ⟨rfl, rfl⟩
  · intro taskID userID
    rcases declineUrgentCall_task_row tsvc s now taskID userID hk with h | ⟨_, _, hrow⟩
    · exact ⟨t, h, rfl, rfl, rfl⟩
    · exact ⟨t.Fail now, hrow, rfl, rfl, rfl⟩
  · intro attackerID targetID cost
    rw [taskRepo_getByID_congr (raidInactivePlayer_tasks usvc s now attackerID targetID cost)]
    exact hk

/-- The amended statement of C7 at the sample task in progress (10 experience, 5 gold):
`StartTask` leaves the stored task as it is; `CompleteTask` by the owner one nanosecond
after the license has expired stores it completed with 5 experience and 2 gold;
`CompleteTask` while the license is valid stores 10 experience and 5 gold. -/
theorem rewards_frozen_after_active_witness :
    TaskRepository.GetByID (plainTaskService.StartTask inProgressStore 5 1 1).1 1
      = .ok ((sampleTask.Start 0).1) ∧
    (∃ t1, TaskRepository.GetByID
        (plainTaskService.CompleteTask inProgressStore (sevenDays + 1) 1 1).1 1 = .ok t1 ∧
      t1.StatBoost = 1 ∧ t1.Status = TaskStatusCompleted ∧ t1.XPReward = 5 ∧
      t1.GoldReward = 2) ∧
    (∃ t1, TaskRepository.GetByID
        (plainTaskService.CompleteTask inProgressStore 5 1 1).1 1 = .ok t1 ∧
      t1.StatBoost = 1 ∧ t1.XPReward = 10 ∧ t1.GoldReward = 5) := by
  have hU : UserRepository.GetByID inProgressStore 1
      = .ok { sampleUser with Energy := 90 } := rfl
  obtain ⟨t1, h1, h2, h3, _⟩ := (rewards_frozen_after_active plainTaskService
    plainUserService inProgressStore (sevenDays + 1) 1 (sampleTask.Start 0).1 rfl
    (by decide)).2.2.1 1 1
  obtain ⟨t2, g1, g2, _, g4⟩ := (rewards_frozen_after_active plainTaskService
    plainUserService inProgressStore 5 1 (sampleTask.Start 0).1 rfl (by decide)).2.2.1 1 1
  have hlate := h3 ⟨rfl, rfl, rfl, rfl, by decide, _, hU, by decide⟩
  have hearly := g4 (by
    rintro ⟨_, _, _, _, _, user, hu, hinv⟩
    rw [hU] at hu
    cases hu
    exact absurd hinv (by decide))
  exact ⟨(rewards_frozen_after_active plainTaskService plainUserService inProgressStore 5 1
      (sampleTask.Start 0).1 rfl (by decide)).2.1 1 1,
    ⟨t1, h1, h2, hlate.1, hlate.2.1, hlate.2.2⟩, ⟨t2, g1, g2, hearly.1, hearly.2⟩⟩

end Dojo
